import Mathlib

/-! # Parking manager: occupancy ledger, billing and notification hub

A shallow embedding of `handlers.go`, `models.go` and `main.go`.

Conventions of the embedding

* `time.Time` is an integer number of nanoseconds since the epoch and
  `time.Duration` an `int64` number of nanoseconds; `Time.Sub` saturates
  exactly as the Go library does.
* A finite `float64` is the rational it denotes, and `float64 x` rounds a
  rational to the nearest value with a 53 bit significand, ties to even.  The
  methods `Hours`, `Minutes` and `Seconds` of a duration are computed as the Go
  library computes them, with a rounding after each operation.  Values here
  lie between `2 ^ (-42)` and `2 ^ 63` in magnitude, away from overflow and
  from subnormal numbers.
* Prices and amounts are rationals and the product `float64(hours) * price`
  is taken exactly; with the default rate 2.5 the `float64` product is exact
  as well (`fallback_product_exact`).
* The expression `duration.Seconds()%3600` does not type-check in Go (`%` is
  not defined on `float64`).  Two ways to make it compile are modelled, the
  floating point remainder `math.Mod` and the remainder of the seconds
  converted to `int`; the billing functions take the reading as a parameter
  and the two agree on every whole number of seconds.
* The database is a record of tables, each table a list of rows in
  insertion order, together with the auto-increment counter of every table.
  Every storage statement of a handler may fail; the statements that fail
  during one call are given by a record of booleans.
* `broadcast <- update` is recorded as an event published by the handler.
* A handler is modelled as one call served from its first statement to its
  return; the calls of a history are served one after another.
* Two calls of `CreateEntry` running at once are modelled by interleaving
  their storage statements, each statement taken as atomic (`EntryCall`,
  `runConcurrently`); a call served alone this way is the handler itself
  (`interleave_first_alone`).
* gorm bookkeeping columns (`CreatedAt`, `UpdatedAt`, `DeletedAt`) that no
  handler reads are left out of the rows, as are the name and the
  coordinates of a parking.
-/

namespace ParkingManager

/-! ## Time -/

/-- Wall-clock instant in nanoseconds since the epoch (`time.Time`). -/
abbrev Time := Int

/-- Elapsed time in nanoseconds (`time.Duration`, an `int64`). -/
abbrev Duration := Int

/-- Smallest value of `time.Duration`. -/
def minDuration : Duration := -(2 ^ 63)

/-- Largest value of `time.Duration`. -/
def maxDuration : Duration := 2 ^ 63 - 1

/-- Nanoseconds in one second (`time.Second`). -/
def Second : Duration := 1000000000

/-- Nanoseconds in one minute (`time.Minute`). -/
def Minute : Duration := 60 * Second

/-- Nanoseconds in one hour (`time.Hour`). -/
def Hour : Duration := 60 * Minute

/-- The duration `t - u` of `time.Time.Sub`: when the difference does not fit
a `Duration` the largest (smallest) duration is returned. -/
def Time.Sub (t u : Time) : Duration :=
  if t - u > maxDuration then maxDuration
  else if t - u < minDuration then minDuration
  else t - u

/-- Rounding of a rational to the nearest integer, a tie going to the even
one. -/
def roundHalfEven (q : ℚ) : Int :=
  if q - (⌊q⌋ : ℚ) < 1 / 2 then ⌊q⌋
  else if 1 / 2 < q - (⌊q⌋ : ℚ) then ⌊q⌋ + 1
  else if ⌊q⌋ % 2 = 0 then ⌊q⌋ else ⌊q⌋ + 1

/-- The `float64` nearest to `x`: `x` is scaled so that its significand has 53
bits, rounded to the nearest integer, ties to even, and scaled back.  The result
of a `float64` operation is the rounding of its exact result, and so is the
conversion of an integer. -/
def float64 (x : ℚ) : ℚ :=
  if x = 0 then 0
  else (roundHalfEven (x / 2 ^ (Int.log 2 |x| - 52)) : ℚ) * 2 ^ (Int.log 2 |x| - 52)

/-- The method `Duration.Hours`:
`float64(d / Hour) + float64(d % Hour)/(60*60*1e9)`, the integer division and
remainder truncating towards zero. -/
def Duration.Hours (d : Duration) : ℚ :=
  float64 (float64 (Int.tdiv d Hour)
    + float64 (float64 (Int.tmod d Hour) / (60 * 60 * 1000000000)))

/-- The method `Duration.Minutes`:
`float64(d / Minute) + float64(d % Minute)/(60*1e9)`. -/
def Duration.Minutes (d : Duration) : ℚ :=
  float64 (float64 (Int.tdiv d Minute)
    + float64 (float64 (Int.tmod d Minute) / (60 * 1000000000)))

/-- The method `Duration.Seconds`:
`float64(d / Second) + float64(d % Second)/1e9`. -/
def Duration.Seconds (d : Duration) : ℚ :=
  float64 (float64 (Int.tdiv d Second)
    + float64 (float64 (Int.tmod d Second) / 1000000000))

/-- The conversion `int(x)` of a floating point number: the fraction is
discarded, rounding towards zero. -/
def truncToInt (x : ℚ) : Int := if 0 ≤ x then ⌊x⌋ else ⌈x⌉

/-- Floating point remainder `math.Mod(x, y)`, with the sign of `x`; the
result is exact. -/
def fmod (x y : ℚ) : ℚ := x - y * (truncToInt (x / y) : ℚ)

/-- The two ways to make `duration.Seconds()%3600` type-check. -/
inductive RemainderReading where
  /-- The remainder `math.Mod(duration.Seconds(), 3600)`. -/
  | mathMod
  /-- The remainder `int(duration.Seconds()) % 3600`. -/
  | intMod
  deriving DecidableEq, Repr

/-- The test `duration.Seconds()%3600 > 0` under a reading of `%`. -/
def remainderPositive (reading : RemainderReading) (seconds : ℚ) : Prop :=
  match reading with
  | RemainderReading.mathMod => fmod seconds 3600 > 0
  | RemainderReading.intMod => Int.tmod (truncToInt seconds) 3600 > 0

instance (reading : RemainderReading) (seconds : ℚ) :
    Decidable (remainderPositive reading seconds) := by
  unfold remainderPositive; cases reading <;> infer_instance

/-! ## Rows (`models.go`) -/

/-- Row of `parkings`. -/
structure Parking where
  ID : Nat
  Capacity : Int
  deriving DecidableEq, Repr

/-- Row of `spots`. -/
structure Spot where
  ID : Nat
  ParkingID : Nat
  Number : String
  IsOccupied : Bool
  deriving DecidableEq, Repr

/-- Row of `tariffs`. -/
structure Tariff where
  ID : Nat
  ParkingID : Nat
  /-- The column `type` (the field `Type`, a reserved word here). -/
  TariffType : String
  Price : ℚ
  deriving DecidableEq, Repr

/-- Row of `entries`; `ExitTime` is the nullable column of the same name. -/
structure Entry where
  ID : Nat
  SpotID : Nat
  VehicleID : Nat
  EntryTime : Time
  ExitTime : Option Time
  deriving DecidableEq, Repr

/-- Row of `exits`. -/
structure Exit where
  ID : Nat
  EntryID : Nat
  ExitTime : Time
  PaymentID : Nat
  deriving DecidableEq, Repr

/-- Row of `vehicles`. -/
structure Vehicle where
  ID : Nat
  LicensePlate : String
  OwnerID : Nat
  deriving DecidableEq, Repr

/-- Row of `payments`. -/
structure Payment where
  ID : Nat
  Amount : ℚ
  Method : String
  Status : String
  CreatedAt : Time
  deriving DecidableEq, Repr

/-- The value sent to the observers (`SpotUpdate` of `main.go`). -/
structure SpotUpdate where
  ParkingID : Nat
  Available : Int
  deriving DecidableEq, Repr

/-! ## The store -/

/-- Contents of the database: the tables and the next primary key of each
table that the handlers insert into. -/
structure DB where
  parkings : List Parking
  spots : List Spot
  tariffs : List Tariff
  entries : List Entry
  exits : List Exit
  vehicles : List Vehicle
  payments : List Payment
  nextSpotID : Nat
  nextEntryID : Nat
  nextExitID : Nat
  nextPaymentID : Nat
  deriving DecidableEq, Repr

/-- The query `db.First(&parking, id)`: the parking with that primary key. -/
def firstParking (db : DB) (id : Nat) : Option Parking :=
  db.parkings.find? (fun p => p.ID == id)

/-- The query `db.First(&spot, id)`: the spot with that primary key. -/
def firstSpot (db : DB) (id : Nat) : Option Spot :=
  db.spots.find? (fun s => s.ID == id)

/-- The query `db.First(&vehicle, id)`: the vehicle with that primary key. -/
def firstVehicle (db : DB) (id : Nat) : Option Vehicle :=
  db.vehicles.find? (fun v => v.ID == id)

/-- The query `db.First(&entry, id)`: the entry with that primary key. -/
def firstEntry (db : DB) (id : Nat) : Option Entry :=
  db.entries.find? (fun e => e.ID == id)

/-- Row of least primary key among `ts` (the `ORDER BY id LIMIT 1` of
`First`). -/
def leastTariff (ts : List Tariff) : Option Tariff :=
  ts.foldl (fun acc t =>
    match acc with
    | none => some t
    | some a => if t.ID < a.ID then some t else some a) none

/-- The query
`db.Where("parking_id = ?", pid).Where("type = ?", ty).First(&tariff)`. -/
def firstTariff (db : DB) (pid : Nat) (ty : String) : Option Tariff :=
  leastTariff (db.tariffs.filter (fun t => t.ParkingID == pid && t.TariffType == ty))

/-- The `UPDATE` of `Save`: `spot` overwrites the rows of its primary key. -/
def replaceSpot (spot : Spot) (spots : List Spot) : List Spot :=
  spots.map (fun b => if b.ID == spot.ID then spot else b)

/-- The `UPDATE` of `Save`: `entry` overwrites the rows of its primary key. -/
def replaceEntry (entry : Entry) (entries : List Entry) : List Entry :=
  entries.map (fun b => if b.ID == entry.ID then entry else b)

/-- The statement `db.Save(&spot)`: the row with the primary key of `spot` is overwritten
(and inserted when there is none). -/
def saveSpot (db : DB) (spot : Spot) : DB :=
  if db.spots.any (fun s => s.ID == spot.ID) then
    { db with spots := replaceSpot spot db.spots }
  else
    { db with spots := db.spots ++ [spot] }

/-- The statement `db.Save(&entry)`: the row with the primary key of `entry` is overwritten
(and inserted when there is none). -/
def saveEntry (db : DB) (entry : Entry) : DB :=
  if db.entries.any (fun e => e.ID == entry.ID) then
    { db with entries := replaceEntry entry db.entries }
  else
    { db with entries := db.entries ++ [entry] }

/-! ## Responses -/

/-- Payload of a JSON response. -/
inductive Body where
  /-- `gin.H{"error": err.Error()}` for a request that failed binding. -/
  | bindingError
  /-- `gin.H{"error": msg}`. -/
  | error (msg : String)
  | spot (s : Spot)
  | entry (e : Entry)
  | exit (x : Exit)
  deriving DecidableEq, Repr

/-- Status code and payload written by `c.JSON`. -/
structure Response where
  status : Nat
  body : Body
  deriving DecidableEq, Repr

/-- What one call of a handler leaves behind: the store, the updates sent on
`broadcast` (oldest first) and the response. -/
structure Outcome where
  db : DB
  events : List SpotUpdate
  resp : Response
  deriving DecidableEq, Repr

/-- The constant `http.StatusBadRequest`. -/
def StatusBadRequest : Nat := 400

/-- The constant `http.StatusNotFound`. -/
def StatusNotFound : Nat := 404

/-- The constant `http.StatusInternalServerError`. -/
def StatusInternalServerError : Nat := 500

/-- The constant `http.StatusCreated`. -/
def StatusCreated : Nat := 201

/-! ## Billing and notification helpers (`handlers.go`) -/

/-- The local `hours` of `calculatePayment`: `int(duration.Hours())`, plus
one when `duration.Minutes() > 0 && duration.Seconds()%3600 > 0`. -/
def billedHours (reading : RemainderReading) (duration : Duration) : Int :=
  let hours := truncToInt duration.Hours
  if duration.Minutes > 0 ∧ remainderPositive reading duration.Seconds then hours + 1
  else hours

/-- The tariff type that `calculatePayment` looks up. -/
def hourlyType : String := "почасовой"

/-- The rate per hour used when the lookup finds no tariff. -/
def defaultRate : ℚ := 2.5

/-- The function `calculatePayment`.  `lookupFails` says that the tariff
query itself returns an error; the query also returns an error when no row
matches.  The product `float64(hours) * price` is taken exactly; with the
default rate it is exact in `float64` as well (`fallback_product_exact`). -/
def calculatePayment (reading : RemainderReading) (db : DB) (lookupFails : Bool)
    (entryTime exitTime : Time) : ℚ :=
  let duration := Time.Sub exitTime entryTime
  let hours := billedHours reading duration
  match (if lookupFails then none else firstTariff db 1 hourlyType) with
  | none => (hours : ℚ) * defaultRate
  | some tariff => (hours : ℚ) * tariff.Price

/-- The function `notifySpotUpdate`: the update it sends on `broadcast`.  The
error of the `Count` query is ignored by the code, which then sends the
initial value `0`. -/
def notifySpotUpdate (db : DB) (countFails : Bool) (parkingID : Nat) : SpotUpdate :=
  let available : Int :=
    if countFails then 0
    else ((db.spots.filter (fun s => s.ParkingID == parkingID && s.IsOccupied == false)).length : Int)
  { ParkingID := parkingID, Available := available }

/-! ## Handlers (`handlers.go`) -/

/-- Storage statements of `AddSpot` that fail during a call. -/
structure AddSpotFaults where
  firstParking : Bool
  createSpot : Bool
  countSpots : Bool
  deriving DecidableEq, Repr

/-- The handler `AddSpot`, for the decoded body `number`; the path parameter
`id` is taken as the number it denotes. -/
def AddSpot (db : DB) (f : AddSpotFaults) (parkingID : Nat) (number : String) : Outcome :=
  if number = "" then
    ⟨db, [], ⟨StatusBadRequest, Body.bindingError⟩⟩
  else
    match (if f.firstParking then none else firstParking db parkingID) with
    | none => ⟨db, [], ⟨StatusNotFound, Body.error "Парковка не найдена"⟩⟩
    | some parking =>
      if f.createSpot then
        ⟨db, [], ⟨StatusInternalServerError, Body.error "Не удалось добавить место"⟩⟩
      else
        let spot : Spot :=
          { ID := db.nextSpotID, ParkingID := parking.ID, Number := number, IsOccupied := false }
        let db1 := { db with spots := db.spots ++ [spot], nextSpotID := db.nextSpotID + 1 }
        ⟨db1, [notifySpotUpdate db1 f.countSpots parking.ID], ⟨StatusCreated, Body.spot spot⟩⟩

/-- Storage statements of `CreateEntry` that fail during a call. -/
structure EntryFaults where
  firstSpot : Bool
  firstVehicle : Bool
  createEntry : Bool
  saveSpot : Bool
  countSpots : Bool
  deriving DecidableEq, Repr

/-- The handler `CreateEntry` (`openSession`), for the decoded body
`spot_id`, `vehicle_id`; `now` is the value of `time.Now()`. -/
def CreateEntry (db : DB) (f : EntryFaults) (now : Time) (spotID vehicleID : Nat) : Outcome :=
  if spotID = 0 ∨ vehicleID = 0 then
    ⟨db, [], ⟨StatusBadRequest, Body.bindingError⟩⟩
  else
    match (if f.firstSpot then none else firstSpot db spotID) with
    | none => ⟨db, [], ⟨StatusBadRequest, Body.error "Место не найдено"⟩⟩
    | some spot =>
      if spot.IsOccupied then
        ⟨db, [], ⟨StatusBadRequest, Body.error "Место уже занято"⟩⟩
      else
        match (if f.firstVehicle then none else firstVehicle db vehicleID) with
        | none => ⟨db, [], ⟨StatusBadRequest, Body.error "Автомобиль не найден"⟩⟩
        | some vehicle =>
          if f.createEntry then
            ⟨db, [], ⟨StatusInternalServerError, Body.error "Не удалось зафиксировать въезд"⟩⟩
          else
            let entry : Entry :=
              { ID := db.nextEntryID, SpotID := spot.ID, VehicleID := vehicle.ID,
                EntryTime := now, ExitTime := none }
            let db1 := { db with entries := db.entries ++ [entry], nextEntryID := db.nextEntryID + 1 }
            if f.saveSpot then
              ⟨db1, [], ⟨StatusInternalServerError, Body.error "Не удалось обновить статус места"⟩⟩
            else
              let db2 := saveSpot db1 { spot with IsOccupied := true }
              ⟨db2, [notifySpotUpdate db2 f.countSpots spot.ParkingID], ⟨StatusCreated, Body.entry entry⟩⟩

/-- Storage statements of `CreateExit` that fail during a call. -/
structure ExitFaults where
  firstEntry : Bool
  firstTariff : Bool
  createPayment : Bool
  createExit : Bool
  saveEntry : Bool
  firstSpot : Bool
  saveSpot : Bool
  countSpots : Bool
  deriving DecidableEq, Repr

/-- The three readings of `time.Now()` taken by `CreateExit`, in the order of
the source: for the billing, for `payment.CreatedAt` and for `exit.ExitTime`. -/
structure ExitClock where
  billing : Time
  created : Time
  exit : Time
  deriving DecidableEq, Repr

/-- The handler `CreateExit` (`closeSession`), for the decoded body
`entry_id`, `payment_method`. -/
def CreateExit (reading : RemainderReading) (db : DB) (f : ExitFaults) (now : ExitClock)
    (entryID : Nat) (paymentMethod : String) : Outcome :=
  if entryID = 0 ∨ paymentMethod = "" then
    ⟨db, [], ⟨StatusBadRequest, Body.bindingError⟩⟩
  else
    match (if f.firstEntry then none else firstEntry db entryID) with
    | none => ⟨db, [], ⟨StatusBadRequest, Body.error "Запись о въезде не найдена"⟩⟩
    | some entry =>
      if entry.ExitTime.isSome then
        ⟨db, [], ⟨StatusBadRequest, Body.error "Выезд уже зафиксирован"⟩⟩
      else
        let amount := calculatePayment reading db f.firstTariff entry.EntryTime now.billing
        if f.createPayment then
          ⟨db, [], ⟨StatusInternalServerError, Body.error "Не удалось создать платеж"⟩⟩
        else
          let payment : Payment :=
            { ID := db.nextPaymentID, Amount := amount, Method := paymentMethod,
              Status := "pending", CreatedAt := now.created }
          let db1 := { db with payments := db.payments ++ [payment],
                               nextPaymentID := db.nextPaymentID + 1 }
          if f.createExit then
            ⟨db1, [], ⟨StatusInternalServerError, Body.error "Не удалось зафиксировать выезд"⟩⟩
          else
            let exit : Exit :=
              { ID := db1.nextExitID, EntryID := entry.ID, ExitTime := now.exit,
                PaymentID := payment.ID }
            let db2 := { db1 with exits := db1.exits ++ [exit], nextExitID := db1.nextExitID + 1 }
            if f.saveEntry then
              ⟨db2, [], ⟨StatusInternalServerError, Body.error "Не удалось обновить запись о въезде"⟩⟩
            else
              let db3 := saveEntry db2 { entry with ExitTime := some exit.ExitTime }
              match (if f.firstSpot then none else firstSpot db3 entry.SpotID) with
              | none => ⟨db3, [], ⟨StatusInternalServerError, Body.error "Место не найдено"⟩⟩
              | some spot =>
                if f.saveSpot then
                  ⟨db3, [], ⟨StatusInternalServerError, Body.error "Не удалось обновить статус места"⟩⟩
                else
                  let db4 := saveSpot db3 { spot with IsOccupied := false }
                  ⟨db4, [notifySpotUpdate db4 f.countSpots spot.ParkingID],
                    ⟨StatusCreated, Body.exit exit⟩⟩

/-! ## Notification hub (`main.go`) -/

/-- Identity of a websocket connection (`*websocket.Conn`). -/
abbrev Conn := Nat

/-- What one pass of the loop body of `handleMessages` leaves behind. -/
structure HubOutcome where
  /-- Connections still in `clients`. -/
  clients : List Conn
  /-- Calls of `WriteJSON`, oldest first: the connection and the update. -/
  attempts : List (Conn × SpotUpdate)
  /-- Connections that `WriteJSON` succeeded on, with the update written. -/
  delivered : List (Conn × SpotUpdate)
  /-- Connections closed by `client.Close()`. -/
  closed : List Conn
  deriving DecidableEq, Repr

/-- One iteration of the outer loop of `handleMessages`, after `update` has
been received from `broadcast`.  The map `clients` is given by the list of its
keys in the order the `range` loop visits them (any order is possible), and
`writeOk c` says whether `WriteJSON` succeeds on `c`.  As in the source, the
loop has no result for the sender of the update. -/
def handleMessages (writeOk : Conn → Bool) (update : SpotUpdate) :
    List Conn → HubOutcome
  | [] => ⟨[], [], [], []⟩
  | client :: rest =>
    let r := handleMessages writeOk update rest
    if writeOk client then
      ⟨client :: r.clients, (client, update) :: r.attempts, (client, update) :: r.delivered, r.closed⟩
    else
      ⟨r.clients, (client, update) :: r.attempts, r.delivered, client :: r.closed⟩

/-! ## Notions used to state the properties -/

/-- The price per hour that `calculatePayment` applies: the price of the
tariff its query returns, the default rate when the query returns an error. -/
def appliedPrice (db : DB) (lookupFails : Bool) : ℚ :=
  match (if lookupFails then none else firstTariff db 1 hourlyType) with
  | none => defaultRate
  | some tariff => tariff.Price

/-- An entry is an open session of spot `spotID`: it refers to the spot and
has no exit time. -/
def isOpenAt (spotID : Nat) (e : Entry) : Bool :=
  e.SpotID == spotID && e.ExitTime.isNone

/-- The open sessions of a spot. -/
def openEntries (db : DB) (spotID : Nat) : List Entry :=
  db.entries.filter (isOpenAt spotID)

/-- The spots of a parking. -/
def spotsOf (db : DB) (parkingID : Nat) : List Spot :=
  db.spots.filter (fun s => s.ParkingID == parkingID)

/-- The spots of a parking that have an open session. -/
def spotsWithOpenSession (db : DB) (parkingID : Nat) : List Spot :=
  (spotsOf db parkingID).filter (fun s => db.entries.any (isOpenAt s.ID))

/-- A call in which no storage statement fails. -/
def AddSpotFaults.none : AddSpotFaults := ⟨false, false, false⟩

/-- A call in which no storage statement fails. -/
def EntryFaults.none : EntryFaults := ⟨false, false, false, false, false⟩

/-- A call in which no storage statement fails. -/
def ExitFaults.none : ExitFaults := ⟨false, false, false, false, false, false, false, false⟩

/-- A request to one of the three handlers that change spots and sessions,
with the clock readings the handler takes. -/
inductive Call where
  | addSpot (parkingID : Nat) (number : String)
  | createEntry (now : Time) (spotID vehicleID : Nat)
  | createExit (now : ExitClock) (entryID : Nat) (paymentMethod : String)
  deriving DecidableEq, Repr

/-- One call served to its end with the storage available: it succeeds or
is rejected by the handler. -/
def step (reading : RemainderReading) (db : DB) : Call → Outcome
  | Call.addSpot parkingID number => AddSpot db AddSpotFaults.none parkingID number
  | Call.createEntry now spotID vehicleID => CreateEntry db EntryFaults.none now spotID vehicleID
  | Call.createExit now entryID paymentMethod =>
      CreateExit reading db ExitFaults.none now entryID paymentMethod

/-- The store after a sequence of calls served one after another. -/
def run (reading : RemainderReading) (db : DB) (calls : List Call) : DB :=
  calls.foldl (fun d c => (step reading d c).db) db

/-- A store in which nothing has been parked yet: it has no spots, sessions,
exits or payments; the parkings, tariffs and vehicles are arbitrary. -/
def Fresh (db : DB) : Prop :=
  db.spots = [] ∧ db.entries = [] ∧ db.exits = [] ∧ db.payments = []

instance (db : DB) : Decidable (Fresh db) := by
  unfold Fresh; infer_instance

/-- Consistency of spots and sessions: primary keys are unique and below the
counters, every session refers to a spot, the spot of an open session is
flagged, a flagged spot has an open session, and two open sessions of one spot
are the same row. -/
structure Consistent (db : DB) : Prop where
  spotIDs : (db.spots.map (fun s => s.ID)).Nodup
  spotFresh : ∀ s ∈ db.spots, s.ID < db.nextSpotID
  entryIDs : (db.entries.map (fun e => e.ID)).Nodup
  entryFresh : ∀ e ∈ db.entries, e.ID < db.nextEntryID
  entrySpot : ∀ e ∈ db.entries, ∃ s ∈ db.spots, s.ID = e.SpotID
  openFlag : ∀ e ∈ db.entries, e.ExitTime = none →
    ∀ s ∈ db.spots, s.ID = e.SpotID → s.IsOccupied = true
  flagOpen : ∀ s ∈ db.spots, s.IsOccupied = true →
    ∃ e ∈ db.entries, e.SpotID = s.ID ∧ e.ExitTime = none
  openUnique : ∀ e1 ∈ db.entries, ∀ e2 ∈ db.entries, e1.ExitTime = none →
    e2.ExitTime = none → e1.SpotID = e2.SpotID → e1.ID = e2.ID


/-- The free-spot count in the words of the specification: the capacity of
the parking minus the number of its spots that have an open session (no value
when the parking does not exist). -/
def specFreeSpotCount (db : DB) (parkingID : Nat) : Option Int :=
  (firstParking db parkingID).map
    (fun p => p.Capacity - ((spotsWithOpenSession db parkingID).length : Int))


/-! ## Sample data -/

/-- One parking of capacity 5 with an hourly tariff of 10 and one vehicle. -/
def sampleDB : DB :=
  { parkings := [⟨1, 5⟩], spots := [], tariffs := [⟨1, 1, hourlyType, 10⟩], entries := [],
    exits := [], vehicles := [⟨1, "A001AA", 1⟩], payments := [],
    nextSpotID := 1, nextEntryID := 1, nextExitID := 1, nextPaymentID := 1 }

/-- The sample store after spot 1 was added and vehicle 1 entered it at
time 0. -/
def parkedDB : DB :=
  { sampleDB with
    spots := [⟨1, 1, "A1", true⟩], entries := [⟨1, 1, 1, 0, none⟩],
    nextSpotID := 2, nextEntryID := 2 }

/-- The store `parkedDB` after the session was closed at one hour. -/
def closedDB : DB :=
  { parkedDB with
    spots := [⟨1, 1, "A1", false⟩], entries := [⟨1, 1, 1, 0, some (3600 * Second)⟩],
    exits := [⟨1, 1, 3600 * Second, 1⟩], payments := [⟨1, 10, "card", "pending", 3600 * Second⟩],
    nextExitID := 2, nextPaymentID := 2 }

/-- Two parkings; only parking 2 has an hourly tariff (price 10), and the
open session of vehicle 1 is on spot 1 of parking 2. -/
def otherFacilityDB : DB :=
  { parkings := [⟨1, 5⟩, ⟨2, 5⟩], spots := [⟨1, 2, "B1", true⟩],
    tariffs := [⟨1, 2, hourlyType, 10⟩], entries := [⟨1, 1, 1, 0, none⟩],
    exits := [], vehicles := [⟨1, "A001AA", 1⟩], payments := [],
    nextSpotID := 2, nextEntryID := 2, nextExitID := 1, nextPaymentID := 1 }

/-- Two parkings; only parking 1 has an hourly tariff (price 3), and the open
session of vehicle 1 is on spot 1 of parking 2. -/
def foreignTariffDB : DB :=
  { otherFacilityDB with tariffs := [⟨1, 1, hourlyType, 3⟩] }

/-- The payment that `CreateExit` creates for `entry`. -/
def pendingPayment (reading : RemainderReading) (db : DB) (f : ExitFaults) (now : ExitClock)
    (entry : Entry) (paymentMethod : String) : Payment :=
  { ID := db.nextPaymentID,
    Amount := calculatePayment reading db f.firstTariff entry.EntryTime now.billing,
    Method := paymentMethod, Status := "pending", CreatedAt := now.created }

/-- The exit that `CreateExit` creates for `entry`. -/
def recordedExit (db : DB) (now : ExitClock) (entry : Entry) : Exit :=
  { ID := db.nextExitID, EntryID := entry.ID, ExitTime := now.exit,
    PaymentID := db.nextPaymentID }

/-- A call of `CreateExit` in which only the creation of the exit fails. -/
def ExitFaults.exitCreation : ExitFaults :=
  { ExitFaults.none with createExit := true }


/-- Clock of a call of `CreateExit` made at one instant. -/
def ExitClock.at (t : Time) : ExitClock := ⟨t, t, t⟩

/-- A short history: a spot is added, a vehicle enters, leaves after 3661
seconds and enters again; a second entry on the taken spot is rejected. -/
def sampleCalls : List Call :=
  [Call.addSpot 1 "A1", Call.createEntry 0 1 1, Call.createEntry 5 1 1,
   Call.createExit (ExitClock.at (3661 * Second)) 1 "card",
   Call.createEntry (4000 * Second) 1 1]

/-! ## Interleaved calls of `CreateEntry` -/

/-- What two handlers running at once share: the store and the updates sent
on `broadcast`. -/
structure Shared where
  db : DB
  events : List SpotUpdate
  deriving DecidableEq, Repr

/-- Progress of one call of `CreateEntry` between two of its storage
statements, with the local variables it holds.  No storage statement fails. -/
inductive EntryCall where
  /-- The request is decoded; nothing has been read. -/
  | start (now : Time) (spotID vehicleID : Nat)
  /-- The spot was read and found free. -/
  | haveSpot (now : Time) (vehicleID : Nat) (spot : Spot)
  /-- The vehicle was read. -/
  | haveVehicle (now : Time) (spot : Spot) (vehicle : Vehicle)
  /-- The entry was created. -/
  | created (spot : Spot) (entry : Entry)
  /-- The spot was saved with its flag set. -/
  | saved (spot : Spot) (entry : Entry)
  /-- The free spots were counted by `notifySpotUpdate`. -/
  | counted (spot : Spot) (entry : Entry) (update : SpotUpdate)
  /-- The response was written. -/
  | done (resp : Response)
  deriving DecidableEq, Repr

/-- The next storage statement of a call of `CreateEntry`, with the local
computation that follows it up to the next statement: the read of the spot and
the check of its flag; the read of the vehicle; the creation of the entry; the
save of the spot; the count of `notifySpotUpdate`; the send on `broadcast` and
the response.  A call that has answered does nothing. -/
def EntryCall.step (sh : Shared) : EntryCall → Shared × EntryCall
  | EntryCall.start now spotID vehicleID =>
    if spotID = 0 ∨ vehicleID = 0 then
      (sh, EntryCall.done ⟨StatusBadRequest, Body.bindingError⟩)
    else
      match firstSpot sh.db spotID with
      | none => (sh, EntryCall.done ⟨StatusBadRequest, Body.error "Место не найдено"⟩)
      | some spot =>
        if spot.IsOccupied then
          (sh, EntryCall.done ⟨StatusBadRequest, Body.error "Место уже занято"⟩)
        else
          (sh, EntryCall.haveSpot now vehicleID spot)
  | EntryCall.haveSpot now vehicleID spot =>
    match firstVehicle sh.db vehicleID with
    | none => (sh, EntryCall.done ⟨StatusBadRequest, Body.error "Автомобиль не найден"⟩)
    | some vehicle => (sh, EntryCall.haveVehicle now spot vehicle)
  | EntryCall.haveVehicle now spot vehicle =>
    let entry : Entry :=
      { ID := sh.db.nextEntryID, SpotID := spot.ID, VehicleID := vehicle.ID,
        EntryTime := now, ExitTime := none }
    let db1 := { sh.db with entries := sh.db.entries ++ [entry],
                            nextEntryID := sh.db.nextEntryID + 1 }
    ({ sh with db := db1 }, EntryCall.created spot entry)
  | EntryCall.created spot entry =>
    ({ sh with db := saveSpot sh.db { spot with IsOccupied := true } },
      EntryCall.saved spot entry)
  | EntryCall.saved spot entry =>
    (sh, EntryCall.counted spot entry (notifySpotUpdate sh.db false spot.ParkingID))
  | EntryCall.counted _ entry update =>
    ({ sh with events := sh.events ++ [update] },
      EntryCall.done ⟨StatusCreated, Body.entry entry⟩)
  | EntryCall.done resp => (sh, EntryCall.done resp)

/-- Two calls of `CreateEntry` in progress on the shared state. -/
structure TwoCalls where
  shared : Shared
  first : EntryCall
  second : EntryCall
  deriving DecidableEq, Repr

/-- One step of the pair: the first call takes its next step when `turn` is
true, the second call otherwise. -/
def TwoCalls.step (p : TwoCalls) (turn : Bool) : TwoCalls :=
  if turn then
    { p with shared := (p.first.step p.shared).1, first := (p.first.step p.shared).2 }
  else
    { p with shared := (p.second.step p.shared).1, second := (p.second.step p.shared).2 }

/-- The pair after the steps of a schedule. -/
def TwoCalls.interleave (p : TwoCalls) (schedule : List Bool) : TwoCalls :=
  schedule.foldl TwoCalls.step p

/-- The number of steps after which a call of `CreateEntry` has answered. -/
def entrySteps : Nat := 6

/-- Two calls of `CreateEntry` started on store `db` and run at once: their
steps are interleaved as `schedule` says, after which each call is run to its
end. -/
def runConcurrently (db : DB) (first second : EntryCall) (schedule : List Bool) : TwoCalls :=
  TwoCalls.interleave ⟨⟨db, []⟩, first, second⟩
    (schedule ++ List.replicate entrySteps true ++ List.replicate entrySteps false)

/-- The response with which `CreateEntry` turns down an occupied spot. -/
def spotOccupiedResponse : Response :=
  ⟨StatusBadRequest, Body.error "Место уже занято"⟩

/-- Number of the two responses that report success. -/
def successCount (r1 r2 : Response) : Nat :=
  (if r1.status = StatusCreated then 1 else 0) + (if r2.status = StatusCreated then 1 else 0)

/-- The call has created its entry. -/
def EntryCall.entered : EntryCall → Bool
  | EntryCall.created _ _ => true
  | EntryCall.saved _ _ => true
  | EntryCall.counted _ _ _ => true
  | EntryCall.done resp => decide (resp.status = StatusCreated)
  | _ => false

/-- The call has saved the spot with its flag set. -/
def EntryCall.hasSaved : EntryCall → Bool
  | EntryCall.saved _ _ => true
  | EntryCall.counted _ _ _ => true
  | EntryCall.done resp => decide (resp.status = StatusCreated)
  | _ => false

/-- Upper bound on the steps a call still takes before it has answered. -/
def EntryCall.remaining : EntryCall → Nat
  | EntryCall.start _ _ _ => 6
  | EntryCall.haveSpot _ _ _ => 5
  | EntryCall.haveVehicle _ _ _ => 4
  | EntryCall.created _ _ => 3
  | EntryCall.saved _ _ => 2
  | EntryCall.counted _ _ _ => 1
  | EntryCall.done _ => 0

/-- A call for spot `spot` of the store `db0` that found the spot free holds
the row `spot` it read there; a call that has not yet read its vehicle asks for
one that exists; a call that has answered reports success or an occupied
spot. -/
def EntryCall.Good (db0 : DB) (spot : Spot) : EntryCall → Prop
  | EntryCall.start _ spotID vehicleID =>
    spotID = spot.ID ∧ spotID ≠ 0 ∧ vehicleID ≠ 0 ∧ (firstVehicle db0 vehicleID).isSome = true
  | EntryCall.haveSpot _ vehicleID s => s = spot ∧ (firstVehicle db0 vehicleID).isSome = true
  | EntryCall.haveVehicle _ s _ => s = spot
  | EntryCall.created s _ => s = spot
  | EntryCall.saved s _ => s = spot
  | EntryCall.counted s _ _ => s = spot
  | EntryCall.done resp => resp.status = StatusCreated ∨ resp = spotOccupiedResponse

/-- The pair with the two calls exchanged. -/
def TwoCalls.swap (p : TwoCalls) : TwoCalls := ⟨p.shared, p.second, p.first⟩

/-- How the shared store of two calls for the free spot `spot` of `db0` is
linked to their progress: the spots are those of `db0`, with the row of `spot`
flagged once a call has saved it; a call is turned down only after the other
has saved the spot; and the spot has one more open session for each call that
has created its entry. -/
structure Linked (db0 : DB) (spot : Spot) (p : TwoCalls) : Prop where
  goodFirst : p.first.Good db0 spot
  goodSecond : p.second.Good db0 spot
  vehicles : p.shared.db.vehicles = db0.vehicles
  spots : p.shared.db.spots =
    if (p.first.hasSaved || p.second.hasSaved) = true then
      replaceSpot { spot with IsOccupied := true } db0.spots
    else db0.spots
  rejectedFirst : p.first = EntryCall.done spotOccupiedResponse → p.second.hasSaved = true
  rejectedSecond : p.second = EntryCall.done spotOccupiedResponse → p.first.hasSaved = true
  sessions : (openEntries p.shared.db spot.ID).length =
    (openEntries db0 spot.ID).length + (if p.first.entered = true then 1 else 0)
      + (if p.second.entered = true then 1 else 0)

/-- The sample store with the free spot 1 and a second vehicle. -/
def freeSpotDB : DB :=
  { sampleDB with
    spots := [⟨1, 1, "A1", false⟩], vehicles := [⟨1, "A001AA", 1⟩, ⟨2, "B002BB", 2⟩],
    nextSpotID := 2 }

/-- The schedule in which the two calls take their steps in turn. -/
def alternating : List Bool :=
  [true, false, true, false, true, false, true, false, true, false, true, false]

/-- The steps that `runConcurrently` executes for a schedule, in order. -/
def stepsTaken (schedule : List Bool) : List Bool :=
  schedule ++ List.replicate entrySteps true ++ List.replicate entrySteps false

/-- The call `who` (true for the first call) saves the spot before the other
call reads it: the first four steps, which are the read of the spot, the read
of the vehicle, the creation of the entry and the save of the spot, are all
taken by `who` before the other call takes its first step, the read of the
spot. -/
def savesBeforeOtherReads (who : Bool) (steps : List Bool) : Prop :=
  steps.take 4 = List.replicate 4 who

instance (who : Bool) (steps : List Bool) : Decidable (savesBeforeOtherReads who steps) := by
  unfold savesBeforeOtherReads; infer_instance

/-- The call has read the spot and found it free, and has not been turned
down since. -/
def EntryCall.passed : EntryCall → Prop
  | EntryCall.start _ _ _ => False
  | EntryCall.done resp => resp.status = StatusCreated
  | _ => True

/-! # Properties -/

/-! Every statement below that mentions `reading` is proved for both readings
of `duration.Seconds()%3600`. -/

variable {reading : RemainderReading}

/-! ## Billing -/

theorem calculatePayment_eq (db : DB) (lookupFails : Bool) (entryTime exitTime : Time) :
    calculatePayment reading db lookupFails entryTime exitTime
      = (billedHours reading (Time.Sub exitTime entryTime) : ℚ) * appliedPrice db lookupFails := by
  unfold calculatePayment appliedPrice
  cases h : (if lookupFails then none else firstTariff db 1 hourlyType) <;> simp

theorem Time.Sub_of_fits (t u : Time) (h1 : minDuration ≤ t - u) (h2 : t - u ≤ maxDuration) :
    Time.Sub t u = t - u := by
  unfold Time.Sub
  rw [if_neg (not_lt.mpr h2), if_neg (not_lt.mpr h1)]

theorem Time.Sub_self (t : Time) : Time.Sub t t = 0 := by
  rw [Time.Sub_of_fits t t (by simp [minDuration]) (by simp [maxDuration])]
  simp

theorem Time.Sub_le_max (t u : Time) : Time.Sub t u ≤ maxDuration := by
  unfold Time.Sub
  split_ifs with h1 h2
  · exact le_rfl
  · decide
  · exact not_lt.mp h1

theorem Time.Sub_ge_min (t u : Time) : minDuration ≤ Time.Sub t u := by
  unfold Time.Sub
  split_ifs with h1 h2
  · decide
  · exact le_rfl
  · exact not_lt.mp h2

/-! ### Rounding to `float64` -/

theorem roundHalfEven_error (q : ℚ) : |(roundHalfEven q : ℚ) - q| ≤ 1 / 2 := by
  have h1 := Int.floor_le q
  have h2 := Int.lt_floor_add_one q
  unfold roundHalfEven
  rw [abs_le]
  split_ifs with a b c
  · constructor <;> linarith
  · push_cast; constructor <;> linarith
  · constructor <;> linarith
  · push_cast; constructor <;> linarith

theorem roundHalfEven_intCast (n : Int) : roundHalfEven (n : ℚ) = n := by
  unfold roundHalfEven
  simp

/-- The rounding error is at most `2 ^ (-53)` of the magnitude. -/
theorem float64_error (x : ℚ) : |float64 x - x| ≤ |x| / 2 ^ 53 := by
  unfold float64
  split_ifs with h0
  · simp [h0]
  · have hpos : (0 : ℚ) < |x| := abs_pos.mpr h0
    have hlog := Int.zpow_log_le_self (b := 2) (by norm_num) hpos
    set e := Int.log 2 |x| with he
    have hu : (0 : ℚ) < 2 ^ (e - 52) := by positivity
    have hr := roundHalfEven_error (x / 2 ^ (e - 52))
    have hx : x = x / 2 ^ (e - 52) * 2 ^ (e - 52) := by field_simp
    have key : (roundHalfEven (x / 2 ^ (e - 52)) : ℚ) * 2 ^ (e - 52) - x
        = ((roundHalfEven (x / 2 ^ (e - 52)) : ℚ) - x / 2 ^ (e - 52)) * 2 ^ (e - 52) := by
      field_simp
    rw [key, abs_mul, abs_of_pos hu]
    have h53 : (2 : ℚ) ^ (e - 52) = 2 ^ e / 2 ^ 52 := by
      rw [zpow_sub₀ (by norm_num)]; norm_num
    calc |(roundHalfEven (x / 2 ^ (e - 52)) : ℚ) - x / 2 ^ (e - 52)| * 2 ^ (e - 52)
        ≤ 1 / 2 * 2 ^ (e - 52) := by
          apply mul_le_mul_of_nonneg_right hr hu.le
      _ = 2 ^ e / 2 ^ 53 := by rw [h53]; ring
      _ ≤ |x| / 2 ^ 53 := by
          apply div_le_div_of_nonneg_right hlog (by positivity)

/-- A number `n * 2 ^ k` with `|n| < 2 ^ 53` is a `float64`. -/
theorem float64_dyadic (n k : Int) (hn : |n| < 2 ^ 53) :
    float64 ((n : ℚ) * 2 ^ k) = (n : ℚ) * 2 ^ k := by
  unfold float64
  split_ifs with h0
  · exact h0.symm
  · have hpos : (0 : ℚ) < |(n : ℚ) * 2 ^ k| := abs_pos.mpr h0
    have hlog := Int.zpow_log_le_self (b := 2) (by norm_num) hpos
    set e := Int.log 2 |(n : ℚ) * 2 ^ k| with he
    have hk : (0 : ℚ) < 2 ^ k := by positivity
    have habs : |(n : ℚ) * 2 ^ k| = |(n : ℚ)| * 2 ^ k := by
      rw [abs_mul, abs_of_pos hk]
    have hnq : |(n : ℚ)| < 2 ^ 53 := by exact_mod_cast hn
    have hlt : (2 : ℚ) ^ e < 2 ^ (53 + k) := by
      calc (2 : ℚ) ^ e ≤ |(n : ℚ)| * 2 ^ k := by rw [← habs]; exact hlog
        _ < 2 ^ 53 * 2 ^ k := by
            apply mul_lt_mul_of_pos_right hnq hk
        _ = 2 ^ (53 + k) := by
            rw [zpow_add₀ (by norm_num)]; norm_num
    have he53 : e < 53 + k := (zpow_lt_zpow_iff_right₀ (by norm_num : (1 : ℚ) < 2)).mp hlt
    obtain ⟨j, hj⟩ : ∃ j : ℕ, k - (e - 52) = j := ⟨(k - (e - 52)).toNat, by omega⟩
    have hdiv : (n : ℚ) * 2 ^ k / 2 ^ (e - 52) = ((n * 2 ^ j : Int) : ℚ) := by
      rw [mul_div_assoc, ← zpow_sub₀ (by norm_num), hj]
      push_cast
      rw [zpow_natCast]
    rw [hdiv, roundHalfEven_intCast]
    push_cast
    rw [mul_assoc, ← zpow_natCast, ← zpow_add₀ (by norm_num), ← hj]
    congr 2
    ring

theorem float64_intCast (n : Int) (hn : |n| < 2 ^ 53) : float64 (n : ℚ) = n := by
  have := float64_dyadic n 0 hn
  simpa using this

theorem float64_zero : float64 0 = 0 := by
  simp [float64]


/-- The product of a number of hours below `2 ^ 50` in magnitude and the
default rate is a `float64`: `float64(hours) * 2.5` is exact. -/
theorem float64_mul_defaultRate (hours : Int) (h : |hours| < 2 ^ 50) :
    float64 ((hours : ℚ) * defaultRate) = (hours : ℚ) * defaultRate := by
  have h5 : |5 * hours| < 2 ^ 53 := by
    rw [abs_mul]
    have : |(5 : Int)| = 5 := by decide
    rw [this]
    omega
  have e : (hours : ℚ) * defaultRate = ((5 * hours : Int) : ℚ) * 2 ^ (-1 : Int) := by
    unfold defaultRate
    push_cast
    norm_num
    ring
  rw [e]
  exact float64_dyadic (5 * hours) (-1) h5

/-! ### Whole seconds -/

/-- The split of a whole number of seconds into hours and the rest. -/
theorem tdiv_seconds (s m : Int) (hs : 0 ≤ s) (hm : 0 < m) :
    Int.tdiv (s * Second) (m * Second) = s / m ∧
    Int.tmod (s * Second) (m * Second) = (s % m) * Second := by
  have hS : (0 : Int) < Second := by decide
  have h1 : 0 ≤ s * Second := by positivity
  have h2 : 0 ≤ m * Second := by positivity
  constructor
  · rw [Int.tdiv_eq_ediv h1 h2]
    exact Int.mul_ediv_mul_of_pos_left s m hS
  · rw [Int.tmod_eq_emod h1 h2]
    rw [mul_comm s, mul_comm m, Int.mul_emod_mul_of_pos s m hS, mul_comm]

theorem seconds_bound (s : Int) (hfit : s * Second ≤ maxDuration) : s ≤ 9223372036 := by
  unfold Second maxDuration at hfit
  omega

/-- The method `Hours` on a whole number of seconds: a value from the whole
hours up to, not including, the next hour, and the whole hours themselves when
nothing is left over. -/
theorem Hours_seconds_bounds (s : Int) (hs : 0 ≤ s) (hfit : s * Second ≤ maxDuration) :
    ((s / 3600 : Int) : ℚ) ≤ Duration.Hours (s * Second) ∧
    Duration.Hours (s * Second) < ((s / 3600 : Int) : ℚ) + 1 := by
  have hb := seconds_bound s hfit
  have hdm := tdiv_seconds s 3600 hs (by norm_num)
  have hH : Hour = 3600 * Second := by decide
  have hh0 : 0 ≤ s / 3600 := Int.ediv_nonneg hs (by norm_num)
  have hh1 : s / 3600 ≤ 2562047 := by omega
  have hk0 := Int.emod_nonneg s (by norm_num : (3600 : Int) ≠ 0)
  have hk1 := Int.emod_lt_of_pos s (by norm_num : (0 : Int) < 3600)
  unfold Duration.Hours
  rw [hH, hdm.1, hdm.2]
  rw [float64_intCast (s / 3600) (by rw [abs_of_nonneg hh0]; omega)]
  rw [float64_intCast (s % 3600 * Second)
    (by rw [abs_of_nonneg (by unfold Second; omega)]; unfold Second; omega)]
  have hq : ((s % 3600 * Second : Int) : ℚ) / (60 * 60 * 1000000000) = ((s % 3600 : Int) : ℚ) / 3600 := by
    unfold Second; push_cast; field_simp; ring
  rw [hq]
  have hh0q : (0 : ℚ) ≤ ((s / 3600 : Int) : ℚ) := by exact_mod_cast hh0
  have hh1q : ((s / 3600 : Int) : ℚ) ≤ 2562047 := by exact_mod_cast hh1
  by_cases hk : s % 3600 = 0
  · rw [hk]
    simp only [Int.cast_zero, zero_div, float64_zero, add_zero]
    rw [float64_intCast (s / 3600) (by rw [abs_of_nonneg hh0]; omega)]
    constructor <;> linarith
  · have hk2 : 1 ≤ s % 3600 := by omega
    have hkq1 : (1 : ℚ) ≤ ((s % 3600 : Int) : ℚ) := by exact_mod_cast hk2
    have hkq2 : ((s % 3600 : Int) : ℚ) ≤ 3599 := by
      have : s % 3600 ≤ 3599 := by omega
      exact_mod_cast this
    set q : ℚ := ((s % 3600 : Int) : ℚ) / 3600 with hqdef
    have hq1 : 1 / 3600 ≤ q := by
      rw [hqdef]; apply div_le_div_of_nonneg_right hkq1 (by norm_num)
    have hq2 : q ≤ 3599 / 3600 := by
      rw [hqdef]; apply div_le_div_of_nonneg_right hkq2 (by norm_num)
    have eg := float64_error q
    rw [abs_of_nonneg (by linarith : (0 : ℚ) ≤ q), abs_le] at eg
    set g := float64 q with hg
    have ex := float64_error (((s / 3600 : Int) : ℚ) + g)
    have hgpos : 0 < g := by
      have : q / 2 ^ 53 ≤ q / 2 := by
        apply div_le_div_of_nonneg_left (by linarith) (by norm_num) (by norm_num)
      linarith
    rw [abs_of_nonneg (by linarith : (0 : ℚ) ≤ ((s / 3600 : Int) : ℚ) + g), abs_le] at ex
    have e53 : (2 : ℚ) ^ 53 = 9007199254740992 := by norm_num
    rw [e53] at eg ex
    constructor
    · have h1 := ex.1
      rw [add_div] at h1
      linarith
    · have h2 := ex.2
      rw [add_div] at h2
      linarith


/-- The method `Minutes` is positive on a positive whole number of seconds. -/
theorem Minutes_seconds_pos (s : Int) (hs : 0 < s) (hfit : s * Second ≤ maxDuration) :
    0 < Duration.Minutes (s * Second) := by
  have hb := seconds_bound s hfit
  have hdm := tdiv_seconds s 60 hs.le (by norm_num)
  have hM : Minute = 60 * Second := by decide
  have hh0 : 0 ≤ s / 60 := Int.ediv_nonneg hs.le (by norm_num)
  have hk0 := Int.emod_nonneg s (by norm_num : (60 : Int) ≠ 0)
  have hk1 := Int.emod_lt_of_pos s (by norm_num : (0 : Int) < 60)
  unfold Duration.Minutes
  rw [hM, hdm.1, hdm.2]
  rw [float64_intCast (s / 60) (by rw [abs_of_nonneg hh0]; omega)]
  rw [float64_intCast (s % 60 * Second)
    (by rw [abs_of_nonneg (by unfold Second; omega)]; unfold Second; omega)]
  have hq : ((s % 60 * Second : Int) : ℚ) / (60 * 1000000000) = ((s % 60 : Int) : ℚ) / 60 := by
    unfold Second; push_cast; field_simp; ring
  rw [hq]
  have hh0q : (0 : ℚ) ≤ ((s / 60 : Int) : ℚ) := by exact_mod_cast hh0
  have hk0q : (0 : ℚ) ≤ ((s % 60 : Int) : ℚ) := by exact_mod_cast hk0
  set q : ℚ := ((s % 60 : Int) : ℚ) / 60 with hqdef
  have hq0 : 0 ≤ q := by rw [hqdef]; positivity
  have e53 : (2 : ℚ) ^ 53 = 9007199254740992 := by norm_num
  have eg := float64_error q
  rw [abs_of_nonneg hq0, abs_le, e53] at eg
  set g := float64 q with hg
  have hg0 : 0 ≤ g := by linarith [eg.1]
  have hsum : (0 : ℚ) < ((s / 60 : Int) : ℚ) + g := by
    by_cases hm : s / 60 = 0
    · have hk : 1 ≤ s % 60 := by omega
      have hkq : (1 : ℚ) ≤ ((s % 60 : Int) : ℚ) := by exact_mod_cast hk
      have hq1 : 1 / 60 ≤ q := by
        rw [hqdef]; apply div_le_div_of_nonneg_right hkq (by norm_num)
      have : 0 < g := by linarith [eg.1]
      linarith
    · have h1 : 1 ≤ s / 60 := by omega
      have h1q : (1 : ℚ) ≤ ((s / 60 : Int) : ℚ) := by exact_mod_cast h1
      linarith
  have ex := float64_error (((s / 60 : Int) : ℚ) + g)
  rw [abs_of_nonneg hsum.le, abs_le, e53] at ex
  linarith [ex.1]

/-- The method `Seconds` is exact on a whole number of seconds. -/
theorem Seconds_seconds (s : Int) (hs : 0 ≤ s) (hfit : s * Second ≤ maxDuration) :
    Duration.Seconds (s * Second) = (s : ℚ) := by
  have hb := seconds_bound s hfit
  have h1 : Int.tdiv (s * Second) Second = s := by
    rw [Int.tdiv_eq_ediv (by unfold Second; omega) (by decide)]
    exact Int.mul_ediv_cancel s (by decide)
  have h2 : Int.tmod (s * Second) Second = 0 := by
    rw [Int.tmod_eq_emod (by unfold Second; omega) (by decide)]
    exact Int.mul_emod_left s Second
  unfold Duration.Seconds
  rw [h1, h2]
  simp only [Int.cast_zero, float64_zero, zero_div, add_zero]
  rw [float64_intCast s (by rw [abs_of_nonneg hs]; omega)]
  exact float64_intCast s (by rw [abs_of_nonneg hs]; omega)

theorem truncToInt_div_of_nonneg (s : Int) (hs : 0 ≤ s) :
    truncToInt ((s : ℚ) / 3600) = s / 3600 := by
  have h0 : (0 : ℚ) ≤ (s : ℚ) / 3600 := by positivity
  unfold truncToInt
  rw [if_pos h0]
  have := Rat.floor_intCast_div_natCast s 3600
  simpa using this

theorem truncToInt_intCast (s : Int) : truncToInt (s : ℚ) = s := by
  unfold truncToInt
  split_ifs <;> simp

theorem fmod_seconds (s : Int) (hs : 0 ≤ s) :
    fmod (s : ℚ) 3600 = ((s % 3600 : Int) : ℚ) := by
  unfold fmod
  rw [truncToInt_div_of_nonneg s hs]
  have := Int.emod_add_ediv s 3600
  have h2 : (s : ℚ) = ((s % 3600 : Int) : ℚ) + 3600 * ((s / 3600 : Int) : ℚ) := by
    exact_mod_cast this.symm
  linarith

/-- Under both readings of `%` the remainder test on a whole number of
seconds asks whether the seconds are a whole number of hours. -/
theorem remainderPositive_seconds (reading : RemainderReading) (s : Int) (hs : 0 ≤ s) :
    remainderPositive reading (s : ℚ) ↔ s % 3600 ≠ 0 := by
  have hr0 := Int.emod_nonneg s (by norm_num : (3600 : Int) ≠ 0)
  cases reading with
  | mathMod =>
    show fmod (s : ℚ) 3600 > 0 ↔ _
    rw [fmod_seconds s hs]
    constructor
    · intro h hz
      rw [hz] at h
      simp at h
    · intro h
      have : 0 < s % 3600 := lt_of_le_of_ne hr0 (Ne.symm h)
      exact_mod_cast this
  | intMod =>
    show Int.tmod (truncToInt (s : ℚ)) 3600 > 0 ↔ _
    rw [truncToInt_intCast, Int.tmod_eq_emod hs (by norm_num)]
    omega

theorem truncToInt_of_bounds (x : ℚ) (n : Int) (h0 : 0 ≤ n) (h1 : (n : ℚ) ≤ x)
    (h2 : x < (n : ℚ) + 1) : truncToInt x = n := by
  have hn : (0 : ℚ) ≤ (n : ℚ) := by exact_mod_cast h0
  unfold truncToInt
  rw [if_pos (le_trans hn h1)]
  exact Int.floor_eq_iff.mpr ⟨h1, h2⟩

/-- Integer form of the billed hours of a whole number of seconds. -/
theorem billedHours_seconds_int (reading : RemainderReading) (s : Int) (hs : 0 ≤ s)
    (hfit : s * Second ≤ maxDuration) :
    billedHours reading (s * Second) = if s % 3600 = 0 then s / 3600 else s / 3600 + 1 := by
  have hH := Hours_seconds_bounds s hs hfit
  have hh0 : 0 ≤ s / 3600 := Int.ediv_nonneg hs (by norm_num)
  unfold billedHours
  simp only
  rw [truncToInt_of_bounds _ (s / 3600) hh0 hH.1 hH.2, Seconds_seconds s hs hfit]
  by_cases hz : s % 3600 = 0
  · have hno : ¬remainderPositive reading (s : ℚ) := by
      rw [remainderPositive_seconds reading s hs]; simp [hz]
    rw [if_neg (fun h => hno h.2), if_pos hz]
  · have hyes : remainderPositive reading (s : ℚ) :=
      (remainderPositive_seconds reading s hs).mpr hz
    have hs0 : 0 < s := by
      rcases eq_or_lt_of_le hs with h | h
      · rw [← h] at hz; simp at hz
      · exact h
    rw [if_pos ⟨Minutes_seconds_pos s hs0 hfit, hyes⟩, if_neg hz]

theorem ceil_div_3600 (s : Int) :
    ⌈(s : ℚ) / 3600⌉ = if s % 3600 = 0 then s / 3600 else s / 3600 + 1 := by
  have h := Int.emod_add_ediv s 3600
  have hr0 := Int.emod_nonneg s (by norm_num : (3600 : Int) ≠ 0)
  have hr1 := Int.emod_lt_of_pos s (by norm_num : (0 : Int) < 3600)
  have h2 : (s : ℚ) = ((s % 3600 : Int) : ℚ) + 3600 * ((s / 3600 : Int) : ℚ) := by
    exact_mod_cast h.symm
  have hr0q : (0 : ℚ) ≤ ((s % 3600 : Int) : ℚ) := by exact_mod_cast hr0
  have hr1q : ((s % 3600 : Int) : ℚ) < 3600 := by exact_mod_cast hr1
  split_ifs with hz
  · rw [Int.ceil_eq_iff]
    have hzq : ((s % 3600 : Int) : ℚ) = 0 := by exact_mod_cast hz
    constructor
    · rw [lt_div_iff₀ (by norm_num)]; linarith
    · rw [div_le_iff₀ (by norm_num)]; linarith
  · rw [Int.ceil_eq_iff]
    have hpos : (0 : ℚ) < ((s % 3600 : Int) : ℚ) := by
      have : 0 < s % 3600 := lt_of_le_of_ne hr0 (Ne.symm hz)
      exact_mod_cast this
    push_cast
    constructor
    · rw [lt_div_iff₀ (by norm_num)]; linarith
    · rw [div_le_iff₀ (by norm_num)]; linarith

theorem billedHours_seconds (reading : RemainderReading) (s : Int) (hs : 0 < s)
    (hfit : s * Second ≤ maxDuration) :
    billedHours reading (s * Second) = ⌈(s : ℚ) / 3600⌉ := by
  rw [billedHours_seconds_int reading s hs.le hfit, ceil_div_3600]

theorem billedHours_zero : billedHours reading 0 = 0 := by
  have := billedHours_seconds_int reading 0 le_rfl (by decide)
  simpa using this

/-- A session of 3661 seconds is billed 2 hours. -/
theorem billedHours_3661 : billedHours reading (3661 * Second) = 2 := by
  rw [billedHours_seconds_int reading 3661 (by decide) (by decide)]; decide

/-- A session of exactly 3600 seconds is billed 1 hour. -/
theorem billedHours_3600 : billedHours reading (3600 * Second) = 1 := by
  rw [billedHours_seconds_int reading 3600 (by decide) (by decide)]; decide

theorem appliedPrice_sampleDB : appliedPrice sampleDB false = 10 := by
  simp [appliedPrice, sampleDB, firstTariff, leastTariff]

/-! ### Durations that are not whole seconds -/

theorem roundHalfEven_of_near (q : ℚ) (m : Int) (h : |q - (m : ℚ)| < 1 / 2) :
    roundHalfEven q = m := by
  rw [abs_lt] at h
  unfold roundHalfEven
  by_cases hq : (m : ℚ) ≤ q
  · have hf : ⌊q⌋ = m := Int.floor_eq_iff.mpr ⟨hq, by linarith⟩
    rw [hf, if_pos (by linarith)]
  · have hf : ⌊q⌋ = m - 1 := Int.floor_eq_iff.mpr ⟨by push_cast; linarith, by push_cast; linarith⟩
    rw [hf]
    push_cast
    rw [if_neg (by linarith), if_pos (by linarith)]
    ring

theorem log_of_binade (x : ℚ) (e : Int) (hlo : (2 : ℚ) ^ e ≤ |x|) (hhi : |x| < 2 ^ (e + 1)) :
    Int.log 2 |x| = e := by
  have hpos : (0 : ℚ) < |x| := lt_of_lt_of_le (by positivity) hlo
  have h1 : e ≤ Int.log 2 |x| := (Int.zpow_le_iff_le_log (by norm_num) hpos).mp (by exact_mod_cast hlo)
  have h2 : Int.log 2 |x| < e + 1 := (Int.lt_zpow_iff_log_lt (by norm_num) hpos).mp (by exact_mod_cast hhi)
  omega

/-- The `float64` of a number whose binade and nearest significand are
known. -/
theorem float64_of_binade (x : ℚ) (e m : Int) (hlo : (2 : ℚ) ^ e ≤ |x|)
    (hhi : |x| < 2 ^ (e + 1)) (hm : |x / 2 ^ (e - 52) - (m : ℚ)| < 1 / 2) :
    float64 x = (m : ℚ) * 2 ^ (e - 52) := by
  have hpos : (0 : ℚ) < |x| := lt_of_lt_of_le (by positivity) hlo
  unfold float64
  rw [if_neg (abs_pos.mp hpos), log_of_binade x e hlo hhi, roundHalfEven_of_near _ m hm]

/-- The rounding error is at most half a unit in the last place. -/
theorem float64_error_binade (x : ℚ) (e : Int) (hlo : (2 : ℚ) ^ e ≤ |x|)
    (hhi : |x| < 2 ^ (e + 1)) : |float64 x - x| ≤ 2 ^ (e - 53) := by
  have hpos : (0 : ℚ) < |x| := lt_of_lt_of_le (by positivity) hlo
  unfold float64
  rw [if_neg (abs_pos.mp hpos), log_of_binade x e hlo hhi]
  have hu : (0 : ℚ) < 2 ^ (e - 52) := by positivity
  have hr := roundHalfEven_error (x / 2 ^ (e - 52))
  have key : (roundHalfEven (x / 2 ^ (e - 52)) : ℚ) * 2 ^ (e - 52) - x
      = ((roundHalfEven (x / 2 ^ (e - 52)) : ℚ) - x / 2 ^ (e - 52)) * 2 ^ (e - 52) := by
    field_simp
  rw [key, abs_mul, abs_of_pos hu]
  have h53 : (2 : ℚ) ^ (e - 53) = 1 / 2 * 2 ^ (e - 52) := by
    rw [zpow_sub₀ (by norm_num), zpow_sub₀ (by norm_num)]; norm_num; ring
  rw [h53]
  exact mul_le_mul_of_nonneg_right hr hu.le

/-- Bounds on the `float64` of a number that is not negative. -/
theorem float64_bounds (x : ℚ) (hx : 0 ≤ x) :
    x - x / 9007199254740992 ≤ float64 x ∧ float64 x ≤ x + x / 9007199254740992 := by
  have e53 : (2 : ℚ) ^ 53 = 9007199254740992 := by norm_num
  have eg := float64_error x
  rw [abs_of_nonneg hx, abs_le, e53] at eg
  constructor <;> linarith [eg.1, eg.2]

/-- The method `Minutes` is positive on every positive duration. -/
theorem Minutes_pos (d : Int) (hd : 0 < d) (hfit : d ≤ maxDuration) :
    0 < Duration.Minutes d := by
  have hMv : Minute = 60000000000 := by decide
  have hmax : d ≤ (9223372036854775807 : Int) := by
    have : maxDuration = (9223372036854775807 : Int) := by decide
    rw [this] at hfit
    exact hfit
  unfold Duration.Minutes
  rw [hMv]
  have h1 : Int.tdiv d 60000000000 = d / 60000000000 := Int.tdiv_eq_ediv hd.le (by norm_num)
  have h2 : Int.tmod d 60000000000 = d % 60000000000 := Int.tmod_eq_emod hd.le (by norm_num)
  have hh0 : 0 ≤ d / 60000000000 := Int.ediv_nonneg hd.le (by norm_num)
  have hk0 := Int.emod_nonneg d (by norm_num : (60000000000 : Int) ≠ 0)
  have hk1 := Int.emod_lt_of_pos d (by norm_num : (0 : Int) < 60000000000)
  rw [h1, h2]
  rw [float64_intCast (d / 60000000000) (by rw [abs_of_nonneg hh0]; omega)]
  rw [float64_intCast (d % 60000000000) (by rw [abs_of_nonneg hk0]; omega)]
  have hh0q : (0 : ℚ) ≤ ((d / 60000000000 : Int) : ℚ) := by exact_mod_cast hh0
  have hk0q : (0 : ℚ) ≤ ((d % 60000000000 : Int) : ℚ) := by exact_mod_cast hk0
  set q : ℚ := ((d % 60000000000 : Int) : ℚ) / (60 * 1000000000) with hqdef
  have hq0 : 0 ≤ q := by rw [hqdef]; positivity
  have eg := float64_bounds q hq0
  set g := float64 q with hg
  have hqq : q / 9007199254740992 ≤ q / 2 := by
    apply div_le_div_of_nonneg_left hq0 (by norm_num) (by norm_num)
  have hg0 : 0 ≤ g := by linarith [eg.1]
  have hsum : (0 : ℚ) < ((d / 60000000000 : Int) : ℚ) + g := by
    by_cases hm : d / 60000000000 = 0
    · have hk : 1 ≤ d % 60000000000 := by omega
      have hkq : (1 : ℚ) ≤ ((d % 60000000000 : Int) : ℚ) := by exact_mod_cast hk
      have hq1 : 1 / (60 * 1000000000) ≤ q := by
        rw [hqdef]; apply div_le_div_of_nonneg_right hkq (by norm_num)
      have : 0 < g := by linarith [eg.1]
      linarith
    · have h1' : 1 ≤ d / 60000000000 := by omega
      have h1q : (1 : ℚ) ≤ ((d / 60000000000 : Int) : ℚ) := by exact_mod_cast h1'
      linarith
  have ex := float64_bounds (((d / 60000000000 : Int) : ℚ) + g) hsum.le
  have hxx : (((d / 60000000000 : Int) : ℚ) + g) / 9007199254740992
      ≤ (((d / 60000000000 : Int) : ℚ) + g) / 2 := by
    apply div_le_div_of_nonneg_left hsum.le (by norm_num) (by norm_num)
  linarith [ex.1]

theorem remainderPositive_of_bounds (reading : RemainderReading) (x : ℚ) (h k : Int)
    (hh : 0 ≤ h) (hk : 0 < k) (hk2 : k < 3600)
    (h1 : ((3600 * h + k : Int) : ℚ) ≤ x) (h2 : x < ((3600 * h + k : Int) : ℚ) + 1) :
    remainderPositive reading x := by
  push_cast at h1 h2
  have hhq : (0 : ℚ) ≤ (h : ℚ) := by exact_mod_cast hh
  have hkq : (0 : ℚ) < (k : ℚ) := by exact_mod_cast hk
  have hk2q : (k : ℚ) + 1 ≤ 3600 := by exact_mod_cast hk2
  cases reading with
  | mathMod =>
    show fmod x 3600 > 0
    unfold fmod
    rw [truncToInt_of_bounds (x / 3600) h hh (by rw [le_div_iff₀ (by norm_num)]; linarith)
      (by rw [div_lt_iff₀ (by norm_num)]; linarith)]
    linarith
  | intMod =>
    show Int.tmod (truncToInt x) 3600 > 0
    rw [truncToInt_of_bounds x (3600 * h + k) (by omega) (by push_cast; linarith)
      (by push_cast; linarith)]
    rw [Int.tmod_eq_emod (by omega) (by norm_num)]
    omega

/-- One nanosecond short of 4100 hours: `Hours()` rounds up to 4100.0 while
`Seconds()` stays below a whole hour, so the code bills 4101 hours, under both
readings of `%`. -/
theorem billedHours_4100_hours_less_1ns (reading : RemainderReading) :
    billedHours reading (4100 * Hour - 1) = 4101 := by
  have hH : Duration.Hours (4100 * Hour - 1) = 4100 := by
    have t1 : Int.tdiv (4100 * Hour - 1) Hour = 4099 := by decide
    have t2 : Int.tmod (4100 * Hour - 1) Hour = 3599999999999 := by decide
    unfold Duration.Hours
    rw [t1, t2, float64_intCast 4099 (by decide), float64_intCast 3599999999999 (by decide)]
    have hq : ((3599999999999 : Int) : ℚ) / (60 * 60 * 1000000000)
        = 3599999999999 / 3600000000000 := by norm_num
    rw [hq]
    have eg := float64_bounds (3599999999999 / 3600000000000) (by norm_num)
    set g := float64 (3599999999999 / 3600000000000) with hg
    have hx := float64_of_binade (((4099 : Int) : ℚ) + g) 12 (4100 * 2 ^ 40)
      (by rw [abs_of_nonneg (by push_cast; linarith [eg.1])]; push_cast; norm_num; linarith [eg.1])
      (by rw [abs_of_nonneg (by push_cast; linarith [eg.1])]; push_cast; norm_num; linarith [eg.2])
      (by
        push_cast
        norm_num
        rw [abs_lt]
        constructor <;> linarith [eg.1, eg.2])
    rw [hx]
    push_cast
    norm_num
  have hS : ((3600 * 4099 + 3599 : Int) : ℚ) ≤ Duration.Seconds (4100 * Hour - 1) ∧
      Duration.Seconds (4100 * Hour - 1) < ((3600 * 4099 + 3599 : Int) : ℚ) + 1 := by
    have t1 : Int.tdiv (4100 * Hour - 1) Second = 14759999 := by decide
    have t2 : Int.tmod (4100 * Hour - 1) Second = 999999999 := by decide
    unfold Duration.Seconds
    rw [t1, t2, float64_intCast 14759999 (by decide), float64_intCast 999999999 (by decide)]
    have hq : ((999999999 : Int) : ℚ) / 1000000000 = 999999999 / 1000000000 := by norm_num
    rw [hq]
    have eg := float64_bounds (999999999 / 1000000000) (by norm_num)
    set g := float64 (999999999 / 1000000000) with hg
    have hpos : (0 : ℚ) ≤ ((14759999 : Int) : ℚ) + g := by push_cast; linarith [eg.1]
    have ex := float64_error_binade (((14759999 : Int) : ℚ) + g) 23
      (by rw [abs_of_nonneg hpos]; push_cast; norm_num; linarith [eg.1])
      (by rw [abs_of_nonneg hpos]; push_cast; norm_num; linarith [eg.2])
    rw [abs_le] at ex
    norm_num at ex
    push_cast
    constructor <;> linarith [ex.1, ex.2, eg.1, eg.2]
  have hM := Minutes_pos (4100 * Hour - 1) (by decide) (by decide)
  have hR := remainderPositive_of_bounds reading _ 4099 3599 (by decide) (by decide) (by decide)
    hS.1 hS.2
  unfold billedHours
  simp only
  rw [if_pos ⟨hM, hR⟩, hH]
  have : truncToInt (4100 : ℚ) = 4100 := by
    have := truncToInt_intCast 4100
    simpa using this
  rw [this]
  rfl

/-- One nanosecond past 5000 hours: `Hours()` and `Seconds()` both round the
nanosecond away, so the code bills 5000 hours, under both readings of `%`. -/
theorem billedHours_5000_hours_plus_1ns (reading : RemainderReading) :
    billedHours reading (5000 * Hour + 1) = 5000 := by
  have hH : Duration.Hours (5000 * Hour + 1) = 5000 := by
    have t1 : Int.tdiv (5000 * Hour + 1) Hour = 5000 := by decide
    have t2 : Int.tmod (5000 * Hour + 1) Hour = 1 := by decide
    unfold Duration.Hours
    rw [t1, t2, float64_intCast 5000 (by decide), float64_intCast 1 (by decide)]
    have hq : ((1 : Int) : ℚ) / (60 * 60 * 1000000000) = 1 / 3600000000000 := by norm_num
    rw [hq]
    have eg := float64_bounds (1 / 3600000000000) (by norm_num)
    set g := float64 (1 / 3600000000000) with hg
    have hx := float64_of_binade (((5000 : Int) : ℚ) + g) 12 (5000 * 2 ^ 40)
      (by rw [abs_of_nonneg (by push_cast; linarith [eg.1])]; push_cast; norm_num; linarith [eg.1])
      (by rw [abs_of_nonneg (by push_cast; linarith [eg.1])]; push_cast; norm_num; linarith [eg.2])
      (by
        push_cast
        norm_num
        rw [abs_lt]
        constructor <;> linarith [eg.1, eg.2])
    rw [hx]
    push_cast
    norm_num
  have hS : Duration.Seconds (5000 * Hour + 1) = ((18000000 : Int) : ℚ) := by
    have t1 : Int.tdiv (5000 * Hour + 1) Second = 18000000 := by decide
    have t2 : Int.tmod (5000 * Hour + 1) Second = 1 := by decide
    unfold Duration.Seconds
    rw [t1, t2, float64_intCast 18000000 (by decide), float64_intCast 1 (by decide)]
    have hq : ((1 : Int) : ℚ) / 1000000000 = 1 / 1000000000 := by norm_num
    rw [hq]
    have eg := float64_bounds (1 / 1000000000) (by norm_num)
    set g := float64 (1 / 1000000000) with hg
    have hx := float64_of_binade (((18000000 : Int) : ℚ) + g) 24 (18000000 * 2 ^ 28)
      (by rw [abs_of_nonneg (by push_cast; linarith [eg.1])]; push_cast; norm_num; linarith [eg.1])
      (by rw [abs_of_nonneg (by push_cast; linarith [eg.1])]; push_cast; norm_num; linarith [eg.2])
      (by
        push_cast
        norm_num
        rw [abs_lt]
        constructor <;> linarith [eg.1, eg.2])
    rw [hx]
    push_cast
    norm_num
  have hR : ¬remainderPositive reading (Duration.Seconds (5000 * Hour + 1)) := by
    rw [hS, remainderPositive_seconds reading 18000000 (by decide)]
    decide
  unfold billedHours
  simp only
  rw [if_neg (fun h => hR h.2), hH]
  have : truncToInt (5000 : ℚ) = 5000 := by
    have := truncToInt_intCast 5000
    simpa using this
  exact this

/-- Half a second, where the two readings of `%` part: the floating point
remainder of 0.5 is positive and one hour is billed, the remainder of
`int(0.5) = 0` is not and nothing is billed. -/
theorem billedHours_half_second :
    billedHours RemainderReading.mathMod 500000000 = 1 ∧
    billedHours RemainderReading.intMod 500000000 = 0 := by
  have hH : truncToInt (Duration.Hours 500000000) = 0 := by
    have t1 : Int.tdiv 500000000 Hour = 0 := by decide
    have t2 : Int.tmod 500000000 Hour = 500000000 := by decide
    unfold Duration.Hours
    rw [t1, t2, float64_intCast 0 (by decide), float64_intCast 500000000 (by decide)]
    have hq : ((500000000 : Int) : ℚ) / (60 * 60 * 1000000000) = 1 / 7200 := by norm_num
    rw [hq]
    have eg := float64_bounds (1 / 7200) (by norm_num)
    set g := float64 (1 / 7200) with hg
    have hg0 : 0 ≤ g := by linarith [eg.1]
    have ex := float64_bounds (((0 : Int) : ℚ) + g) (by push_cast; linarith)
    push_cast at ex ⊢
    rw [zero_add] at ex ⊢
    have hxx : g / 9007199254740992 ≤ g := by
      apply div_le_self hg0 (by norm_num)
    exact truncToInt_of_bounds _ 0 le_rfl (by push_cast; linarith [ex.1])
      (by push_cast; linarith [ex.2, eg.2])
  have hS : Duration.Seconds 500000000 = 1 / 2 := by
    have t1 : Int.tdiv 500000000 Second = 0 := by decide
    have t2 : Int.tmod 500000000 Second = 500000000 := by decide
    unfold Duration.Seconds
    rw [t1, t2, float64_intCast 0 (by decide), float64_intCast 500000000 (by decide)]
    have hq : ((500000000 : Int) : ℚ) / 1000000000 = ((1 : Int) : ℚ) * 2 ^ (-1 : Int) := by
      norm_num
    have hhalf := float64_dyadic 1 (-1) (by decide)
    rw [hq, hhalf]
    push_cast at hhalf ⊢
    rw [zero_add, hhalf]
    norm_num
  have hM := Minutes_pos 500000000 (by decide) (by decide)
  have hz : truncToInt ((1 : ℚ) / 2 / 3600) = 0 :=
    truncToInt_of_bounds _ 0 le_rfl (by norm_num) (by norm_num)
  have hz2 : truncToInt ((1 : ℚ) / 2) = 0 :=
    truncToInt_of_bounds _ 0 le_rfl (by norm_num) (by norm_num)
  constructor
  · have hR : remainderPositive RemainderReading.mathMod (Duration.Seconds 500000000) := by
      rw [hS]
      show fmod (1 / 2) 3600 > 0
      unfold fmod
      rw [hz]
      norm_num
    unfold billedHours
    simp only
    rw [if_pos ⟨hM, hR⟩, hH]
    rfl
  · have hR : ¬remainderPositive RemainderReading.intMod (Duration.Seconds 500000000) := by
      rw [hS]
      show ¬(Int.tmod (truncToInt (1 / 2)) 3600 > 0)
      rw [hz2]
      decide
    unfold billedHours
    simp only
    rw [if_neg (fun h => hR h.2), hH]

/-! ### The size of the billed hours -/

theorem tdiv_tmod_hour_bounds (d : Int) (h1 : -9223372036854775808 ≤ d)
    (h2 : d ≤ 9223372036854775807) :
    |Int.tdiv d 3600000000000| ≤ 2562047 ∧ |Int.tmod d 3600000000000| ≤ 3599999999999 := by
  have hsplit := Int.tmod_add_tdiv d 3600000000000
  rcases le_or_lt 0 d with hd | hd
  · have e1 : Int.tdiv d 3600000000000 = d / 3600000000000 :=
      Int.tdiv_eq_ediv hd (by norm_num)
    rw [e1] at hsplit ⊢
    rw [abs_le, abs_le]
    omega
  · have e0 : Int.tdiv d 3600000000000 = -(Int.tdiv (-d) 3600000000000) := by
      rw [Int.neg_tdiv, neg_neg]
    have e1 : Int.tdiv (-d) 3600000000000 = (-d) / 3600000000000 :=
      Int.tdiv_eq_ediv (by omega) (by norm_num)
    rw [e0, e1] at hsplit
    rw [e0, e1, abs_le, abs_le]
    omega

theorem abs_float64_le (x : ℚ) : |float64 x| ≤ |x| + |x| / 2 ^ 53 := by
  have h := float64_error x
  have h2 : |float64 x| ≤ |float64 x - x| + |x| := by
    have := abs_add (float64 x - x) x
    simpa using this
  linarith

theorem abs_truncToInt_le (x : ℚ) : |((truncToInt x : Int) : ℚ)| ≤ |x| := by
  unfold truncToInt
  split_ifs with h
  · have h1 := Int.floor_le x
    have h0 : (0 : ℚ) ≤ ((⌊x⌋ : Int) : ℚ) := by exact_mod_cast Int.floor_nonneg.mpr h
    rw [abs_of_nonneg h0, abs_of_nonneg h]
    exact h1
  · have hx : x < 0 := not_le.mp h
    have h1 := Int.le_ceil x
    have h0 : ((⌈x⌉ : Int) : ℚ) ≤ 0 := by
      have : ⌈x⌉ ≤ 0 := Int.ceil_le.mpr (by simpa using hx.le)
      exact_mod_cast this
    rw [abs_of_nonpos h0, abs_of_neg hx]
    linarith

/-- The billed hours of any duration stay far below `2 ^ 50`. -/
theorem billedHours_abs_le (reading : RemainderReading) (d : Int)
    (h1 : minDuration ≤ d) (h2 : d ≤ maxDuration) : |billedHours reading d| ≤ 2562050 := by
  have hmin : (-9223372036854775808 : Int) ≤ d := by
    have : minDuration = (-9223372036854775808 : Int) := by decide
    rw [this] at h1; exact h1
  have hmax : d ≤ (9223372036854775807 : Int) := by
    have : maxDuration = (9223372036854775807 : Int) := by decide
    rw [this] at h2; exact h2
  have hHv : Hour = 3600000000000 := by decide
  obtain ⟨b1, b2⟩ := tdiv_tmod_hour_bounds d hmin hmax
  have hH : |Duration.Hours d| ≤ 2562049 := by
    unfold Duration.Hours
    rw [hHv]
    rw [float64_intCast _ (lt_of_le_of_lt b1 (by norm_num)),
      float64_intCast _ (lt_of_le_of_lt b2 (by norm_num))]
    have b1q : |((Int.tdiv d 3600000000000 : Int) : ℚ)| ≤ 2562047 := by exact_mod_cast b1
    have b2q : |((Int.tmod d 3600000000000 : Int) : ℚ)| ≤ 3599999999999 := by exact_mod_cast b2
    set q : ℚ := ((Int.tmod d 3600000000000 : Int) : ℚ) / (60 * 60 * 1000000000) with hq
    have hq1 : |q| ≤ 1 := by
      rw [hq, abs_div, abs_of_pos (by norm_num : (0 : ℚ) < 60 * 60 * 1000000000)]
      rw [div_le_one (by norm_num)]
      linarith
    have e53 : (2 : ℚ) ^ 53 = 9007199254740992 := by norm_num
    have hg := abs_float64_le q
    rw [e53] at hg
    set g := float64 q with hgdef
    have hx : |((Int.tdiv d 3600000000000 : Int) : ℚ) + g| ≤ 2562047 + |g| :=
      le_trans (abs_add _ _) (by linarith)
    have hH := abs_float64_le (((Int.tdiv d 3600000000000 : Int) : ℚ) + g)
    rw [e53] at hH
    have hq0 := abs_nonneg q
    have hx0 := abs_nonneg (((Int.tdiv d 3600000000000 : Int) : ℚ) + g)
    linarith
  have hT : |((truncToInt (Duration.Hours d) : Int) : ℚ)| ≤ 2562049 :=
    le_trans (abs_truncToInt_le _) hH
  have hTi : |truncToInt (Duration.Hours d)| ≤ 2562049 := by exact_mod_cast hT
  unfold billedHours
  simp only
  rw [abs_le] at hTi ⊢
  split_ifs <;> omega

/-- With the default rate the product `float64(hours) * 2.5` of
`calculatePayment` is exact for the billed hours of any two times. -/
theorem fallback_product_exact (reading : RemainderReading) (entryTime exitTime : Time) :
    float64 ((billedHours reading (Time.Sub exitTime entryTime) : ℚ) * defaultRate)
      = (billedHours reading (Time.Sub exitTime entryTime) : ℚ) * defaultRate := by
  apply float64_mul_defaultRate
  have h := billedHours_abs_le reading (Time.Sub exitTime entryTime)
    (Time.Sub_ge_min exitTime entryTime) (Time.Sub_le_max exitTime entryTime)
  exact lt_of_le_of_lt h (by norm_num)

/-- C1. When the difference between exit time and entry time is a positive
whole number `d` of seconds, `calculatePayment` bills `ceil(d / 3600)` hours and
returns that number of hours times the applied price per hour, under both
readings of `%`. -/
theorem calculatePayment_bills_ceil_hours (db : DB) (lookupFails : Bool)
    (entryTime exitTime : Time) (d : Int) (hd : 0 < d)
    (hdiff : Time.Sub exitTime entryTime = d * Second) :
    billedHours reading (Time.Sub exitTime entryTime) = ⌈(d : ℚ) / 3600⌉ ∧
    calculatePayment reading db lookupFails entryTime exitTime
      = (⌈(d : ℚ) / 3600⌉ : ℚ) * appliedPrice db lookupFails := by
  have hfit : d * Second ≤ maxDuration := hdiff ▸ Time.Sub_le_max exitTime entryTime
  rw [calculatePayment_eq, hdiff, billedHours_seconds reading d hd hfit]
  exact ⟨rfl, rfl⟩

/-- C1 at 3661 seconds with the sample tariff of 10: two hours are billed. -/
theorem calculatePayment_bills_ceil_hours_witness :
    (0 : Int) < 3661 ∧ Time.Sub (1000 + 3661 * Second) 1000 = 3661 * Second ∧
    billedHours RemainderReading.mathMod (Time.Sub (1000 + 3661 * Second) 1000)
      = ⌈((3661 : Int) : ℚ) / 3600⌉ ∧
    calculatePayment RemainderReading.mathMod sampleDB false 1000 (1000 + 3661 * Second)
      = (⌈((3661 : Int) : ℚ) / 3600⌉ : ℚ) * appliedPrice sampleDB false :=
  ⟨by decide, by decide,
    calculatePayment_bills_ceil_hours sampleDB false 1000 (1000 + 3661 * Second) 3661
      (by decide) (by decide)⟩

/-- C2, refuted: with exit time equal to entry time and an hourly tariff of 10
the amount is 0, not one hour at the applied price. -/
theorem zero_duration_bills_nothing_sample :
    calculatePayment RemainderReading.mathMod sampleDB false 1000 1000 = 0 ∧
    calculatePayment RemainderReading.mathMod sampleDB false 1000 1000
      ≠ 1 * appliedPrice sampleDB false := by
  have h : calculatePayment RemainderReading.mathMod sampleDB false 1000 1000 = 0 := by
    rw [calculatePayment_eq, Time.Sub_self, billedHours_zero]; simp
  refine ⟨h, ?_⟩
  rw [h, appliedPrice_sampleDB]
  norm_num

/-- C2, amended: when the exit time equals the entry time `calculatePayment`
bills zero hours and returns the amount 0, whatever the tariff. -/
theorem calculatePayment_zero_duration (db : DB) (lookupFails : Bool) (t : Time) :
    billedHours reading (Time.Sub t t) = 0 ∧
    calculatePayment reading db lookupFails t t = 0 := by
  rw [calculatePayment_eq, Time.Sub_self, billedHours_zero]
  simp

/-! ## Rejected transitions -/

/-- C3. For a spot whose occupancy flag is already true, `CreateEntry`
answers with the error "Место уже занято" (spot already occupied) and leaves
the store as it was: no entry is created, the spot stays flagged and no
occupancy event is published.  This holds whichever later storage statement
would have failed. -/
theorem CreateEntry_occupied_rejected (db : DB) (f : EntryFaults) (now : Time)
    (spotID vehicleID : Nat) (spot : Spot)
    (hsid : spotID ≠ 0) (hvid : vehicleID ≠ 0) (hread : f.firstSpot = false)
    (hspot : firstSpot db spotID = some spot) (hocc : spot.IsOccupied = true) :
    CreateEntry db f now spotID vehicleID
      = ⟨db, [], ⟨StatusBadRequest, Body.error "Место уже занято"⟩⟩ ∧
    (CreateEntry db f now spotID vehicleID).db.entries = db.entries ∧
    firstSpot (CreateEntry db f now spotID vehicleID).db spotID = some spot ∧
    (CreateEntry db f now spotID vehicleID).events = [] := by
  have h : CreateEntry db f now spotID vehicleID
      = ⟨db, [], ⟨StatusBadRequest, Body.error "Место уже занято"⟩⟩ := by
    unfold CreateEntry
    simp [hsid, hvid, hread, hspot, hocc]
  rw [h]
  exact ⟨rfl, rfl, hspot, rfl⟩

/-- C3 on the sample store with spot 1 taken. -/
theorem CreateEntry_occupied_rejected_witness :
    CreateEntry parkedDB EntryFaults.none 7 1 1
      = ⟨parkedDB, [], ⟨StatusBadRequest, Body.error "Место уже занято"⟩⟩ ∧
    (CreateEntry parkedDB EntryFaults.none 7 1 1).db.entries = parkedDB.entries ∧
    firstSpot (CreateEntry parkedDB EntryFaults.none 7 1 1).db 1 = some ⟨1, 1, "A1", true⟩ ∧
    (CreateEntry parkedDB EntryFaults.none 7 1 1).events = [] :=
  CreateEntry_occupied_rejected parkedDB EntryFaults.none 7 1 1 ⟨1, 1, "A1", true⟩
    (by decide) (by decide) rfl (by decide) rfl

/-- C4. For a session whose exit time is already set, `CreateExit` answers
with the error "Выезд уже зафиксирован" (exit already recorded) and leaves the
store as it was: no payment and no exit is created, the session keeps its exit
time, the spots are not touched and no occupancy event is published. -/
theorem CreateExit_closed_rejected (db : DB) (f : ExitFaults) (now : ExitClock)
    (entryID : Nat) (paymentMethod : String) (entry : Entry) (t : Time)
    (heid : entryID ≠ 0) (hpm : paymentMethod ≠ "") (hread : f.firstEntry = false)
    (hentry : firstEntry db entryID = some entry) (hclosed : entry.ExitTime = some t) :
    CreateExit reading db f now entryID paymentMethod
      = ⟨db, [], ⟨StatusBadRequest, Body.error "Выезд уже зафиксирован"⟩⟩ ∧
    (CreateExit reading db f now entryID paymentMethod).db.payments = db.payments ∧
    (CreateExit reading db f now entryID paymentMethod).db.exits = db.exits ∧
    (firstEntry (CreateExit reading db f now entryID paymentMethod).db entryID).map (fun e => e.ExitTime)
      = some (some t) ∧
    (CreateExit reading db f now entryID paymentMethod).db.spots = db.spots ∧
    (CreateExit reading db f now entryID paymentMethod).events = [] := by
  have h : CreateExit reading db f now entryID paymentMethod
      = ⟨db, [], ⟨StatusBadRequest, Body.error "Выезд уже зафиксирован"⟩⟩ := by
    unfold CreateExit
    simp [heid, hpm, hread, hentry, hclosed]
  rw [h]
  refine ⟨rfl, rfl, rfl, ?_, rfl, rfl⟩
  simp [hentry, hclosed]

/-- C4 on the sample store with session 1 closed. -/
theorem CreateExit_closed_rejected_witness :
    CreateExit RemainderReading.mathMod closedDB ExitFaults.none (ExitClock.at (9000 * Second)) 1 "card"
      = ⟨closedDB, [], ⟨StatusBadRequest, Body.error "Выезд уже зафиксирован"⟩⟩ ∧
    (CreateExit RemainderReading.mathMod closedDB ExitFaults.none (ExitClock.at (9000 * Second)) 1 "card").db.payments
      = closedDB.payments ∧
    (CreateExit RemainderReading.mathMod closedDB ExitFaults.none (ExitClock.at (9000 * Second)) 1 "card").db.exits
      = closedDB.exits ∧
    (firstEntry (CreateExit RemainderReading.mathMod closedDB ExitFaults.none (ExitClock.at (9000 * Second)) 1 "card").db
        1).map (fun e => e.ExitTime) = some (some (3600 * Second)) ∧
    (CreateExit RemainderReading.mathMod closedDB ExitFaults.none (ExitClock.at (9000 * Second)) 1 "card").db.spots
      = closedDB.spots ∧
    (CreateExit RemainderReading.mathMod closedDB ExitFaults.none (ExitClock.at (9000 * Second)) 1 "card").events = [] :=
  CreateExit_closed_rejected closedDB ExitFaults.none (ExitClock.at (9000 * Second)) 1 "card"
    ⟨1, 1, 1, 0, some (3600 * Second)⟩ (3600 * Second)
    (by decide) (by decide) rfl (by decide) rfl

/-! ## Lookups after a write -/

theorem find?_map_replace {α : Type} (p : α → Bool) (x : α) (hx : p x = true) (l : List α)
    (a : α) (h : l.find? p = some a) :
    (l.map (fun b => if p b = true then x else b)).find? p = some x := by
  induction l with
  | nil => simp at h
  | cons b t ih =>
    by_cases hb : p b = true
    · simp [List.find?, hb, hx]
    · have hb2 : p b = false := by simpa using hb
      have ht : t.find? p = some a := by simpa [List.find?, hb2] using h
      simp [List.find?, hb2, ih ht]

theorem any_of_find? {α : Type} (p : α → Bool) (l : List α) (a : α)
    (h : l.find? p = some a) : l.any p = true := by
  have h1 := List.mem_of_find?_eq_some h
  have h2 := List.find?_some h
  exact List.any_eq_true.mpr ⟨a, h1, h2⟩

theorem firstEntry_ID (db : DB) (id : Nat) (e : Entry) (h : firstEntry db id = some e) :
    e.ID = id := by
  have := List.find?_some h
  simpa using this

theorem firstSpot_ID (db : DB) (id : Nat) (s : Spot) (h : firstSpot db id = some s) :
    s.ID = id := by
  have := List.find?_some h
  simpa using this

theorem saveEntry_of_first (db : DB) (id : Nat) (e x : Entry) (h : firstEntry db id = some e)
    (hx : x.ID = id) :
    saveEntry db x = { db with entries := replaceEntry x db.entries } := by
  unfold saveEntry
  subst hx
  rw [if_pos (any_of_find? _ _ _ h)]

theorem saveSpot_of_first (db : DB) (id : Nat) (s x : Spot) (h : firstSpot db id = some s)
    (hx : x.ID = id) :
    saveSpot db x = { db with spots := replaceSpot x db.spots } := by
  unfold saveSpot
  subst hx
  rw [if_pos (any_of_find? _ _ _ h)]

theorem firstEntry_saveEntry (db : DB) (id : Nat) (e x : Entry) (h : firstEntry db id = some e)
    (hx : x.ID = id) : firstEntry (saveEntry db x) id = some x := by
  rw [saveEntry_of_first db id e x h hx]
  subst hx
  unfold firstEntry replaceEntry at *
  exact find?_map_replace (fun b => b.ID == x.ID) x (by simp) db.entries e h

theorem firstSpot_saveSpot (db : DB) (id : Nat) (s x : Spot) (h : firstSpot db id = some s)
    (hx : x.ID = id) : firstSpot (saveSpot db x) id = some x := by
  rw [saveSpot_of_first db id s x h hx]
  subst hx
  unfold firstSpot replaceSpot at *
  exact find?_map_replace (fun b => b.ID == x.ID) x (by simp) db.spots s h

theorem saveEntry_spots (db : DB) (x : Entry) : (saveEntry db x).spots = db.spots := by
  unfold saveEntry; split <;> rfl

theorem saveEntry_payments (db : DB) (x : Entry) : (saveEntry db x).payments = db.payments := by
  unfold saveEntry; split <;> rfl

theorem saveEntry_exits (db : DB) (x : Entry) : (saveEntry db x).exits = db.exits := by
  unfold saveEntry; split <;> rfl

theorem saveSpot_entries (db : DB) (x : Spot) : (saveSpot db x).entries = db.entries := by
  unfold saveSpot; split <;> rfl

theorem saveSpot_payments (db : DB) (x : Spot) : (saveSpot db x).payments = db.payments := by
  unfold saveSpot; split <;> rfl

theorem saveSpot_exits (db : DB) (x : Spot) : (saveSpot db x).exits = db.exits := by
  unfold saveSpot; split <;> rfl

theorem firstSpot_congr (db db2 : DB) (h : db2.spots = db.spots) (id : Nat) :
    firstSpot db2 id = firstSpot db id := by
  unfold firstSpot; rw [h]

theorem firstEntry_congr (db db2 : DB) (h : db2.entries = db.entries) (id : Nat) :
    firstEntry db2 id = firstEntry db id := by
  unfold firstEntry; rw [h]

/-- The store after a call of `CreateExit` on an open session in which every
write succeeds. -/
theorem CreateExit_success (db : DB) (f : ExitFaults) (now : ExitClock) (entryID : Nat)
    (paymentMethod : String) (entry : Entry) (spot : Spot)
    (heid : entryID ≠ 0) (hpm : paymentMethod ≠ "") (hread : f.firstEntry = false)
    (hentry : firstEntry db entryID = some entry) (hopen : entry.ExitTime = none)
    (hspot : firstSpot db entry.SpotID = some spot)
    (h1 : f.createPayment = false) (h2 : f.createExit = false) (h3 : f.saveEntry = false)
    (h4 : f.firstSpot = false) (h5 : f.saveSpot = false) :
    CreateExit reading db f now entryID paymentMethod =
      (let payment : Payment :=
        { ID := db.nextPaymentID,
          Amount := calculatePayment reading db f.firstTariff entry.EntryTime now.billing,
          Method := paymentMethod, Status := "pending", CreatedAt := now.created }
       let exit : Exit :=
        { ID := db.nextExitID, EntryID := entry.ID, ExitTime := now.exit,
          PaymentID := db.nextPaymentID }
       let db2 : DB :=
        { db with payments := db.payments ++ [payment], nextPaymentID := db.nextPaymentID + 1,
                  exits := db.exits ++ [exit], nextExitID := db.nextExitID + 1 }
       let db4 := saveSpot (saveEntry db2 { entry with ExitTime := some now.exit })
                    { spot with IsOccupied := false }
       ⟨db4, [notifySpotUpdate db4 f.countSpots spot.ParkingID], ⟨StatusCreated, Body.exit exit⟩⟩) := by
  have hs3 : ∀ d : DB, d.spots = db.spots →
      firstSpot (saveEntry d { entry with ExitTime := some now.exit }) entry.SpotID = some spot := by
    intro d hd
    rw [firstSpot_congr db _ (by rw [saveEntry_spots, hd]), hspot]
  unfold CreateExit
  simp [heid, hpm, hread, hentry, hopen, h1, h2, h3, h4, h5, hs3]

theorem appliedPrice_fallback (db : DB) (lookupFails : Bool)
    (hno : lookupFails = true ∨ firstTariff db 1 hourlyType = none) :
    appliedPrice db lookupFails = 2.5 := by
  unfold appliedPrice defaultRate
  rcases hno with h | h
  · simp [h]
  · cases lookupFails <;> simp [h]

/-- What `CreateExit` leaves in the store when every write succeeds: one new
pending payment, one new exit, the session closed and its spot free. -/
theorem CreateExit_success_effects (db : DB) (f : ExitFaults) (now : ExitClock) (entryID : Nat)
    (paymentMethod : String) (entry : Entry) (spot : Spot)
    (heid : entryID ≠ 0) (hpm : paymentMethod ≠ "") (hread : f.firstEntry = false)
    (hentry : firstEntry db entryID = some entry) (hopen : entry.ExitTime = none)
    (hspot : firstSpot db entry.SpotID = some spot)
    (h1 : f.createPayment = false) (h2 : f.createExit = false) (h3 : f.saveEntry = false)
    (h4 : f.firstSpot = false) (h5 : f.saveSpot = false) :
    (CreateExit reading db f now entryID paymentMethod).resp.status = StatusCreated ∧
    (CreateExit reading db f now entryID paymentMethod).db.payments
      = db.payments ++ [⟨db.nextPaymentID,
          calculatePayment reading db f.firstTariff entry.EntryTime now.billing,
          paymentMethod, "pending", now.created⟩] ∧
    (CreateExit reading db f now entryID paymentMethod).db.exits
      = db.exits ++ [⟨db.nextExitID, entry.ID, now.exit, db.nextPaymentID⟩] ∧
    firstEntry (CreateExit reading db f now entryID paymentMethod).db entryID
      = some { entry with ExitTime := some now.exit } ∧
    firstSpot (CreateExit reading db f now entryID paymentMethod).db entry.SpotID
      = some { spot with IsOccupied := false } := by
  rw [CreateExit_success db f now entryID paymentMethod entry spot heid hpm hread hentry hopen
    hspot h1 h2 h3 h4 h5]
  refine ⟨rfl, ?_, ?_, ?_, ?_⟩
  · simp only [saveSpot_payments, saveEntry_payments]
  · simp only [saveSpot_exits, saveEntry_exits]
  · rw [firstEntry_congr _ _ (saveSpot_entries _ _)]
    exact firstEntry_saveEntry _ entryID entry _ hentry (firstEntry_ID db entryID entry hentry)
  · refine firstSpot_saveSpot _ entry.SpotID spot _ ?_ (firstSpot_ID db _ spot hspot)
    rw [firstSpot_congr db _ (by rw [saveEntry_spots])]
    exact hspot

/-- C8. When the tariff lookup finds no hourly tariff (no row matches or the
query fails), `calculatePayment` still returns an amount for every pair of
times, under both readings of `%`: the billed hours times the default rate
2.5, a product that `float64` represents exactly; and `CreateExit`, its writes
succeeding, records a pending payment of that amount, records the exit, closes
the session and frees the spot. -/
theorem fallback_tariff_still_charges (db : DB) (f : ExitFaults) (now : ExitClock)
    (entryID : Nat) (paymentMethod : String) (entry : Entry) (spot : Spot)
    (hno : f.firstTariff = true ∨ firstTariff db 1 hourlyType = none)
    (heid : entryID ≠ 0) (hpm : paymentMethod ≠ "") (hread : f.firstEntry = false)
    (hentry : firstEntry db entryID = some entry) (hopen : entry.ExitTime = none)
    (hspot : firstSpot db entry.SpotID = some spot)
    (h1 : f.createPayment = false) (h2 : f.createExit = false) (h3 : f.saveEntry = false)
    (h4 : f.firstSpot = false) (h5 : f.saveSpot = false) :
    (∀ entryTime exitTime : Time,
      calculatePayment reading db f.firstTariff entryTime exitTime
        = (billedHours reading (Time.Sub exitTime entryTime) : ℚ) * 2.5 ∧
      float64 ((billedHours reading (Time.Sub exitTime entryTime) : ℚ) * 2.5)
        = (billedHours reading (Time.Sub exitTime entryTime) : ℚ) * 2.5) ∧
    (CreateExit reading db f now entryID paymentMethod).resp.status = StatusCreated ∧
    (CreateExit reading db f now entryID paymentMethod).db.payments
      = db.payments ++ [⟨db.nextPaymentID,
          (billedHours reading (Time.Sub now.billing entry.EntryTime) : ℚ) * 2.5,
          paymentMethod, "pending", now.created⟩] ∧
    (CreateExit reading db f now entryID paymentMethod).db.exits
      = db.exits ++ [⟨db.nextExitID, entry.ID, now.exit, db.nextPaymentID⟩] ∧
    firstEntry (CreateExit reading db f now entryID paymentMethod).db entryID
      = some { entry with ExitTime := some now.exit } ∧
    firstSpot (CreateExit reading db f now entryID paymentMethod).db entry.SpotID
      = some { spot with IsOccupied := false } := by
  have hcalc : ∀ entryTime exitTime : Time,
      calculatePayment reading db f.firstTariff entryTime exitTime
        = (billedHours reading (Time.Sub exitTime entryTime) : ℚ) * 2.5 := by
    intro entryTime exitTime
    rw [calculatePayment_eq, appliedPrice_fallback db f.firstTariff hno]
  have h := @CreateExit_success_effects reading db f now entryID paymentMethod entry spot heid
    hpm hread hentry hopen hspot h1 h2 h3 h4 h5
  rw [hcalc] at h
  refine ⟨fun entryTime exitTime => ⟨hcalc entryTime exitTime, ?_⟩, h⟩
  have := fallback_product_exact reading entryTime exitTime
  unfold defaultRate at this
  exact this

/-- C8 on a store whose only hourly tariff belongs to parking 2: the lookup
finds nothing and the session is closed at the default rate. -/
theorem fallback_tariff_still_charges_witness :
    (∀ entryTime exitTime : Time,
      calculatePayment RemainderReading.mathMod otherFacilityDB false entryTime exitTime
        = (billedHours RemainderReading.mathMod (Time.Sub exitTime entryTime) : ℚ) * 2.5 ∧
      float64 ((billedHours RemainderReading.mathMod (Time.Sub exitTime entryTime) : ℚ) * 2.5)
        = (billedHours RemainderReading.mathMod (Time.Sub exitTime entryTime) : ℚ) * 2.5) ∧
    (CreateExit RemainderReading.mathMod otherFacilityDB ExitFaults.none (ExitClock.at (3600 * Second)) 1 "card").resp.status
      = StatusCreated ∧
    (CreateExit RemainderReading.mathMod otherFacilityDB ExitFaults.none (ExitClock.at (3600 * Second)) 1 "card").db.payments
      = otherFacilityDB.payments ++ [⟨otherFacilityDB.nextPaymentID,
          (billedHours RemainderReading.mathMod (Time.Sub (3600 * Second) 0) : ℚ) * 2.5, "card", "pending",
          3600 * Second⟩] ∧
    (CreateExit RemainderReading.mathMod otherFacilityDB ExitFaults.none (ExitClock.at (3600 * Second)) 1 "card").db.exits
      = otherFacilityDB.exits ++ [⟨otherFacilityDB.nextExitID, 1, 3600 * Second,
          otherFacilityDB.nextPaymentID⟩] ∧
    firstEntry (CreateExit RemainderReading.mathMod otherFacilityDB ExitFaults.none (ExitClock.at (3600 * Second)) 1
        "card").db 1 = some ⟨1, 1, 1, 0, some (3600 * Second)⟩ ∧
    firstSpot (CreateExit RemainderReading.mathMod otherFacilityDB ExitFaults.none (ExitClock.at (3600 * Second)) 1
        "card").db 1 = some ⟨1, 2, "B1", false⟩ :=
  fallback_tariff_still_charges otherFacilityDB ExitFaults.none (ExitClock.at (3600 * Second)) 1
    "card" ⟨1, 1, 1, 0, none⟩ ⟨1, 2, "B1", true⟩ (Or.inr (by decide))
    (by decide) (by decide) rfl (by decide) rfl (by decide) rfl rfl rfl rfl rfl

/-! ## Notification hub -/

theorem handleMessages_attempts (writeOk : Conn → Bool) (update : SpotUpdate)
    (clients : List Conn) :
    (handleMessages writeOk update clients).attempts = clients.map (fun c => (c, update)) := by
  induction clients with
  | nil => rfl
  | cons c t ih => by_cases h : writeOk c = true <;> simp [handleMessages, h, ih]

theorem handleMessages_clients (writeOk : Conn → Bool) (update : SpotUpdate)
    (clients : List Conn) :
    (handleMessages writeOk update clients).clients = clients.filter writeOk := by
  induction clients with
  | nil => rfl
  | cons c t ih => by_cases h : writeOk c = true <;> simp [handleMessages, h, ih]

theorem handleMessages_delivered (writeOk : Conn → Bool) (update : SpotUpdate)
    (clients : List Conn) :
    (handleMessages writeOk update clients).delivered
      = (clients.filter writeOk).map (fun c => (c, update)) := by
  induction clients with
  | nil => rfl
  | cons c t ih => by_cases h : writeOk c = true <;> simp [handleMessages, h, ih]

theorem handleMessages_closed (writeOk : Conn → Bool) (update : SpotUpdate)
    (clients : List Conn) :
    (handleMessages writeOk update clients).closed = clients.filter (fun c => !writeOk c) := by
  induction clients with
  | nil => rfl
  | cons c t ih => by_cases h : writeOk c = true <;> simp [handleMessages, h, ih]

/-- C10. One broadcast step of `handleMessages`: the update is written to
every registered connection; a connection whose write fails is closed and
removed from the registry and is not written to in a later step; a connection
whose write succeeds stays registered and has received the update.  The step
returns nothing to the sender of the update. -/
theorem handleMessages_broadcast_step (writeOk : Conn → Bool) (update : SpotUpdate)
    (clients : List Conn) :
    (handleMessages writeOk update clients).attempts = clients.map (fun c => (c, update)) ∧
    (∀ c ∈ clients, writeOk c = false →
      c ∉ (handleMessages writeOk update clients).clients ∧
      c ∈ (handleMessages writeOk update clients).closed ∧
      ∀ (writeOk2 : Conn → Bool) (update2 : SpotUpdate),
        (c, update2) ∉ (handleMessages writeOk2 update2
          (handleMessages writeOk update clients).clients).attempts) ∧
    (∀ c ∈ clients, writeOk c = true →
      c ∈ (handleMessages writeOk update clients).clients ∧
      (c, update) ∈ (handleMessages writeOk update clients).delivered) := by
  refine ⟨handleMessages_attempts writeOk update clients, ?_, ?_⟩
  · intro c hc hfail
    refine ⟨?_, ?_, ?_⟩
    · simp [handleMessages_clients, hfail]
    · simp [handleMessages_closed, hfail, hc]
    · intro writeOk2 update2
      simp [handleMessages_attempts, handleMessages_clients, hfail]
  · intro c hc hok
    refine ⟨?_, ?_⟩
    · simp [handleMessages_clients, hok, hc]
    · simp [handleMessages_delivered, hok, hc]

/-! ## Failing writes in `CreateExit` -/

/-- C5, refuted: when the creation of the exit fails, the store holds a new
payment while the session is still open and its spot still flagged; the store
is neither the one before the call nor that of a completed close. -/
theorem CreateExit_failed_exit_keeps_payment :
    (CreateExit RemainderReading.mathMod parkedDB ExitFaults.exitCreation (ExitClock.at (3600 * Second)) 1
        "card").db.payments.length = parkedDB.payments.length + 1 ∧
    (CreateExit RemainderReading.mathMod parkedDB ExitFaults.exitCreation (ExitClock.at (3600 * Second)) 1
        "card").db.exits = [] ∧
    firstEntry (CreateExit RemainderReading.mathMod parkedDB ExitFaults.exitCreation (ExitClock.at (3600 * Second)) 1
        "card").db 1 = some ⟨1, 1, 1, 0, none⟩ ∧
    firstSpot (CreateExit RemainderReading.mathMod parkedDB ExitFaults.exitCreation (ExitClock.at (3600 * Second)) 1
        "card").db 1 = some ⟨1, 1, "A1", true⟩ ∧
    (CreateExit RemainderReading.mathMod parkedDB ExitFaults.exitCreation (ExitClock.at (3600 * Second)) 1
        "card").db ≠ parkedDB := by
  have h : (CreateExit RemainderReading.mathMod parkedDB ExitFaults.exitCreation (ExitClock.at (3600 * Second)) 1
      "card").db = { parkedDB with
        payments := parkedDB.payments ++ [pendingPayment RemainderReading.mathMod parkedDB ExitFaults.exitCreation
          (ExitClock.at (3600 * Second)) ⟨1, 1, 1, 0, none⟩ "card"],
        nextPaymentID := parkedDB.nextPaymentID + 1 } := by
    simp [CreateExit, ExitFaults.exitCreation, ExitFaults.none, pendingPayment, parkedDB,
      sampleDB, firstEntry]
  rw [h]
  refine ⟨by simp, by simp [parkedDB, sampleDB], by simp [firstEntry, parkedDB],
    by simp [firstSpot, parkedDB], ?_⟩
  intro hEq
  have := congrArg DB.nextPaymentID hEq
  simp [parkedDB, sampleDB] at this

/-- C5, amended: `CreateExit` executes its writes one after another without a
transaction.  On an open session, a write that fails ends the call with status
500 and no occupancy event, and every earlier write stays in the store: a
failing payment creation leaves the store unchanged; a failing exit creation
leaves the new payment; a failing save of the entry leaves payment and exit
with the session open; a failing read or save of the spot leaves payment, exit
and the closed session with the spot still flagged.  With no failure the call
answers 201 with one new pending payment and exit, the session closed and the
spot free. -/
theorem CreateExit_write_failures (db : DB) (f : ExitFaults) (now : ExitClock)
    (entryID : Nat) (paymentMethod : String) (entry : Entry) (spot : Spot)
    (heid : entryID ≠ 0) (hpm : paymentMethod ≠ "") (hread : f.firstEntry = false)
    (hentry : firstEntry db entryID = some entry) (hopen : entry.ExitTime = none)
    (hspot : firstSpot db entry.SpotID = some spot) :
    (f.createPayment = true →
      CreateExit reading db f now entryID paymentMethod
        = ⟨db, [], ⟨StatusInternalServerError, Body.error "Не удалось создать платеж"⟩⟩) ∧
    (f.createPayment = false → f.createExit = true →
      (CreateExit reading db f now entryID paymentMethod).resp.status = StatusInternalServerError ∧
      (CreateExit reading db f now entryID paymentMethod).events = [] ∧
      (CreateExit reading db f now entryID paymentMethod).db.payments
        = db.payments ++ [pendingPayment reading db f now entry paymentMethod] ∧
      (CreateExit reading db f now entryID paymentMethod).db.exits = db.exits ∧
      (CreateExit reading db f now entryID paymentMethod).db.entries = db.entries ∧
      (CreateExit reading db f now entryID paymentMethod).db.spots = db.spots) ∧
    (f.createPayment = false → f.createExit = false → f.saveEntry = true →
      (CreateExit reading db f now entryID paymentMethod).resp.status = StatusInternalServerError ∧
      (CreateExit reading db f now entryID paymentMethod).events = [] ∧
      (CreateExit reading db f now entryID paymentMethod).db.payments
        = db.payments ++ [pendingPayment reading db f now entry paymentMethod] ∧
      (CreateExit reading db f now entryID paymentMethod).db.exits
        = db.exits ++ [recordedExit db now entry] ∧
      (CreateExit reading db f now entryID paymentMethod).db.entries = db.entries ∧
      (CreateExit reading db f now entryID paymentMethod).db.spots = db.spots) ∧
    (f.createPayment = false → f.createExit = false → f.saveEntry = false →
      (f.firstSpot = true ∨ f.saveSpot = true) →
      (CreateExit reading db f now entryID paymentMethod).resp.status = StatusInternalServerError ∧
      (CreateExit reading db f now entryID paymentMethod).events = [] ∧
      (CreateExit reading db f now entryID paymentMethod).db.payments
        = db.payments ++ [pendingPayment reading db f now entry paymentMethod] ∧
      (CreateExit reading db f now entryID paymentMethod).db.exits
        = db.exits ++ [recordedExit db now entry] ∧
      firstEntry (CreateExit reading db f now entryID paymentMethod).db entryID
        = some { entry with ExitTime := some now.exit } ∧
      (CreateExit reading db f now entryID paymentMethod).db.spots = db.spots) ∧
    (f.createPayment = false → f.createExit = false → f.saveEntry = false →
      f.firstSpot = false → f.saveSpot = false →
      (CreateExit reading db f now entryID paymentMethod).resp.status = StatusCreated ∧
      (CreateExit reading db f now entryID paymentMethod).events.length = 1 ∧
      (CreateExit reading db f now entryID paymentMethod).db.payments
        = db.payments ++ [pendingPayment reading db f now entry paymentMethod] ∧
      (CreateExit reading db f now entryID paymentMethod).db.exits
        = db.exits ++ [recordedExit db now entry] ∧
      firstEntry (CreateExit reading db f now entryID paymentMethod).db entryID
        = some { entry with ExitTime := some now.exit } ∧
      firstSpot (CreateExit reading db f now entryID paymentMethod).db entry.SpotID
        = some { spot with IsOccupied := false }) := by
  have hid := firstEntry_ID db entryID entry hentry
  have hs3 : ∀ d : DB, d.spots = db.spots →
      firstSpot (saveEntry d { entry with ExitTime := some now.exit }) entry.SpotID = some spot := by
    intro d hd
    rw [firstSpot_congr db _ (by rw [saveEntry_spots, hd]), hspot]
  have he3 : ∀ d : DB, d.entries = db.entries →
      firstEntry (saveEntry d { entry with ExitTime := some now.exit }) entryID
        = some { entry with ExitTime := some now.exit } := by
    intro d hd
    exact firstEntry_saveEntry d entryID entry _ (by rw [firstEntry_congr db d hd, hentry]) hid
  refine ⟨?_, ?_, ?_, ?_, ?_⟩
  · intro h1
    unfold CreateExit
    simp [heid, hpm, hread, hentry, hopen, h1]
  · intro h1 h2
    unfold CreateExit
    simp [heid, hpm, hread, hentry, hopen, h1, h2, pendingPayment]
  · intro h1 h2 h3
    unfold CreateExit
    simp [heid, hpm, hread, hentry, hopen, h1, h2, h3, pendingPayment, recordedExit]
  · intro h1 h2 h3 h45
    unfold CreateExit
    rcases h45 with h4 | h5
    · simp [heid, hpm, hread, hentry, hopen, h1, h2, h3, h4, pendingPayment, recordedExit,
        saveEntry_payments, saveEntry_exits, saveEntry_spots, he3]
    · by_cases h4 : f.firstSpot = true
      · simp [heid, hpm, hread, hentry, hopen, h1, h2, h3, h4, pendingPayment, recordedExit,
          saveEntry_payments, saveEntry_exits, saveEntry_spots, he3]
      · have h4f : f.firstSpot = false := by simpa using h4
        simp [heid, hpm, hread, hentry, hopen, h1, h2, h3, h4f, h5, hs3, pendingPayment,
          recordedExit, saveEntry_payments, saveEntry_exits, saveEntry_spots, he3]
  · intro h1 h2 h3 h4 h5
    have h := @CreateExit_success_effects reading db f now entryID paymentMethod entry spot heid
      hpm hread hentry hopen hspot h1 h2 h3 h4 h5
    refine ⟨h.1, ?_, h.2.1, h.2.2.1, h.2.2.2.1, h.2.2.2.2⟩
    rw [CreateExit_success db f now entryID paymentMethod entry spot heid hpm hread hentry hopen
      hspot h1 h2 h3 h4 h5]
    rfl

/-- C5, amended, on the sample store with the creation of the exit failing:
the payment is recorded, the session stays open and the spot flagged. -/
theorem CreateExit_write_failures_witness :
    (CreateExit RemainderReading.mathMod parkedDB ExitFaults.exitCreation (ExitClock.at (3600 * Second)) 1
        "card").resp.status = StatusInternalServerError ∧
    (CreateExit RemainderReading.mathMod parkedDB ExitFaults.exitCreation (ExitClock.at (3600 * Second)) 1
        "card").events = [] ∧
    (CreateExit RemainderReading.mathMod parkedDB ExitFaults.exitCreation (ExitClock.at (3600 * Second)) 1
        "card").db.payments
      = parkedDB.payments ++ [pendingPayment RemainderReading.mathMod parkedDB ExitFaults.exitCreation
          (ExitClock.at (3600 * Second)) ⟨1, 1, 1, 0, none⟩ "card"] ∧
    (CreateExit RemainderReading.mathMod parkedDB ExitFaults.exitCreation (ExitClock.at (3600 * Second)) 1
        "card").db.exits = parkedDB.exits ∧
    (CreateExit RemainderReading.mathMod parkedDB ExitFaults.exitCreation (ExitClock.at (3600 * Second)) 1
        "card").db.entries = parkedDB.entries ∧
    (CreateExit RemainderReading.mathMod parkedDB ExitFaults.exitCreation (ExitClock.at (3600 * Second)) 1
        "card").db.spots = parkedDB.spots :=
  (CreateExit_write_failures parkedDB ExitFaults.exitCreation (ExitClock.at (3600 * Second)) 1
    "card" ⟨1, 1, 1, 0, none⟩ ⟨1, 1, "A1", true⟩ (by decide) (by decide) rfl (by decide) rfl
    (by decide)).2.1 rfl rfl

/-! ## The tariff of the session's parking -/

/-- C9, the code at the failing inputs, under both readings of `%`.  A
session of one hour on a spot of parking 2, whose hourly tariff is 10, is
charged 2.5: the lookup is made for parking 1, which has no tariff.  And in a
store where parking 2 has no hourly tariff and parking 1 has one of price 3,
the same session is charged 3. -/
theorem CreateExit_charges_tariff_of_parking_one :
    firstSpot otherFacilityDB 1 = some ⟨1, 2, "B1", true⟩ ∧
    firstTariff otherFacilityDB 2 hourlyType = some ⟨1, 2, hourlyType, 10⟩ ∧
    (CreateExit reading otherFacilityDB ExitFaults.none (ExitClock.at (3600 * Second)) 1
        "card").db.payments = [⟨1, 2.5, "card", "pending", 3600 * Second⟩] ∧
    firstTariff foreignTariffDB 2 hourlyType = none ∧
    (CreateExit reading foreignTariffDB ExitFaults.none (ExitClock.at (3600 * Second)) 1
        "card").db.payments = [⟨1, 3, "card", "pending", 3600 * Second⟩] := by
  have hsub : Time.Sub (3600 * Second) 0 = 3600 * Second := by decide
  have e1 := (@CreateExit_success_effects reading otherFacilityDB ExitFaults.none
    (ExitClock.at (3600 * Second)) 1 "card" ⟨1, 1, 1, 0, none⟩ ⟨1, 2, "B1", true⟩
    (by decide) (by decide) rfl (by decide) rfl (by decide) rfl rfl rfl rfl rfl).2.1
  have e2 := (@CreateExit_success_effects reading foreignTariffDB ExitFaults.none
    (ExitClock.at (3600 * Second)) 1 "card" ⟨1, 1, 1, 0, none⟩ ⟨1, 2, "B1", true⟩
    (by decide) (by decide) rfl (by decide) rfl (by decide) rfl rfl rfl rfl rfl).2.1
  have p1 : appliedPrice otherFacilityDB false = 2.5 :=
    appliedPrice_fallback otherFacilityDB false (Or.inr (by decide))
  have p2 : appliedPrice foreignTariffDB false = 3 := by
    simp [appliedPrice, foreignTariffDB, otherFacilityDB, firstTariff, leastTariff]
  refine ⟨by decide, by simp [firstTariff, otherFacilityDB, leastTariff], ?_, by decide, ?_⟩
  · rw [e1, calculatePayment_eq]
    simp only [ExitClock.at, ExitFaults.none]
    rw [hsub, billedHours_3600, p1]
    simp [otherFacilityDB]
  · rw [e2, calculatePayment_eq]
    simp only [ExitClock.at, ExitFaults.none]
    rw [hsub, billedHours_3600, p2]
    simp [foreignTariffDB, otherFacilityDB]

/-! ## Consistency of spots and sessions -/

theorem Consistent_of_eq (db db2 : DB) (h : Consistent db) (h1 : db2.spots = db.spots)
    (h2 : db2.entries = db.entries) (h3 : db2.nextSpotID = db.nextSpotID)
    (h4 : db2.nextEntryID = db.nextEntryID) : Consistent db2 := by
  obtain ⟨a, b, c, d, e, f, g, i⟩ := h
  constructor
  · rw [h1]; exact a
  · rw [h1, h3]; exact b
  · rw [h2]; exact c
  · rw [h2, h4]; exact d
  · rw [h1, h2]; exact e
  · rw [h1, h2]; exact f
  · rw [h1, h2]; exact g
  · rw [h2]; exact i

theorem Consistent_of_Fresh (db : DB) (h : Fresh db) : Consistent db := by
  obtain ⟨hs, he, -, -⟩ := h
  constructor <;> simp [hs, he]

theorem replaceSpot_IDs (spot : Spot) (spots : List Spot) :
    (replaceSpot spot spots).map (fun s => s.ID) = spots.map (fun s => s.ID) := by
  unfold replaceSpot
  rw [List.map_map]
  apply List.map_congr_left
  intro b _
  by_cases h : b.ID = spot.ID <;> simp [h]

theorem replaceEntry_IDs (entry : Entry) (entries : List Entry) :
    (replaceEntry entry entries).map (fun e => e.ID) = entries.map (fun e => e.ID) := by
  unfold replaceEntry
  rw [List.map_map]
  apply List.map_congr_left
  intro b _
  by_cases h : b.ID = entry.ID <;> simp [h]

theorem mem_replaceSpot (spot s : Spot) (spots : List Spot) :
    s ∈ replaceSpot spot spots ↔
      ∃ b ∈ spots, (b.ID = spot.ID ∧ s = spot) ∨ (b.ID ≠ spot.ID ∧ s = b) := by
  unfold replaceSpot
  simp only [List.mem_map]
  constructor
  · rintro ⟨b, hb, rfl⟩
    refine ⟨b, hb, ?_⟩
    by_cases h : b.ID = spot.ID <;> simp [h]
  · rintro ⟨b, hb, h | h⟩
    · exact ⟨b, hb, by simp [h.1, h.2]⟩
    · exact ⟨b, hb, by simp [h.1, h.2]⟩

theorem mem_replaceEntry (entry e : Entry) (entries : List Entry) :
    e ∈ replaceEntry entry entries ↔
      ∃ b ∈ entries, (b.ID = entry.ID ∧ e = entry) ∨ (b.ID ≠ entry.ID ∧ e = b) := by
  unfold replaceEntry
  simp only [List.mem_map]
  constructor
  · rintro ⟨b, hb, rfl⟩
    refine ⟨b, hb, ?_⟩
    by_cases h : b.ID = entry.ID <;> simp [h]
  · rintro ⟨b, hb, h | h⟩
    · exact ⟨b, hb, by simp [h.1, h.2]⟩
    · exact ⟨b, hb, by simp [h.1, h.2]⟩

/-- Adding a free spot with the next primary key keeps the store consistent. -/
theorem Consistent_addSpot (db : DB) (h : Consistent db) (parkingID : Nat) (number : String) :
    Consistent { db with
      spots := db.spots ++ [⟨db.nextSpotID, parkingID, number, false⟩],
      nextSpotID := db.nextSpotID + 1 } := by
  obtain ⟨a, b, c, d, e, f, g, i⟩ := h
  constructor
  · simp only [List.map_append, List.map_cons, List.map_nil]
    rw [List.nodup_append]
    refine ⟨a, by simp, ?_⟩
    intro x hx hx2
    simp only [List.mem_singleton] at hx2
    obtain ⟨s, hs, rfl⟩ := List.mem_map.mp hx
    have := b s hs
    omega
  · intro s hs
    simp only [List.mem_append, List.mem_singleton] at hs
    rcases hs with hs | rfl
    · have := b s hs
      show s.ID < db.nextSpotID + 1
      omega
    · show db.nextSpotID < db.nextSpotID + 1
      omega
  · exact c
  · exact d
  · intro en hen
    obtain ⟨s, hs, hid⟩ := e en hen
    exact ⟨s, List.mem_append_left _ hs, hid⟩
  · intro en hen hopen s hs hid
    simp only [List.mem_append, List.mem_singleton] at hs
    rcases hs with hs | rfl
    · exact f en hen hopen s hs hid
    · obtain ⟨s2, hs2, hid2⟩ := e en hen
      have := b s2 hs2
      simp only at hid
      omega
  · intro s hs hocc
    simp only [List.mem_append, List.mem_singleton] at hs
    rcases hs with hs | rfl
    · exact g s hs hocc
    · simp at hocc
  · exact i


/-- Opening a session on a free spot and flagging the spot keeps the store
consistent. -/
theorem Consistent_open (db : DB) (h : Consistent db) (spot : Spot) (hmem : spot ∈ db.spots)
    (hfree : spot.IsOccupied = false) (vehicleID : Nat) (now : Time) :
    Consistent { db with
      entries := db.entries ++ [⟨db.nextEntryID, spot.ID, vehicleID, now, none⟩],
      nextEntryID := db.nextEntryID + 1,
      spots := replaceSpot { spot with IsOccupied := true } db.spots } := by
  obtain ⟨a, b, c, d, e, f, g, i⟩ := h
  constructor
  · show ((replaceSpot _ db.spots).map (fun s : Spot => s.ID)).Nodup
    rw [replaceSpot_IDs]; exact a
  · intro s hs
    obtain ⟨b0, hb0, hc | hc⟩ := (mem_replaceSpot _ s db.spots).mp hs
    · rw [hc.2]; exact b spot hmem
    · rw [hc.2]; exact b b0 hb0
  · show ((db.entries ++ [_]).map (fun e : Entry => e.ID)).Nodup
    simp only [List.map_append, List.map_cons, List.map_nil]
    rw [List.nodup_append]
    refine ⟨c, by simp, ?_⟩
    intro x hx hx2
    simp only [List.mem_singleton] at hx2
    obtain ⟨s, hs, rfl⟩ := List.mem_map.mp hx
    have := d s hs
    omega
  · intro en hen
    have hen2 : en ∈ db.entries ++ [⟨db.nextEntryID, spot.ID, vehicleID, now, none⟩] := hen
    simp only [List.mem_append, List.mem_singleton] at hen2
    show en.ID < db.nextEntryID + 1
    rcases hen2 with hen2 | rfl
    · have := d en hen2
      omega
    · show db.nextEntryID < db.nextEntryID + 1
      omega
  · intro en hen
    have hen2 : en ∈ db.entries ++ [⟨db.nextEntryID, spot.ID, vehicleID, now, none⟩] := hen
    simp only [List.mem_append, List.mem_singleton] at hen2
    have key : ∀ s ∈ db.spots, ∃ s2 ∈ replaceSpot { spot with IsOccupied := true } db.spots,
        s2.ID = s.ID := by
      intro s hs
      by_cases hid : s.ID = spot.ID
      · exact ⟨_, (mem_replaceSpot _ _ db.spots).mpr ⟨s, hs, Or.inl ⟨hid, rfl⟩⟩, hid.symm⟩
      · exact ⟨s, (mem_replaceSpot _ _ db.spots).mpr ⟨s, hs, Or.inr ⟨hid, rfl⟩⟩, rfl⟩
    rcases hen2 with hen2 | rfl
    · obtain ⟨s, hs, hid⟩ := e en hen2
      obtain ⟨s2, hs2, hid2⟩ := key s hs
      exact ⟨s2, hs2, hid2.trans hid⟩
    · exact key spot hmem
  · intro en hen hopen s hs hid
    have hen2 : en ∈ db.entries ++ [⟨db.nextEntryID, spot.ID, vehicleID, now, none⟩] := hen
    simp only [List.mem_append, List.mem_singleton] at hen2
    obtain ⟨b0, hb0, hc | hc⟩ := (mem_replaceSpot _ s db.spots).mp hs
    · rw [hc.2]
    · rw [hc.2] at hid ⊢
      rcases hen2 with hen2 | rfl
      · exact f en hen2 hopen b0 hb0 hid
      · exact absurd hid hc.1
  · intro s hs hocc
    obtain ⟨b0, hb0, hc | hc⟩ := (mem_replaceSpot _ s db.spots).mp hs
    · refine ⟨⟨db.nextEntryID, spot.ID, vehicleID, now, none⟩, ?_, ?_, rfl⟩
      · exact List.mem_append_right _ (List.mem_singleton.mpr rfl)
      · rw [hc.2]
    · rw [hc.2] at hocc ⊢
      obtain ⟨en, hen, h1, h2⟩ := g b0 hb0 hocc
      exact ⟨en, List.mem_append_left _ hen, h1, h2⟩
  · intro e1 he1 e2 he2 h1 h2 h12
    have he1' : e1 ∈ db.entries ++ [⟨db.nextEntryID, spot.ID, vehicleID, now, none⟩] := he1
    have he2' : e2 ∈ db.entries ++ [⟨db.nextEntryID, spot.ID, vehicleID, now, none⟩] := he2
    simp only [List.mem_append, List.mem_singleton] at he1' he2'
    rcases he1' with he1' | rfl <;> rcases he2' with he2' | rfl
    · exact i e1 he1' e2 he2' h1 h2 h12
    · have := f e1 he1' h1 spot hmem h12.symm
      rw [hfree] at this
      exact absurd this (by decide)
    · have := f e2 he2' h2 spot hmem h12
      rw [hfree] at this
      exact absurd this (by decide)
    · rfl

/-- Closing the open session `entry` and clearing the flag of its spot keeps
the store consistent. -/
theorem Consistent_close (db : DB) (h : Consistent db) (entry : Entry)
    (hmem : entry ∈ db.entries) (hopen : entry.ExitTime = none) (spot : Spot)
    (hsid : spot.ID = entry.SpotID) (t : Time) :
    Consistent { db with
      entries := replaceEntry { entry with ExitTime := some t } db.entries,
      spots := replaceSpot { spot with IsOccupied := false } db.spots } := by
  obtain ⟨a, b, c, d, e, f, g, i⟩ := h
  have hinj := List.inj_on_of_nodup_map c
  have keyS : ∀ s ∈ db.spots, ∃ s2 ∈ replaceSpot { spot with IsOccupied := false } db.spots,
      s2.ID = s.ID := by
    intro s hs
    by_cases hid : s.ID = spot.ID
    · exact ⟨_, (mem_replaceSpot _ _ db.spots).mpr ⟨s, hs, Or.inl ⟨hid, rfl⟩⟩, hid.symm⟩
    · exact ⟨s, (mem_replaceSpot _ _ db.spots).mpr ⟨s, hs, Or.inr ⟨hid, rfl⟩⟩, rfl⟩
  have openOld : ∀ en ∈ replaceEntry { entry with ExitTime := some t } db.entries,
      en.ExitTime = none → en ∈ db.entries ∧ en.ID ≠ entry.ID := by
    intro en hen ho
    obtain ⟨b0, hb0, hc | hc⟩ := (mem_replaceEntry _ en db.entries).mp hen
    · rw [hc.2] at ho
      simp at ho
    · rw [hc.2]
      exact ⟨hb0, hc.1⟩
  constructor
  · show ((replaceSpot _ db.spots).map (fun s : Spot => s.ID)).Nodup
    rw [replaceSpot_IDs]; exact a
  · intro s hs
    obtain ⟨b0, hb0, hc | hc⟩ := (mem_replaceSpot _ s db.spots).mp hs
    · rw [hc.2]
      have := b b0 hb0
      rw [hc.1] at this
      exact this
    · rw [hc.2]; exact b b0 hb0
  · show ((replaceEntry _ db.entries).map (fun e : Entry => e.ID)).Nodup
    rw [replaceEntry_IDs]; exact c
  · intro en hen
    obtain ⟨b0, hb0, hc | hc⟩ := (mem_replaceEntry _ en db.entries).mp hen
    · rw [hc.2]; exact d entry hmem
    · rw [hc.2]; exact d b0 hb0
  · intro en hen
    obtain ⟨b0, hb0, hc | hc⟩ := (mem_replaceEntry _ en db.entries).mp hen
    · rw [hc.2]
      obtain ⟨s, hs, hid⟩ := e entry hmem
      obtain ⟨s2, hs2, hid2⟩ := keyS s hs
      exact ⟨s2, hs2, hid2.trans hid⟩
    · rw [hc.2]
      obtain ⟨s, hs, hid⟩ := e b0 hb0
      obtain ⟨s2, hs2, hid2⟩ := keyS s hs
      exact ⟨s2, hs2, hid2.trans hid⟩
  · intro en hen ho s hs hid
    obtain ⟨henOld, hne⟩ := openOld en hen ho
    obtain ⟨b0, hb0, hc | hc⟩ := (mem_replaceSpot _ s db.spots).mp hs
    · exfalso
      rw [hc.2] at hid
      have hsame : en.SpotID = entry.SpotID := by
        rw [← hid]; exact hsid
      exact hne (i en henOld entry hmem ho hopen hsame)
    · rw [hc.2] at hid ⊢
      exact f en henOld ho b0 hb0 hid
  · intro s hs hocc
    obtain ⟨b0, hb0, hc | hc⟩ := (mem_replaceSpot _ s db.spots).mp hs
    · rw [hc.2] at hocc
      simp at hocc
    · rw [hc.2] at hocc ⊢
      obtain ⟨en, hen, h1, h2⟩ := g b0 hb0 hocc
      have hne : en.ID ≠ entry.ID := by
        intro hEq
        have : en = entry := hinj hen hmem hEq
        rw [this] at h1
        exact hc.1 (by rw [← h1, hsid])
      exact ⟨en, (mem_replaceEntry _ en db.entries).mpr ⟨en, hen, Or.inr ⟨hne, rfl⟩⟩, h1, h2⟩
  · intro e1 he1 e2 he2 h1 h2 h12
    exact i e1 (openOld e1 he1 h1).1 e2 (openOld e2 he2 h2).1 h1 h2 h12

theorem exists_firstSpot (db : DB) (id : Nat) (h : ∃ s ∈ db.spots, s.ID = id) :
    ∃ s, firstSpot db id = some s := by
  have : (db.spots.find? (fun s => s.ID == id)).isSome := by
    rw [List.find?_isSome]
    obtain ⟨s, hs, hid⟩ := h
    exact ⟨s, hs, by simp [hid]⟩
  exact Option.isSome_iff_exists.mp this

theorem saveSpot_eq (d : DB) (x : Spot) (h : ∃ s ∈ d.spots, s.ID = x.ID) :
    saveSpot d x = { d with spots := replaceSpot x d.spots } := by
  unfold saveSpot
  rw [if_pos]
  obtain ⟨s, hs, hid⟩ := h
  exact List.any_eq_true.mpr ⟨s, hs, by simp [hid]⟩

theorem saveEntry_eq (d : DB) (x : Entry) (h : ∃ e ∈ d.entries, e.ID = x.ID) :
    saveEntry d x = { d with entries := replaceEntry x d.entries } := by
  unfold saveEntry
  rw [if_pos]
  obtain ⟨e, he, hid⟩ := h
  exact List.any_eq_true.mpr ⟨e, he, by simp [hid]⟩

theorem AddSpot_Consistent (db : DB) (h : Consistent db) (parkingID : Nat) (number : String) :
    Consistent (AddSpot db AddSpotFaults.none parkingID number).db := by
  unfold AddSpot
  by_cases hn : number = ""
  · simp [hn, h]
  · cases hp : firstParking db parkingID with
    | none => simp [hn, AddSpotFaults.none, hp, h]
    | some parking =>
      simp only [hn, AddSpotFaults.none, hp, if_false, Bool.false_eq_true]
      exact Consistent_addSpot db h parking.ID number

theorem CreateEntry_Consistent (db : DB) (h : Consistent db) (now : Time)
    (spotID vehicleID : Nat) :
    Consistent (CreateEntry db EntryFaults.none now spotID vehicleID).db := by
  unfold CreateEntry
  by_cases hb : spotID = 0 ∨ vehicleID = 0
  · simp [hb, h]
  · cases hs : firstSpot db spotID with
    | none => simp [hb, EntryFaults.none, hs, h]
    | some spot =>
      by_cases hocc : spot.IsOccupied = true
      · simp [hb, EntryFaults.none, hs, hocc, h]
      · cases hv : firstVehicle db vehicleID with
        | none => simp [hb, EntryFaults.none, hs, hocc, hv, h]
        | some vehicle =>
          have hfree : spot.IsOccupied = false := by simpa using hocc
          have hmem : spot ∈ db.spots := List.mem_of_find?_eq_some hs
          simp only [hb, EntryFaults.none, hs, hocc, hv, if_false, Bool.false_eq_true]
          rw [saveSpot_eq]
          · exact Consistent_of_eq _ _ (Consistent_open db h spot hmem hfree vehicle.ID now)
              rfl rfl rfl rfl
          · exact ⟨spot, hmem, rfl⟩

theorem CreateExit_Consistent (db : DB) (h : Consistent db) (now : ExitClock)
    (entryID : Nat) (paymentMethod : String) :
    Consistent (CreateExit reading db ExitFaults.none now entryID paymentMethod).db := by
  by_cases hb : entryID = 0 ∨ paymentMethod = ""
  · unfold CreateExit
    simp [hb, h]
  · cases he : firstEntry db entryID with
    | none =>
      unfold CreateExit
      simp [hb, ExitFaults.none, he, h]
    | some entry =>
      cases hx : entry.ExitTime with
      | some t =>
        unfold CreateExit
        simp [hb, ExitFaults.none, he, hx, h]
      | none =>
        have hmem : entry ∈ db.entries := List.mem_of_find?_eq_some he
        obtain ⟨spot, hspot⟩ := exists_firstSpot db entry.SpotID (h.entrySpot entry hmem)
        have hsmem : spot ∈ db.spots := List.mem_of_find?_eq_some hspot
        have hb2 : entryID ≠ 0 ∧ paymentMethod ≠ "" := by
          constructor
          · intro h0; exact hb (Or.inl h0)
          · intro h0; exact hb (Or.inr h0)
        rw [CreateExit_success db ExitFaults.none now entryID paymentMethod entry spot hb2.1 hb2.2
          rfl he hx hspot rfl rfl rfl rfl rfl]
        simp only
        rw [saveEntry_eq, saveSpot_eq]
        · exact Consistent_of_eq _ _
            (Consistent_close db h entry hmem hx spot (firstSpot_ID db _ spot hspot) now.exit)
            rfl rfl rfl rfl
        · exact ⟨spot, hsmem, rfl⟩
        · exact ⟨entry, hmem, rfl⟩

theorem step_Consistent (db : DB) (h : Consistent db) (c : Call) : Consistent (step reading db c).db := by
  cases c with
  | addSpot parkingID number => exact AddSpot_Consistent db h parkingID number
  | createEntry now spotID vehicleID => exact CreateEntry_Consistent db h now spotID vehicleID
  | createExit now entryID paymentMethod =>
    exact CreateExit_Consistent db h now entryID paymentMethod

theorem run_Consistent (calls : List Call) : ∀ db : DB, Consistent db → Consistent (run reading db calls) := by
  induction calls with
  | nil => intro db h; exact h
  | cons c t ih =>
    intro db h
    exact ih (step reading db c).db (step_Consistent db h c)

theorem length_le_one_of_same_ID (l : List Entry) (hnd : (l.map (fun e : Entry => e.ID)).Nodup)
    (hsame : ∀ a ∈ l, ∀ b ∈ l, a.ID = b.ID) : l.length ≤ 1 := by
  match l, hnd, hsame with
  | [], _, _ => simp
  | [_], _, _ => simp
  | a :: b :: t, hnd, hsame =>
    exfalso
    have h1 := hsame a (by simp) b (by simp)
    simp only [List.map_cons, List.nodup_cons, List.mem_cons] at hnd
    exact hnd.1 (Or.inl h1)

theorem mem_openEntries (db : DB) (spotID : Nat) (e : Entry) :
    e ∈ openEntries db spotID ↔ e ∈ db.entries ∧ e.SpotID = spotID ∧ e.ExitTime = none := by
  unfold openEntries isOpenAt
  simp [List.mem_filter]

theorem any_isOpenAt (db : DB) (spotID : Nat) :
    db.entries.any (isOpenAt spotID) = true ↔
      ∃ e ∈ db.entries, e.SpotID = spotID ∧ e.ExitTime = none := by
  unfold isOpenAt
  simp [List.any_eq_true]

/-- In a consistent store a spot has at most one open session and is flagged
exactly when it has one. -/
theorem Consistent_spot (db : DB) (h : Consistent db) (s : Spot) (hs : s ∈ db.spots) :
    (openEntries db s.ID).length ≤ 1 ∧
    (s.IsOccupied = true ↔ ∃ e ∈ db.entries, e.SpotID = s.ID ∧ e.ExitTime = none) := by
  constructor
  · apply length_le_one_of_same_ID
    · exact List.Nodup.sublist (List.Sublist.map _ (List.filter_sublist _)) h.entryIDs
    · intro a ha b hb
      rw [mem_openEntries] at ha hb
      exact h.openUnique a ha.1 b hb.1 ha.2.2 hb.2.2 (ha.2.1.trans hb.2.1.symm)
  · constructor
    · exact h.flagOpen s hs
    · rintro ⟨e, he, hid, hopen⟩
      exact h.openFlag e he hopen s hs hid.symm

/-- C6. In every store reached from one without spots and sessions by a
sequence of `AddSpot`, `CreateEntry` and `CreateExit` calls, each served to its
end (accepted or rejected), every spot has at most one open session and its
occupancy flag is true if and only if it has an open session. -/
theorem spot_invariant (db0 : DB) (h0 : Fresh db0) (calls : List Call) :
    ∀ s ∈ (run reading db0 calls).spots,
      (openEntries (run reading db0 calls) s.ID).length ≤ 1 ∧
      (s.IsOccupied = true ↔
        ∃ e ∈ (run reading db0 calls).entries, e.SpotID = s.ID ∧ e.ExitTime = none) := by
  intro s hs
  exact Consistent_spot _ (run_Consistent calls db0 (Consistent_of_Fresh db0 h0)) s hs

/-- C6 on the sample history. -/
theorem spot_invariant_witness :
    Fresh sampleDB ∧
    ∀ s ∈ (run RemainderReading.mathMod sampleDB sampleCalls).spots,
      (openEntries (run RemainderReading.mathMod sampleDB sampleCalls) s.ID).length ≤ 1 ∧
      (s.IsOccupied = true ↔
        ∃ e ∈ (run RemainderReading.mathMod sampleDB sampleCalls).entries, e.SpotID = s.ID ∧ e.ExitTime = none) :=
  ⟨by decide, spot_invariant sampleDB (by decide) sampleCalls⟩

/-! ## The published free-spot count -/

theorem length_filter_not (p : Spot → Bool) (l : List Spot) :
    ((l.filter (fun s => !p s)).length : Int) = (l.length : Int) - ((l.filter p).length : Int) := by
  induction l with
  | nil => simp
  | cons a t ih =>
    by_cases h : p a = true
    · simp [List.filter_cons, h, ih]
    · have h2 : p a = false := by simpa using h
      simp [List.filter_cons, h2, ih]
      omega

/-- In a consistent store the count sent by `notifySpotUpdate` is the number
of spots of the parking minus the number of those with an open session. -/
theorem notifySpotUpdate_Consistent (db : DB) (h : Consistent db) (parkingID : Nat) :
    (notifySpotUpdate db false parkingID).Available
      = ((spotsOf db parkingID).length : Int)
        - ((spotsWithOpenSession db parkingID).length : Int) := by
  have e1 : spotsWithOpenSession db parkingID
      = (spotsOf db parkingID).filter (fun s => s.IsOccupied) := by
    unfold spotsWithOpenSession
    apply List.filter_congr
    intro s hs
    have hs2 : s ∈ db.spots := (List.mem_filter.mp hs).1
    have := (Consistent_spot db h s hs2).2
    rw [Bool.eq_iff_iff, any_isOpenAt]
    exact this.symm
  have e2 : db.spots.filter (fun s => s.ParkingID == parkingID && s.IsOccupied == false)
      = (spotsOf db parkingID).filter (fun s => !s.IsOccupied) := by
    unfold spotsOf
    rw [List.filter_filter]
    apply List.filter_congr
    intro s _
    cases s.IsOccupied <;> simp [Bool.and_comm]
  unfold notifySpotUpdate
  simp only [Bool.false_eq_true, if_false]
  rw [e2, e1, length_filter_not]

/-- Every update a call publishes is the one `notifySpotUpdate` computes on
the store the call leaves. -/
theorem step_events (db : DB) (c : Call) :
    ∀ u ∈ (step reading db c).events, ∃ pid, u = notifySpotUpdate (step reading db c).db false pid := by
  intro u hu
  cases c with
  | addSpot parkingID number =>
    simp only [step, AddSpot, AddSpotFaults.none] at hu ⊢
    split at hu
    · simp at hu
    · split at hu
      · simp at hu
      · rename_i parking hp
        simp only [Bool.false_eq_true, if_false, List.mem_singleton] at hu
        refine ⟨parking.ID, ?_⟩
        rw [hu]
        simp [*]
  | createEntry now spotID vehicleID =>
    simp only [step, CreateEntry, EntryFaults.none] at hu ⊢
    split at hu
    · simp at hu
    · split at hu
      · simp at hu
      · rename_i spot hs
        split at hu
        · simp at hu
        · split at hu
          · simp at hu
          · rename_i vehicle hv
            simp only [Bool.false_eq_true, if_false, List.mem_singleton] at hu
            refine ⟨spot.ParkingID, ?_⟩
            rw [hu]
            simp [*]
  | createExit now entryID paymentMethod =>
    simp only [step] at hu ⊢
    by_cases hb : entryID = 0 ∨ paymentMethod = ""
    · simp [CreateExit, hb] at hu
    · cases he : firstEntry db entryID with
      | none => simp [CreateExit, hb, ExitFaults.none, he] at hu
      | some entry =>
        cases hx : entry.ExitTime with
        | some t => simp [CreateExit, hb, ExitFaults.none, he, hx] at hu
        | none =>
          have hb2 : entryID ≠ 0 ∧ paymentMethod ≠ "" := by
            constructor
            · intro h0; exact hb (Or.inl h0)
            · intro h0; exact hb (Or.inr h0)
          cases hsp : firstSpot db entry.SpotID with
          | none =>
            have hs3 : ∀ d : DB, d.spots = db.spots →
                firstSpot (saveEntry d { entry with ExitTime := some now.exit }) entry.SpotID
                  = none := by
              intro d hd
              rw [firstSpot_congr db _ (by rw [saveEntry_spots, hd]), hsp]
            simp [CreateExit, hb, ExitFaults.none, he, hx, hs3] at hu
          | some spot =>
            rw [CreateExit_success db ExitFaults.none now entryID paymentMethod entry spot hb2.1
              hb2.2 rfl he hx hsp rfl rfl rfl rfl rfl] at hu ⊢
            simp only [List.mem_singleton] at hu
            exact ⟨spot.ParkingID, hu⟩

/-- C7, refuted: on the sample parking of capacity 5 the first added spot is
announced with the count 1, while capacity minus spots with an open session
is 5; and the open of a session on that spot is announced with the count 0,
while capacity minus spots with an open session is 4. -/
theorem notifySpotUpdate_not_capacity_based :
    (step RemainderReading.mathMod sampleDB (Call.addSpot 1 "A1")).events = [⟨1, 1⟩] ∧
    specFreeSpotCount (step RemainderReading.mathMod sampleDB (Call.addSpot 1 "A1")).db 1 = some 5 ∧
    (step RemainderReading.mathMod (run RemainderReading.mathMod sampleDB [Call.addSpot 1 "A1"]) (Call.createEntry 0 1 1)).events = [⟨1, 0⟩] ∧
    specFreeSpotCount (step RemainderReading.mathMod (run RemainderReading.mathMod sampleDB [Call.addSpot 1 "A1"]) (Call.createEntry 0 1 1)).db 1
      = some 4 := by
  decide

/-- C7, amended: in every store reached by a sequence of calls, the count
that `notifySpotUpdate` computes for a parking is the number of spots of that
parking minus the number of those spots that have an open session; and every
update published by a further call carries that count for the store the call
leaves. -/
theorem notifySpotUpdate_counts_spots_without_session (db0 : DB) (h0 : Fresh db0)
    (calls : List Call) (c : Call) :
    (∀ parkingID : Nat,
      (notifySpotUpdate (run reading db0 calls) false parkingID).Available
        = ((spotsOf (run reading db0 calls) parkingID).length : Int)
          - ((spotsWithOpenSession (run reading db0 calls) parkingID).length : Int)) ∧
    (∀ u ∈ (step reading (run reading db0 calls) c).events,
      u.Available
        = ((spotsOf (step reading (run reading db0 calls) c).db u.ParkingID).length : Int)
          - ((spotsWithOpenSession (step reading (run reading db0 calls) c).db u.ParkingID).length : Int)) := by
  have hc := @run_Consistent reading calls db0 (Consistent_of_Fresh db0 h0)
  refine ⟨fun parkingID => notifySpotUpdate_Consistent _ hc parkingID, ?_⟩
  intro u hu
  obtain ⟨pid, rfl⟩ := step_events _ c u hu
  exact notifySpotUpdate_Consistent _ (step_Consistent _ hc c) pid

/-- C7, amended, on the sample history followed by one more exit. -/
theorem notifySpotUpdate_counts_spots_without_session_witness :
    Fresh sampleDB ∧
    (∀ parkingID : Nat,
      (notifySpotUpdate (run RemainderReading.mathMod sampleDB sampleCalls) false parkingID).Available
        = ((spotsOf (run RemainderReading.mathMod sampleDB sampleCalls) parkingID).length : Int)
          - ((spotsWithOpenSession (run RemainderReading.mathMod sampleDB sampleCalls) parkingID).length : Int)) ∧
    (∀ u ∈ (step RemainderReading.mathMod (run RemainderReading.mathMod sampleDB sampleCalls)
        (Call.createExit (ExitClock.at (9000 * Second)) 2 "card")).events,
      u.Available
        = ((spotsOf (step RemainderReading.mathMod (run RemainderReading.mathMod sampleDB sampleCalls)
            (Call.createExit (ExitClock.at (9000 * Second)) 2 "card")).db u.ParkingID).length : Int)
          - ((spotsWithOpenSession (step RemainderReading.mathMod (run RemainderReading.mathMod sampleDB sampleCalls)
            (Call.createExit (ExitClock.at (9000 * Second)) 2 "card")).db
              u.ParkingID).length : Int)) :=
  ⟨by decide, notifySpotUpdate_counts_spots_without_session sampleDB (by decide) sampleCalls
    (Call.createExit (ExitClock.at (9000 * Second)) 2 "card")⟩

/-! ## Interleaved calls of `CreateEntry` -/

theorem replaceSpot_idem (x : Spot) (l : List Spot) :
    replaceSpot x (replaceSpot x l) = replaceSpot x l := by
  unfold replaceSpot
  rw [List.map_map]
  apply List.map_congr_left
  intro b _
  by_cases h : b.ID = x.ID <;> simp [h]

theorem saveSpot_vehicles (db : DB) (x : Spot) : (saveSpot db x).vehicles = db.vehicles := by
  unfold saveSpot; split <;> rfl

theorem saveSpot_nextEntryID (db : DB) (x : Spot) :
    (saveSpot db x).nextEntryID = db.nextEntryID := by
  unfold saveSpot; split <;> rfl

theorem firstVehicle_congr (db db2 : DB) (h : db2.vehicles = db.vehicles) (id : Nat) :
    firstVehicle db2 id = firstVehicle db id := by
  unfold firstVehicle; rw [h]

/-- The spot read from a store whose row of `spot` has been flagged. -/
theorem firstSpot_flagged (db0 d : DB) (spot : Spot) (hspot : firstSpot db0 spot.ID = some spot)
    (hd : d.spots = replaceSpot { spot with IsOccupied := true } db0.spots) :
    firstSpot d spot.ID = some { spot with IsOccupied := true } := by
  unfold firstSpot at *
  rw [hd]
  unfold replaceSpot
  exact find?_map_replace (fun b => b.ID == spot.ID) { spot with IsOccupied := true } (by simp)
    db0.spots spot hspot

/-- Saving the flagged row of `spot` in a store that holds the spots of `db0`,
flagged or not, yields the flagged spots of `db0`. -/
theorem saveSpot_flagged (db0 d : DB) (spot : Spot) (hspot : firstSpot db0 spot.ID = some spot)
    (hd : d.spots = replaceSpot { spot with IsOccupied := true } db0.spots ∨ d.spots = db0.spots) :
    (saveSpot d { spot with IsOccupied := true }).spots
      = replaceSpot { spot with IsOccupied := true } db0.spots := by
  have hmem : spot ∈ db0.spots := List.mem_of_find?_eq_some hspot
  rcases hd with hd | hd
  · rw [saveSpot_eq]
    · show replaceSpot _ d.spots = _
      rw [hd, replaceSpot_idem]
    · refine ⟨{ spot with IsOccupied := true }, ?_, rfl⟩
      rw [hd, mem_replaceSpot]
      exact ⟨spot, hmem, Or.inl ⟨rfl, rfl⟩⟩
  · rw [saveSpot_eq]
    · show replaceSpot _ d.spots = _
      rw [hd]
    · exact ⟨spot, hd ▸ hmem, rfl⟩

theorem openEntries_append_open (db : DB) (e : Entry) (spotID : Nat) (h1 : e.SpotID = spotID)
    (h2 : e.ExitTime = none) (d : DB) (hd : d.entries = db.entries ++ [e]) :
    (openEntries d spotID).length = (openEntries db spotID).length + 1 := by
  unfold openEntries
  rw [hd, List.filter_append]
  simp [isOpenAt, h1, h2]

theorem openEntries_congr (db d : DB) (hd : d.entries = db.entries) (spotID : Nat) :
    openEntries d spotID = openEntries db spotID := by
  unfold openEntries; rw [hd]

@[simp]
theorem hasSaved_start (now : Time) (s v : Nat) :
    (EntryCall.start now s v).hasSaved = false := rfl

@[simp]
theorem hasSaved_haveSpot (now : Time) (v : Nat) (s : Spot) :
    (EntryCall.haveSpot now v s).hasSaved = false := rfl

@[simp]
theorem hasSaved_haveVehicle (now : Time) (s : Spot) (v : Vehicle) :
    (EntryCall.haveVehicle now s v).hasSaved = false := rfl

@[simp]
theorem hasSaved_created (s : Spot) (e : Entry) :
    (EntryCall.created s e).hasSaved = false := rfl

@[simp]
theorem hasSaved_saved (s : Spot) (e : Entry) :
    (EntryCall.saved s e).hasSaved = true := rfl

@[simp]
theorem hasSaved_counted (s : Spot) (e : Entry) (u : SpotUpdate) :
    (EntryCall.counted s e u).hasSaved = true := rfl

@[simp]
theorem hasSaved_done_created (e : Entry) :
    (EntryCall.done ⟨StatusCreated, Body.entry e⟩).hasSaved = true := rfl

@[simp]
theorem hasSaved_done_occupied :
    (EntryCall.done spotOccupiedResponse).hasSaved = false := rfl

@[simp]
theorem entered_start (now : Time) (s v : Nat) :
    (EntryCall.start now s v).entered = false := rfl

@[simp]
theorem entered_haveSpot (now : Time) (v : Nat) (s : Spot) :
    (EntryCall.haveSpot now v s).entered = false := rfl

@[simp]
theorem entered_haveVehicle (now : Time) (s : Spot) (v : Vehicle) :
    (EntryCall.haveVehicle now s v).entered = false := rfl

@[simp]
theorem entered_created (s : Spot) (e : Entry) :
    (EntryCall.created s e).entered = true := rfl

@[simp]
theorem entered_saved (s : Spot) (e : Entry) :
    (EntryCall.saved s e).entered = true := rfl

@[simp]
theorem entered_counted (s : Spot) (e : Entry) (u : SpotUpdate) :
    (EntryCall.counted s e u).entered = true := rfl

@[simp]
theorem entered_done_created (e : Entry) :
    (EntryCall.done ⟨StatusCreated, Body.entry e⟩).entered = true := rfl

@[simp]
theorem entered_done_occupied :
    (EntryCall.done spotOccupiedResponse).entered = false := rfl

theorem done_created_ne_occupied (e : Entry) :
    EntryCall.done ⟨StatusCreated, Body.entry e⟩ ≠ EntryCall.done spotOccupiedResponse := by
  intro h
  simp [spotOccupiedResponse, StatusCreated, StatusBadRequest] at h

theorem TwoCalls.step_true (sh : Shared) (a b : EntryCall) :
    TwoCalls.step ⟨sh, a, b⟩ true = ⟨(a.step sh).1, (a.step sh).2, b⟩ := rfl

theorem TwoCalls.step_false (sh : Shared) (a b : EntryCall) :
    TwoCalls.step ⟨sh, a, b⟩ false = ⟨(b.step sh).1, a, (b.step sh).2⟩ := rfl

/-- A step of the first call keeps the store linked to the progress of the
two calls. -/
theorem Linked_step_first (db0 : DB) (spot : Spot) (hspot : firstSpot db0 spot.ID = some spot)
    (hfree : spot.IsOccupied = false) (p : TwoCalls) (h : Linked db0 spot p) :
    Linked db0 spot (p.step true) := by
  obtain ⟨sh, a, b⟩ := p
  obtain ⟨g1, g2, hv, hs, r1, r2, hn⟩ := h
  simp only at g1 g2 hv hs r1 r2 hn
  rw [TwoCalls.step_true]
  cases a with
  | start now sid vid =>
    obtain ⟨rfl, hsid, hvid, hveh⟩ := g1
    have hb : ¬(spot.ID = 0 ∨ vid = 0) := by
      rintro (h0 | h0)
      · exact hsid h0
      · exact hvid h0
    by_cases hsv : b.hasSaved = true
    · have hs1 : sh.db.spots = replaceSpot { spot with IsOccupied := true } db0.spots := by
        rw [hs]; simp [hsv]
      have hread := firstSpot_flagged db0 sh.db spot hspot hs1
      have hstep : (EntryCall.start now spot.ID vid).step sh
          = (sh, EntryCall.done spotOccupiedResponse) := by
        simp [EntryCall.step, hb, hread, spotOccupiedResponse]
      rw [hstep]
      refine ⟨Or.inr rfl, g2, hv, ?_, fun _ => hsv, ?_, ?_⟩
      · simp only [hs1, hsv, hasSaved_done_occupied, Bool.false_or, if_true]
      · intro hb2
        have := r2 hb2
        simp at this
      · simpa using hn
    · have hsv2 : b.hasSaved = false := by simpa using hsv
      have hs0 : sh.db.spots = db0.spots := by
        rw [hs]; simp [hsv2]
      have hread : firstSpot sh.db spot.ID = some spot := by
        rw [firstSpot_congr db0 sh.db hs0]; exact hspot
      have hstep : (EntryCall.start now spot.ID vid).step sh
          = (sh, EntryCall.haveSpot now vid spot) := by
        simp [EntryCall.step, hb, hread, hfree]
      rw [hstep]
      refine ⟨⟨rfl, hveh⟩, g2, hv, ?_, ?_, ?_, ?_⟩
      · simpa using hs
      · intro hc; cases hc
      · intro hb2
        have := r2 hb2
        simp at this
      · simpa using hn
  | haveSpot now vid s =>
    obtain ⟨rfl, hveh⟩ := g1
    obtain ⟨v, hfv⟩ := Option.isSome_iff_exists.mp hveh
    have hread : firstVehicle sh.db vid = some v := by
      rw [firstVehicle_congr db0 sh.db hv]; exact hfv
    have hstep : (EntryCall.haveSpot now vid s).step sh
        = (sh, EntryCall.haveVehicle now s v) := by
      simp [EntryCall.step, hread]
    rw [hstep]
    refine ⟨rfl, g2, hv, ?_, ?_, ?_, ?_⟩
    · simpa using hs
    · intro hc; cases hc
    · intro hb2
      have := r2 hb2
      simp at this
    · simpa using hn
  | haveVehicle now s v =>
    have g1s : s = spot := g1
    subst g1s
    simp only [EntryCall.step]
    refine ⟨rfl, g2, hv, ?_, ?_, ?_, ?_⟩
    · simpa using hs
    · intro hc; cases hc
    · intro hb2
      have := r2 hb2
      simp at this
    · have := openEntries_append_open sh.db
        ⟨sh.db.nextEntryID, s.ID, v.ID, now, none⟩ s.ID rfl rfl
        { sh.db with entries := sh.db.entries ++ [⟨sh.db.nextEntryID, s.ID, v.ID, now, none⟩],
                     nextEntryID := sh.db.nextEntryID + 1 } rfl
      simp only [entered_created, entered_haveVehicle, if_true] at hn ⊢
      rw [this, hn]
      simp
      omega
  | created s e =>
    have g1s : s = spot := g1
    subst g1s
    simp only [EntryCall.step]
    have hor : sh.db.spots = replaceSpot { s with IsOccupied := true } db0.spots ∨
        sh.db.spots = db0.spots := by
      rw [hs]
      by_cases hsv : b.hasSaved = true
      · left; simp [hsv]
      · right
        have hsv2 : b.hasSaved = false := by simpa using hsv
        simp [hsv2]
    refine ⟨rfl, g2, ?_, ?_, ?_, ?_, ?_⟩
    · show (saveSpot sh.db _).vehicles = _
      rw [saveSpot_vehicles]; exact hv
    · show (saveSpot sh.db _).spots = _
      rw [saveSpot_flagged db0 sh.db s hspot hor]
      simp
    · intro hc; cases hc
    · intro _; rfl
    · show (openEntries (saveSpot sh.db _) s.ID).length = _
      rw [openEntries_congr sh.db _ (saveSpot_entries _ _)]
      simpa using hn
  | saved s e =>
    have g1s : s = spot := g1
    subst g1s
    simp only [EntryCall.step]
    refine ⟨rfl, g2, hv, ?_, ?_, ?_, ?_⟩
    · simpa using hs
    · intro hc; cases hc
    · intro _; rfl
    · simpa using hn
  | counted s e u =>
    have g1s : s = spot := g1
    subst g1s
    simp only [EntryCall.step]
    refine ⟨Or.inl rfl, g2, hv, ?_, ?_, ?_, ?_⟩
    · simpa using hs
    · intro hc
      exact absurd hc (done_created_ne_occupied e)
    · intro _; rfl
    · simpa using hn
  | done r =>
    simp only [EntryCall.step]
    exact ⟨g1, g2, hv, hs, r1, r2, hn⟩

theorem Linked_swap (db0 : DB) (spot : Spot) (p : TwoCalls) (h : Linked db0 spot p) :
    Linked db0 spot p.swap := by
  obtain ⟨g1, g2, hv, hs, r1, r2, hn⟩ := h
  refine ⟨g2, g1, hv, ?_, r2, r1, ?_⟩
  · show p.shared.db.spots = _
    rw [hs]
    simp only [TwoCalls.swap, Bool.or_comm]
  · show (openEntries p.shared.db spot.ID).length = _
    rw [hn]
    simp only [TwoCalls.swap]
    omega

theorem TwoCalls.step_false_swap (p : TwoCalls) : p.step false = (p.swap.step true).swap := rfl

/-- Every step of either call keeps the store linked to the progress of the
two calls. -/
theorem Linked_step (db0 : DB) (spot : Spot) (hspot : firstSpot db0 spot.ID = some spot)
    (hfree : spot.IsOccupied = false) (p : TwoCalls) (h : Linked db0 spot p) (turn : Bool) :
    Linked db0 spot (p.step turn) := by
  cases turn with
  | true => exact Linked_step_first db0 spot hspot hfree p h
  | false =>
    rw [TwoCalls.step_false_swap]
    exact Linked_swap db0 spot _
      (Linked_step_first db0 spot hspot hfree p.swap (Linked_swap db0 spot p h))

theorem Linked_interleave (db0 : DB) (spot : Spot) (hspot : firstSpot db0 spot.ID = some spot)
    (hfree : spot.IsOccupied = false) (schedule : List Bool) :
    ∀ p : TwoCalls, Linked db0 spot p → Linked db0 spot (p.interleave schedule) := by
  induction schedule with
  | nil => intro p h; exact h
  | cons t rest ih =>
    intro p h
    exact ih (p.step t) (Linked_step db0 spot hspot hfree p h t)

/-- Two calls for the free spot `spot` that have not taken a step are linked
to the store they start on. -/
theorem Linked_start (db : DB) (spot : Spot) (now1 now2 : Time) (v1 v2 : Nat)
    (hsid : spot.ID ≠ 0) (hv1 : v1 ≠ 0) (hv2 : v2 ≠ 0)
    (h1 : (firstVehicle db v1).isSome = true) (h2 : (firstVehicle db v2).isSome = true) :
    Linked db spot ⟨⟨db, []⟩, EntryCall.start now1 spot.ID v1, EntryCall.start now2 spot.ID v2⟩ := by
  refine ⟨⟨rfl, hsid, hv1, h1⟩, ⟨rfl, hsid, hv2, h2⟩, rfl, ?_, ?_, ?_, ?_⟩
  · simp
  · intro hc; cases hc
  · intro hc; cases hc
  · simp

theorem remaining_step (sh : Shared) (c : EntryCall) :
    (c.step sh).2.remaining ≤ c.remaining - 1 := by
  cases c with
  | start now sid vid =>
    simp only [EntryCall.step]
    split
    · simp [EntryCall.remaining]
    · split
      · simp [EntryCall.remaining]
      · split <;> simp [EntryCall.remaining]
  | haveSpot now vid s =>
    simp only [EntryCall.step]
    split <;> simp [EntryCall.remaining]
  | haveVehicle now s v => simp [EntryCall.step, EntryCall.remaining]
  | created s e => simp [EntryCall.step, EntryCall.remaining]
  | saved s e => simp [EntryCall.step, EntryCall.remaining]
  | counted s e u => simp [EntryCall.step, EntryCall.remaining]
  | done r => simp [EntryCall.step, EntryCall.remaining]

theorem remaining_zero (c : EntryCall) (h : c.remaining = 0) : ∃ r, c = EntryCall.done r := by
  cases c <;> simp [EntryCall.remaining] at h
  exact ⟨_, rfl⟩

theorem interleave_first_steps (n : Nat) :
    ∀ p : TwoCalls, (p.interleave (List.replicate n true)).first.remaining ≤ p.first.remaining - n ∧
      (p.interleave (List.replicate n true)).second = p.second := by
  induction n with
  | zero => intro p; exact ⟨by simp [TwoCalls.interleave], rfl⟩
  | succ k ih =>
    intro p
    have h := ih (p.step true)
    have hs : (p.step true).first.remaining ≤ p.first.remaining - 1 :=
      remaining_step p.shared p.first
    have hb : (p.step true).second = p.second := rfl
    simp only [List.replicate_succ, TwoCalls.interleave, List.foldl_cons] at h ⊢
    refine ⟨?_, h.2.trans hb⟩
    omega

theorem interleave_second_steps (n : Nat) :
    ∀ p : TwoCalls,
      (p.interleave (List.replicate n false)).second.remaining ≤ p.second.remaining - n ∧
      (p.interleave (List.replicate n false)).first = p.first := by
  induction n with
  | zero => intro p; exact ⟨by simp [TwoCalls.interleave], rfl⟩
  | succ k ih =>
    intro p
    have h := ih (p.step false)
    have hs : (p.step false).second.remaining ≤ p.second.remaining - 1 :=
      remaining_step p.shared p.second
    have hb : (p.step false).first = p.first := rfl
    simp only [List.replicate_succ, TwoCalls.interleave, List.foldl_cons] at h ⊢
    refine ⟨?_, h.2.trans hb⟩
    omega

theorem remaining_le_six (c : EntryCall) : c.remaining ≤ 6 := by
  cases c <;> simp [EntryCall.remaining]

theorem interleave_append (p : TwoCalls) (s1 s2 : List Bool) :
    p.interleave (s1 ++ s2) = (p.interleave s1).interleave s2 := by
  simp [TwoCalls.interleave, List.foldl_append]

/-- Both calls have answered once each has been given six steps of its own. -/
theorem runConcurrently_done (db : DB) (first second : EntryCall) (schedule : List Bool) :
    ∃ r1 r2, (runConcurrently db first second schedule).first = EntryCall.done r1 ∧
      (runConcurrently db first second schedule).second = EntryCall.done r2 := by
  unfold runConcurrently entrySteps
  rw [interleave_append, interleave_append]
  generalize TwoCalls.interleave ⟨⟨db, []⟩, first, second⟩ schedule = p
  have h1 := interleave_first_steps 6 p
  have h2 := interleave_second_steps 6 (p.interleave (List.replicate 6 true))
  have hr1 : (p.interleave (List.replicate 6 true)).first.remaining = 0 := by
    have := remaining_le_six p.first
    omega
  have hr2 : ((p.interleave (List.replicate 6 true)).interleave
      (List.replicate 6 false)).second.remaining = 0 := by
    have := remaining_le_six (p.interleave (List.replicate 6 true)).second
    omega
  obtain ⟨r1, e1⟩ := remaining_zero _ hr1
  obtain ⟨r2, e2⟩ := remaining_zero _ hr2
  exact ⟨r1, r2, h2.2.trans e1, e2⟩

/-- A call served alone, from its first step to its answer, leaves the store,
the updates and the response of the handler `CreateEntry`. -/
theorem interleave_first_alone (db : DB) (now : Time) (spotID vehicleID : Nat)
    (second : EntryCall) :
    TwoCalls.interleave ⟨⟨db, []⟩, EntryCall.start now spotID vehicleID, second⟩
        (List.replicate entrySteps true)
      = ⟨⟨(CreateEntry db EntryFaults.none now spotID vehicleID).db,
          (CreateEntry db EntryFaults.none now spotID vehicleID).events⟩,
         EntryCall.done (CreateEntry db EntryFaults.none now spotID vehicleID).resp, second⟩ := by
  unfold CreateEntry
  by_cases hb : spotID = 0 ∨ vehicleID = 0
  · simp [TwoCalls.interleave, TwoCalls.step, EntryCall.step, entrySteps, List.replicate, hb]
  · cases hs : firstSpot db spotID with
    | none =>
      simp [TwoCalls.interleave, TwoCalls.step, EntryCall.step, entrySteps, List.replicate, hb,
        EntryFaults.none, hs]
    | some spot =>
      by_cases hocc : spot.IsOccupied = true
      · simp [TwoCalls.interleave, TwoCalls.step, EntryCall.step, entrySteps, List.replicate, hb,
          EntryFaults.none, hs, hocc]
      · cases hv : firstVehicle db vehicleID with
        | none =>
          simp [TwoCalls.interleave, TwoCalls.step, EntryCall.step, entrySteps, List.replicate,
            hb, EntryFaults.none, hs, hocc, hv]
        | some vehicle =>
          simp [TwoCalls.interleave, TwoCalls.step, EntryCall.step, entrySteps, List.replicate,
            hb, EntryFaults.none, hs, hocc, hv]

/-- A call that reads the spot after its row has been flagged is turned
down. -/
theorem start_step_flagged (db0 : DB) (sh : Shared) (spot : Spot) (now : Time) (vid : Nat)
    (hspot : firstSpot db0 spot.ID = some spot) (hsid : spot.ID ≠ 0) (hvid : vid ≠ 0)
    (hs1 : sh.db.spots = replaceSpot { spot with IsOccupied := true } db0.spots) :
    (EntryCall.start now spot.ID vid).step sh = (sh, EntryCall.done spotOccupiedResponse) := by
  have hread := firstSpot_flagged db0 sh.db spot hspot hs1
  simp [EntryCall.step, hsid, hvid, hread, spotOccupiedResponse]

/-- Once the first call has answered with success, the second call, if it
has not read the spot yet, is turned down whatever the schedule. -/
theorem interleave_after_first (db0 : DB) (spot : Spot) (now2 : Time) (v2 : Nat)
    (hspot : firstSpot db0 spot.ID = some spot) (hfree : spot.IsOccupied = false)
    (hsid : spot.ID ≠ 0) (hv2 : v2 ≠ 0) (r1 : Response) (hr1 : r1.status = StatusCreated)
    (schedule : List Bool) :
    ∀ p : TwoCalls, Linked db0 spot p → p.first = EntryCall.done r1 →
      (p.second = EntryCall.start now2 spot.ID v2 ∨ p.second = EntryCall.done spotOccupiedResponse) →
      (p.interleave schedule).first = EntryCall.done r1 ∧
      ((p.interleave schedule).second = EntryCall.start now2 spot.ID v2 ∨
        (p.interleave schedule).second = EntryCall.done spotOccupiedResponse) := by
  induction schedule with
  | nil => intro p _ hf hsnd; exact ⟨hf, hsnd⟩
  | cons t rest ih =>
    intro p hl hf hsnd
    have hl2 := Linked_step db0 spot hspot hfree p hl t
    refine ih (p.step t) hl2 ?_ ?_
    · cases t with
      | true =>
        obtain ⟨sh, a, b⟩ := p
        simp only at hf
        subst hf
        rfl
      | false => exact hf
    · cases t with
      | true => exact hsnd
      | false =>
        obtain ⟨sh, a, b⟩ := p
        simp only at hf hsnd
        rcases hsnd with hb | hb
        · right
          subst hb
          have hs1 : sh.db.spots = replaceSpot { spot with IsOccupied := true } db0.spots := by
            have := hl.spots
            simp only at this
            rw [this, hf]
            simp [EntryCall.hasSaved, hr1]
          rw [TwoCalls.step_false, start_step_flagged db0 sh spot now2 v2 hspot hsid hv2 hs1]
        · right
          subst hb
          rfl

theorem interleave_swap (schedule : List Bool) :
    ∀ p : TwoCalls,
      (p.interleave schedule).swap = p.swap.interleave (schedule.map (fun t => !t)) := by
  induction schedule with
  | nil => intro p; rfl
  | cons t rest ih =>
    intro p
    have h := ih (p.step t)
    have hstep : (p.step t).swap = p.swap.step (!t) := by
      cases t <;> rfl
    rw [hstep] at h
    simpa [TwoCalls.interleave] using h

/-- When the first call is given all its steps before the second call takes
one, the first call succeeds and the second call, once it has read the spot,
is turned down. -/
theorem first_served_wins (db : DB) (spot : Spot) (now1 now2 : Time) (v1 v2 : Nat)
    (rest : List Bool)
    (hspot : firstSpot db spot.ID = some spot) (hfree : spot.IsOccupied = false)
    (hsid : spot.ID ≠ 0) (hv1 : v1 ≠ 0) (hv2 : v2 ≠ 0)
    (h1 : (firstVehicle db v1).isSome = true) (h2 : (firstVehicle db v2).isSome = true) :
    ∃ r1, r1.status = StatusCreated ∧
      (TwoCalls.interleave ⟨⟨db, []⟩, EntryCall.start now1 spot.ID v1,
          EntryCall.start now2 spot.ID v2⟩ (List.replicate entrySteps true ++ rest)).first
        = EntryCall.done r1 ∧
      ((TwoCalls.interleave ⟨⟨db, []⟩, EntryCall.start now1 spot.ID v1,
          EntryCall.start now2 spot.ID v2⟩ (List.replicate entrySteps true ++ rest)).second
        = EntryCall.start now2 spot.ID v2 ∨
       (TwoCalls.interleave ⟨⟨db, []⟩, EntryCall.start now1 spot.ID v1,
          EntryCall.start now2 spot.ID v2⟩ (List.replicate entrySteps true ++ rest)).second
        = EntryCall.done spotOccupiedResponse) := by
  have hl0 := Linked_start db spot now1 now2 v1 v2 hsid hv1 hv2 h1 h2
  have hl := Linked_interleave db spot hspot hfree (List.replicate entrySteps true) _ hl0
  have hsteps := interleave_first_steps entrySteps
    ⟨⟨db, []⟩, EntryCall.start now1 spot.ID v1, EntryCall.start now2 spot.ID v2⟩
  have hrem0 : (TwoCalls.interleave ⟨⟨db, []⟩, EntryCall.start now1 spot.ID v1,
      EntryCall.start now2 spot.ID v2⟩ (List.replicate entrySteps true)).first.remaining = 0 := by
    have := hsteps.1
    simp only [EntryCall.remaining, entrySteps] at this ⊢
    omega
  have hsnd := hsteps.2
  simp only at hsnd
  rw [interleave_append]
  generalize TwoCalls.interleave ⟨⟨db, []⟩, EntryCall.start now1 spot.ID v1,
    EntryCall.start now2 spot.ID v2⟩ (List.replicate entrySteps true) = q at hl hrem0 hsnd
  obtain ⟨r1, hq1⟩ := remaining_zero _ hrem0
  have hgood := hl.goodFirst
  rw [hq1] at hgood
  have hr1 : r1.status = StatusCreated := by
    rcases hgood with hc | hc
    · exact hc
    · exfalso
      have := hl.rejectedFirst (by rw [hq1, hc])
      rw [hsnd] at this
      simp at this
  obtain ⟨e1, e2⟩ := interleave_after_first db spot now2 v2 hspot hfree hsid hv2 r1 hr1 rest q hl
    hq1 (Or.inl hsnd)
  exact ⟨r1, hr1, e1, e2⟩

/-- C11, refuted: two calls of `CreateEntry` for the free spot 1 whose steps
alternate both read the spot before either saves it; both answer 201 and the
spot has two open sessions. -/
theorem concurrent_CreateEntry_both_succeed :
    firstSpot freeSpotDB 1 = some ⟨1, 1, "A1", false⟩ ∧
    (runConcurrently freeSpotDB (EntryCall.start 10 1 1) (EntryCall.start 11 1 2)
        alternating).first
      = EntryCall.done ⟨StatusCreated, Body.entry ⟨1, 1, 1, 10, none⟩⟩ ∧
    (runConcurrently freeSpotDB (EntryCall.start 10 1 1) (EntryCall.start 11 1 2)
        alternating).second
      = EntryCall.done ⟨StatusCreated, Body.entry ⟨2, 1, 2, 11, none⟩⟩ ∧
    openEntries (runConcurrently freeSpotDB (EntryCall.start 10 1 1) (EntryCall.start 11 1 2)
        alternating).shared.db 1
      = [⟨1, 1, 1, 10, none⟩, ⟨2, 1, 2, 11, none⟩] := by
  decide

/-- Two calls on a free spot under any schedule: both answer, each with
success or the occupied-spot error, at least one succeeds, and the spot ends
flagged with one new open session for each success.  A call given all its six
steps before the other takes one succeeds, and the other is turned down. -/
theorem concurrent_CreateEntry_basic (db : DB) (spot : Spot) (now1 now2 : Time)
    (v1 v2 : Nat) (schedule : List Bool)
    (hspot : firstSpot db spot.ID = some spot) (hfree : spot.IsOccupied = false)
    (hsid : spot.ID ≠ 0) (hv1 : v1 ≠ 0) (hv2 : v2 ≠ 0)
    (h1 : (firstVehicle db v1).isSome = true) (h2 : (firstVehicle db v2).isSome = true) :
    (∃ r1 r2,
      (runConcurrently db (EntryCall.start now1 spot.ID v1) (EntryCall.start now2 spot.ID v2)
        schedule).first = EntryCall.done r1 ∧
      (runConcurrently db (EntryCall.start now1 spot.ID v1) (EntryCall.start now2 spot.ID v2)
        schedule).second = EntryCall.done r2 ∧
      (r1.status = StatusCreated ∨ r1 = spotOccupiedResponse) ∧
      (r2.status = StatusCreated ∨ r2 = spotOccupiedResponse) ∧
      1 ≤ successCount r1 r2 ∧
      (openEntries (runConcurrently db (EntryCall.start now1 spot.ID v1)
        (EntryCall.start now2 spot.ID v2) schedule).shared.db spot.ID).length
        = (openEntries db spot.ID).length + successCount r1 r2 ∧
      firstSpot (runConcurrently db (EntryCall.start now1 spot.ID v1)
        (EntryCall.start now2 spot.ID v2) schedule).shared.db spot.ID
        = some { spot with IsOccupied := true }) ∧
    (∃ r1, r1.status = StatusCreated ∧
      (runConcurrently db (EntryCall.start now1 spot.ID v1) (EntryCall.start now2 spot.ID v2)
        (List.replicate entrySteps true ++ schedule)).first = EntryCall.done r1 ∧
      (runConcurrently db (EntryCall.start now1 spot.ID v1) (EntryCall.start now2 spot.ID v2)
        (List.replicate entrySteps true ++ schedule)).second
        = EntryCall.done spotOccupiedResponse) ∧
    (∃ r2, r2.status = StatusCreated ∧
      (runConcurrently db (EntryCall.start now1 spot.ID v1) (EntryCall.start now2 spot.ID v2)
        (List.replicate entrySteps false ++ schedule)).second = EntryCall.done r2 ∧
      (runConcurrently db (EntryCall.start now1 spot.ID v1) (EntryCall.start now2 spot.ID v2)
        (List.replicate entrySteps false ++ schedule)).first
        = EntryCall.done spotOccupiedResponse) := by
  refine ⟨?_, ?_, ?_⟩
  · obtain ⟨r1, r2, e1, e2⟩ := runConcurrently_done db (EntryCall.start now1 spot.ID v1)
      (EntryCall.start now2 spot.ID v2) schedule
    have hl : Linked db spot (runConcurrently db (EntryCall.start now1 spot.ID v1)
        (EntryCall.start now2 spot.ID v2) schedule) :=
      Linked_interleave db spot hspot hfree _ _
        (Linked_start db spot now1 now2 v1 v2 hsid hv1 hv2 h1 h2)
    obtain ⟨g1, g2, -, hs, q1, q2, hn⟩ := hl
    rw [e1] at g1 hs q1 q2 hn
    rw [e2] at g2 hs q1 q2 hn
    have hg1 : r1.status = StatusCreated ∨ r1 = spotOccupiedResponse := g1
    have hg2 : r2.status = StatusCreated ∨ r2 = spotOccupiedResponse := g2
    have hone : r1.status = StatusCreated ∨ r2.status = StatusCreated := by
      rcases hg1 with hc | hc
      · exact Or.inl hc
      · right
        have := q1 (by rw [hc])
        simpa [EntryCall.hasSaved] using this
    refine ⟨r1, r2, e1, e2, hg1, hg2, ?_, ?_, ?_⟩
    · unfold successCount
      rcases hone with hc | hc
      · rw [if_pos hc]; omega
      · rw [if_pos hc]; omega
    · rw [hn]
      simp only [EntryCall.entered, decide_eq_true_eq, successCount]
      omega
    · apply firstSpot_flagged db _ spot hspot
      rw [hs]
      rcases hone with hc | hc <;> simp [EntryCall.hasSaved, hc]
  · obtain ⟨r1, r2, e1, e2⟩ := runConcurrently_done db (EntryCall.start now1 spot.ID v1)
      (EntryCall.start now2 spot.ID v2) (List.replicate entrySteps true ++ schedule)
    obtain ⟨w, hw, f1, f2⟩ := first_served_wins db spot now1 now2 v1 v2
      (schedule ++ List.replicate entrySteps true ++ List.replicate entrySteps false)
      hspot hfree hsid hv1 hv2 h1 h2
    have hrun : runConcurrently db (EntryCall.start now1 spot.ID v1)
        (EntryCall.start now2 spot.ID v2) (List.replicate entrySteps true ++ schedule)
        = TwoCalls.interleave ⟨⟨db, []⟩, EntryCall.start now1 spot.ID v1,
            EntryCall.start now2 spot.ID v2⟩ (List.replicate entrySteps true ++
              (schedule ++ List.replicate entrySteps true ++ List.replicate entrySteps false)) := by
      unfold runConcurrently
      simp only [List.append_assoc]
    rw [← hrun] at f1 f2
    refine ⟨w, hw, f1, ?_⟩
    rcases f2 with f2 | f2
    · rw [f2] at e2; cases e2
    · exact f2
  · obtain ⟨r1, r2, e1, e2⟩ := runConcurrently_done db (EntryCall.start now1 spot.ID v1)
      (EntryCall.start now2 spot.ID v2) (List.replicate entrySteps false ++ schedule)
    obtain ⟨w, hw, f1, f2⟩ := first_served_wins db spot now2 now1 v2 v1
      (schedule.map (fun t => !t) ++ List.replicate entrySteps false
        ++ List.replicate entrySteps true)
      hspot hfree hsid hv2 hv1 h2 h1
    have hrun : (runConcurrently db (EntryCall.start now1 spot.ID v1)
        (EntryCall.start now2 spot.ID v2) (List.replicate entrySteps false ++ schedule)).swap
        = TwoCalls.interleave ⟨⟨db, []⟩, EntryCall.start now2 spot.ID v2,
            EntryCall.start now1 spot.ID v1⟩ (List.replicate entrySteps true ++
              (schedule.map (fun t => !t) ++ List.replicate entrySteps false
                ++ List.replicate entrySteps true)) := by
      unfold runConcurrently
      rw [interleave_swap]
      simp only [List.map_append, List.map_replicate, List.append_assoc, Bool.not_true,
        Bool.not_false]
      rfl
    rw [← hrun] at f1 f2
    refine ⟨w, hw, f1, ?_⟩
    rcases f2 with f2 | f2
    · have f2b : (runConcurrently db (EntryCall.start now1 spot.ID v1)
          (EntryCall.start now2 spot.ID v2) (List.replicate entrySteps false ++ schedule)).first
          = EntryCall.start now1 spot.ID v1 := f2
      rw [f2b] at e1; cases e1
    · exact f2

/-! ### Which call is turned down -/

theorem hasSaved_of_remaining (c : EntryCall) (h : 3 ≤ c.remaining) : c.hasSaved = false := by
  cases c <;> simp [EntryCall.remaining] at h <;> rfl

theorem passed_of_remaining (c : EntryCall) (h1 : 3 ≤ c.remaining) (h2 : c.remaining ≤ 5) :
    c.passed := by
  cases c <;> simp [EntryCall.remaining] at h1 h2 <;> exact trivial

theorem hasSaved_of_remaining_le (db0 : DB) (spot : Spot) (c : EntryCall)
    (hg : c.Good db0 spot) (h : c.remaining ≤ 2) :
    c.hasSaved = true ∨ c = EntryCall.done spotOccupiedResponse := by
  cases c with
  | saved s e => left; rfl
  | counted s e u => left; rfl
  | done r =>
    rcases hg with hc | hc
    · left; simp [EntryCall.hasSaved, hc]
    · right; rw [hc]
  | start now sid vid => simp [EntryCall.remaining] at h
  | haveSpot now vid s => simp [EntryCall.remaining] at h
  | haveVehicle now s v => simp [EntryCall.remaining] at h
  | created s e => simp [EntryCall.remaining] at h

/-- A step of a call that has saved the spot leaves it so. -/
theorem hasSaved_step (sh : Shared) (c : EntryCall) (h : c.hasSaved = true) :
    (c.step sh).2.hasSaved = true := by
  cases c with
  | saved s e => rfl
  | counted s e u => rfl
  | done r => exact h
  | start now sid vid => simp at h
  | haveSpot now vid s => simp at h
  | haveVehicle now s v => simp at h
  | created s e => simp at h

/-- A call that found the spot free goes on to succeed: none of its later
steps turns it down. -/
theorem passed_step (db0 : DB) (spot : Spot) (sh : Shared) (c : EntryCall)
    (hg : c.Good db0 spot) (hv : sh.db.vehicles = db0.vehicles) (hp : c.passed) :
    (c.step sh).2.passed := by
  cases c with
  | start now sid vid => exact absurd hp (by simp [EntryCall.passed])
  | haveSpot now vid s =>
    obtain ⟨-, hveh⟩ := hg
    obtain ⟨v, hfv⟩ := Option.isSome_iff_exists.mp hveh
    have hread : firstVehicle sh.db vid = some v := by
      rw [firstVehicle_congr db0 sh.db hv]; exact hfv
    simp [EntryCall.step, hread, EntryCall.passed]
  | haveVehicle now s v => simp [EntryCall.step, EntryCall.passed]
  | created s e => simp [EntryCall.step, EntryCall.passed]
  | saved s e => simp [EntryCall.step, EntryCall.passed]
  | counted s e u => simp [EntryCall.step, EntryCall.passed]
  | done r => exact hp

/-- While the other call has not saved the spot, a call that has not created
its entry yet takes its next step without being turned down. -/
theorem early_step_first (db0 : DB) (spot : Spot) (hspot : firstSpot db0 spot.ID = some spot)
    (hfree : spot.IsOccupied = false) (p : TwoCalls) (hl : Linked db0 spot p)
    (h1 : 4 ≤ p.first.remaining) (h2 : 3 ≤ p.second.remaining) :
    (p.step true).first.remaining = p.first.remaining - 1 := by
  obtain ⟨sh, a, b⟩ := p
  obtain ⟨g1, -, hv, hs, -, -, -⟩ := hl
  simp only at g1 hv hs h1 h2
  rw [TwoCalls.step_true]
  have hbs := hasSaved_of_remaining b h2
  cases a with
  | start now sid vid =>
    obtain ⟨rfl, hsid, hvid, hveh⟩ := g1
    have hb : ¬(spot.ID = 0 ∨ vid = 0) := by
      rintro (h0 | h0)
      · exact hsid h0
      · exact hvid h0
    have hs0 : sh.db.spots = db0.spots := by
      rw [hs]; simp [hbs]
    have hread : firstSpot sh.db spot.ID = some spot := by
      rw [firstSpot_congr db0 sh.db hs0]; exact hspot
    have hstep : (EntryCall.start now spot.ID vid).step sh
        = (sh, EntryCall.haveSpot now vid spot) := by
      simp [EntryCall.step, hb, hread, hfree]
    rw [hstep]
    rfl
  | haveSpot now vid s =>
    obtain ⟨-, hveh⟩ := g1
    obtain ⟨v, hfv⟩ := Option.isSome_iff_exists.mp hveh
    have hread : firstVehicle sh.db vid = some v := by
      rw [firstVehicle_congr db0 sh.db hv]; exact hfv
    have hstep : (EntryCall.haveSpot now vid s).step sh
        = (sh, EntryCall.haveVehicle now s v) := by
      simp [EntryCall.step, hread]
    rw [hstep]
    rfl
  | haveVehicle now s v => rfl
  | created s e => simp [EntryCall.remaining] at h1
  | saved s e => simp [EntryCall.remaining] at h1
  | counted s e u => simp [EntryCall.remaining] at h1
  | done r => simp [EntryCall.remaining] at h1

/-- As long as each call has taken at most three steps, neither has saved the
spot and neither has been turned down: each has taken exactly the steps it was
given. -/
theorem early_interleave (db0 : DB) (spot : Spot) (hspot : firstSpot db0 spot.ID = some spot)
    (hfree : spot.IsOccupied = false) (l : List Bool) :
    ∀ (p : TwoCalls) (n1 n2 : Nat), Linked db0 spot p →
      p.first.remaining = 6 - n1 → p.second.remaining = 6 - n2 →
      n1 + l.count true ≤ 3 → n2 + l.count false ≤ 3 →
      Linked db0 spot (p.interleave l) ∧
      (p.interleave l).first.remaining = 6 - (n1 + l.count true) ∧
      (p.interleave l).second.remaining = 6 - (n2 + l.count false) := by
  induction l with
  | nil =>
    intro p n1 n2 hl h1 h2 _ _
    exact ⟨hl, by simpa using h1, by simpa using h2⟩
  | cons t rest ih =>
    intro p n1 n2 hl h1 h2 hc1 hc2
    have hl2 := Linked_step db0 spot hspot hfree p hl t
    cases t with
    | true =>
      simp only [List.count_cons_self, List.count_cons_of_ne (by decide : true ≠ false)]
        at hc1 hc2 ⊢
      have hstep := early_step_first db0 spot hspot hfree p hl (by omega) (by omega)
      have hsnd : (p.step true).second = p.second := rfl
      have := ih (p.step true) (n1 + 1) n2 hl2 (by rw [hstep, h1]; omega) (by rw [hsnd]; exact h2)
        (by omega) hc2
      have hi : p.interleave (true :: rest) = (p.step true).interleave rest := rfl
      rw [hi]
      refine ⟨this.1, ?_, this.2.2⟩
      rw [this.2.1]
      omega
    | false =>
      simp only [List.count_cons_self, List.count_cons_of_ne (by decide : false ≠ true)]
        at hc1 hc2 ⊢
      have hstep : (p.step false).second.remaining = p.second.remaining - 1 :=
        early_step_first db0 spot hspot hfree p.swap (Linked_swap db0 spot p hl)
          (by show 4 ≤ p.second.remaining; omega) (by show 3 ≤ p.first.remaining; omega)
      have hfst : (p.step false).first = p.first := rfl
      have := ih (p.step false) n1 (n2 + 1) hl2 (by rw [hfst]; exact h1)
        (by rw [hstep, h2]; omega) hc1 (by omega)
      have hi : p.interleave (false :: rest) = (p.step false).interleave rest := rfl
      rw [hi]
      refine ⟨this.1, this.2.1, ?_⟩
      rw [this.2.2]
      omega

/-- Once both calls have found the spot free, both stay on the way to
success whatever the schedule. -/
theorem passed_interleave (db0 : DB) (spot : Spot) (hspot : firstSpot db0 spot.ID = some spot)
    (hfree : spot.IsOccupied = false) (l : List Bool) :
    ∀ p : TwoCalls, Linked db0 spot p → p.first.passed → p.second.passed →
      (p.interleave l).first.passed ∧ (p.interleave l).second.passed := by
  induction l with
  | nil => intro p _ h1 h2; exact ⟨h1, h2⟩
  | cons t rest ih =>
    intro p hl h1 h2
    have hl2 := Linked_step db0 spot hspot hfree p hl t
    cases t with
    | true =>
      exact ih (p.step true) hl2
        (passed_step db0 spot p.shared p.first hl.goodFirst hl.vehicles h1) h2
    | false =>
      exact ih (p.step false) hl2 h1
        (passed_step db0 spot p.shared p.second hl.goodSecond hl.vehicles h2)

/-- Once the first call has saved the spot, the second call, if it has not
read the spot yet, is turned down whatever the schedule. -/
theorem saved_interleave (db0 : DB) (spot : Spot) (now2 : Time) (v2 : Nat)
    (hspot : firstSpot db0 spot.ID = some spot) (hfree : spot.IsOccupied = false)
    (hsid : spot.ID ≠ 0) (hv2 : v2 ≠ 0) (l : List Bool) :
    ∀ p : TwoCalls, Linked db0 spot p → p.first.hasSaved = true →
      (p.second = EntryCall.start now2 spot.ID v2 ∨ p.second = EntryCall.done spotOccupiedResponse) →
      (p.interleave l).first.hasSaved = true ∧
      ((p.interleave l).second = EntryCall.start now2 spot.ID v2 ∨
        (p.interleave l).second = EntryCall.done spotOccupiedResponse) := by
  induction l with
  | nil => intro p _ hf hsnd; exact ⟨hf, hsnd⟩
  | cons t rest ih =>
    intro p hl hf hsnd
    have hl2 := Linked_step db0 spot hspot hfree p hl t
    refine ih (p.step t) hl2 ?_ ?_
    · cases t with
      | true => exact hasSaved_step p.shared p.first hf
      | false => exact hf
    · cases t with
      | true => exact hsnd
      | false =>
        obtain ⟨sh, a, b⟩ := p
        simp only at hf hsnd
        rcases hsnd with hb | hb
        · right
          subst hb
          have hs1 : sh.db.spots = replaceSpot { spot with IsOccupied := true } db0.spots := by
            have := hl.spots
            simp only at this
            rw [this]
            simp [hf]
          rw [TwoCalls.step_false, start_step_flagged db0 sh spot now2 v2 hspot hsid hv2 hs1]
        · right
          subst hb
          rfl

/-- When the first call takes its first four steps before the second call
takes one, the first call has saved the spot and the second call, once it has
read the spot, is turned down. -/
theorem first_saver_wins (db : DB) (spot : Spot) (now1 now2 : Time) (v1 v2 : Nat)
    (rest : List Bool)
    (hspot : firstSpot db spot.ID = some spot) (hfree : spot.IsOccupied = false)
    (hsid : spot.ID ≠ 0) (hv1 : v1 ≠ 0) (hv2 : v2 ≠ 0)
    (h1 : (firstVehicle db v1).isSome = true) (h2 : (firstVehicle db v2).isSome = true) :
    (TwoCalls.interleave ⟨⟨db, []⟩, EntryCall.start now1 spot.ID v1,
        EntryCall.start now2 spot.ID v2⟩ (List.replicate 4 true ++ rest)).first.hasSaved = true ∧
    ((TwoCalls.interleave ⟨⟨db, []⟩, EntryCall.start now1 spot.ID v1,
        EntryCall.start now2 spot.ID v2⟩ (List.replicate 4 true ++ rest)).second
      = EntryCall.start now2 spot.ID v2 ∨
     (TwoCalls.interleave ⟨⟨db, []⟩, EntryCall.start now1 spot.ID v1,
        EntryCall.start now2 spot.ID v2⟩ (List.replicate 4 true ++ rest)).second
      = EntryCall.done spotOccupiedResponse) := by
  have hl0 := Linked_start db spot now1 now2 v1 v2 hsid hv1 hv2 h1 h2
  have hl := Linked_interleave db spot hspot hfree (List.replicate 4 true) _ hl0
  have hsteps := interleave_first_steps 4
    ⟨⟨db, []⟩, EntryCall.start now1 spot.ID v1, EntryCall.start now2 spot.ID v2⟩
  have hrem : (TwoCalls.interleave ⟨⟨db, []⟩, EntryCall.start now1 spot.ID v1,
      EntryCall.start now2 spot.ID v2⟩ (List.replicate 4 true)).first.remaining ≤ 2 := by
    have := hsteps.1
    simp only [EntryCall.remaining] at this ⊢
    omega
  have hsnd := hsteps.2
  simp only at hsnd
  rw [interleave_append]
  generalize TwoCalls.interleave ⟨⟨db, []⟩, EntryCall.start now1 spot.ID v1,
    EntryCall.start now2 spot.ID v2⟩ (List.replicate 4 true) = q at hl hrem hsnd
  have hsaved : q.first.hasSaved = true := by
    rcases hasSaved_of_remaining_le db spot q.first hl.goodFirst hrem with hc | hc
    · exact hc
    · exfalso
      have := hl.rejectedFirst hc
      rw [hsnd] at this
      simp at this
  exact saved_interleave db spot now2 v2 hspot hfree hsid hv2 rest q hl hsaved (Or.inl hsnd)

theorem mixed_counts (l : List Bool) (h4 : l.length = 4)
    (hA : l ≠ List.replicate 4 true) (hB : l ≠ List.replicate 4 false) :
    l.count true ≤ 3 ∧ l.count false ≤ 3 ∧ 1 ≤ l.count true ∧ 1 ≤ l.count false := by
  match l, h4 with
  | [a, b, c, d], _ =>
    cases a <;> cases b <;> cases c <;> cases d <;> simp_all [List.replicate]

theorem stepsTaken_take_length (schedule : List Bool) :
    ((stepsTaken schedule).take 4).length = 4 := by
  simp [stepsTaken, entrySteps]

theorem runConcurrently_eq (db : DB) (first second : EntryCall) (schedule : List Bool) :
    runConcurrently db first second schedule
      = (TwoCalls.interleave ⟨⟨db, []⟩, first, second⟩ ((stepsTaken schedule).take 4)).interleave
          ((stepsTaken schedule).drop 4) := by
  rw [← interleave_append, List.take_append_drop]
  rfl

theorem status_created_ne_occupied (r : Response) (h : r.status = StatusCreated) :
    r ≠ spotOccupiedResponse := by
  intro hc
  rw [hc] at h
  simp [spotOccupiedResponse, StatusBadRequest, StatusCreated] at h

/-- When the second call takes its first four steps before the first call
takes one, the second call has saved the spot and the first call, once it has
read the spot, is turned down. -/
theorem second_saver_wins (db : DB) (spot : Spot) (now1 now2 : Time) (v1 v2 : Nat)
    (rest : List Bool)
    (hspot : firstSpot db spot.ID = some spot) (hfree : spot.IsOccupied = false)
    (hsid : spot.ID ≠ 0) (hv1 : v1 ≠ 0) (hv2 : v2 ≠ 0)
    (h1 : (firstVehicle db v1).isSome = true) (h2 : (firstVehicle db v2).isSome = true) :
    (TwoCalls.interleave ⟨⟨db, []⟩, EntryCall.start now1 spot.ID v1,
        EntryCall.start now2 spot.ID v2⟩ (List.replicate 4 false ++ rest)).second.hasSaved = true ∧
    ((TwoCalls.interleave ⟨⟨db, []⟩, EntryCall.start now1 spot.ID v1,
        EntryCall.start now2 spot.ID v2⟩ (List.replicate 4 false ++ rest)).first
      = EntryCall.start now1 spot.ID v1 ∨
     (TwoCalls.interleave ⟨⟨db, []⟩, EntryCall.start now1 spot.ID v1,
        EntryCall.start now2 spot.ID v2⟩ (List.replicate 4 false ++ rest)).first
      = EntryCall.done spotOccupiedResponse) := by
  have h := first_saver_wins db spot now2 now1 v2 v1 (rest.map (fun t => !t)) hspot hfree hsid
    hv2 hv1 h2 h1
  have hswap : (TwoCalls.interleave ⟨⟨db, []⟩, EntryCall.start now1 spot.ID v1,
        EntryCall.start now2 spot.ID v2⟩ (List.replicate 4 false ++ rest)).swap
      = TwoCalls.interleave ⟨⟨db, []⟩, EntryCall.start now2 spot.ID v2,
          EntryCall.start now1 spot.ID v1⟩ (List.replicate 4 true ++ rest.map (fun t => !t)) := by
    rw [interleave_swap]
    simp only [List.map_append, List.map_replicate, Bool.not_false]
    rfl
  rw [← hswap] at h
  exact h

/-- C11, amended: `CreateEntry` reads the spot, checks its flag, reads the
vehicle, creates the entry and saves the spot as separate storage statements
with no lock or transaction.  For two well-formed calls on a free spot, each
for an existing vehicle, with their steps interleaved in any order: both calls
answer, each with success or with the occupied-spot error; at least one
succeeds; the spot ends flagged, with one new open session for each call that
succeeded.  A call is turned down exactly when the other call has saved the
spot before it reads the spot; when each call reads the spot before the other
has saved it, both succeed and two sessions are created for the spot.  In
particular a call given all its steps before the other takes its first
succeeds and the other is turned down. -/
theorem concurrent_CreateEntry_outcomes (db : DB) (spot : Spot) (now1 now2 : Time)
    (v1 v2 : Nat) (schedule : List Bool)
    (hspot : firstSpot db spot.ID = some spot) (hfree : spot.IsOccupied = false)
    (hsid : spot.ID ≠ 0) (hv1 : v1 ≠ 0) (hv2 : v2 ≠ 0)
    (h1 : (firstVehicle db v1).isSome = true) (h2 : (firstVehicle db v2).isSome = true) :
    (∃ r1 r2,
      (runConcurrently db (EntryCall.start now1 spot.ID v1) (EntryCall.start now2 spot.ID v2)
        schedule).first = EntryCall.done r1 ∧
      (runConcurrently db (EntryCall.start now1 spot.ID v1) (EntryCall.start now2 spot.ID v2)
        schedule).second = EntryCall.done r2 ∧
      (r1.status = StatusCreated ∨ r1 = spotOccupiedResponse) ∧
      (r2.status = StatusCreated ∨ r2 = spotOccupiedResponse) ∧
      1 ≤ successCount r1 r2 ∧
      (openEntries (runConcurrently db (EntryCall.start now1 spot.ID v1)
        (EntryCall.start now2 spot.ID v2) schedule).shared.db spot.ID).length
        = (openEntries db spot.ID).length + successCount r1 r2 ∧
      firstSpot (runConcurrently db (EntryCall.start now1 spot.ID v1)
        (EntryCall.start now2 spot.ID v2) schedule).shared.db spot.ID
        = some { spot with IsOccupied := true } ∧
      (r2 = spotOccupiedResponse ↔ savesBeforeOtherReads true (stepsTaken schedule)) ∧
      (r1 = spotOccupiedResponse ↔ savesBeforeOtherReads false (stepsTaken schedule)) ∧
      (¬savesBeforeOtherReads true (stepsTaken schedule) →
        ¬savesBeforeOtherReads false (stepsTaken schedule) →
        r1.status = StatusCreated ∧ r2.status = StatusCreated ∧
        (openEntries (runConcurrently db (EntryCall.start now1 spot.ID v1)
          (EntryCall.start now2 spot.ID v2) schedule).shared.db spot.ID).length
          = (openEntries db spot.ID).length + 2)) ∧
    (∃ r1, r1.status = StatusCreated ∧
      (runConcurrently db (EntryCall.start now1 spot.ID v1) (EntryCall.start now2 spot.ID v2)
        (List.replicate entrySteps true ++ schedule)).first = EntryCall.done r1 ∧
      (runConcurrently db (EntryCall.start now1 spot.ID v1) (EntryCall.start now2 spot.ID v2)
        (List.replicate entrySteps true ++ schedule)).second
        = EntryCall.done spotOccupiedResponse) ∧
    (∃ r2, r2.status = StatusCreated ∧
      (runConcurrently db (EntryCall.start now1 spot.ID v1) (EntryCall.start now2 spot.ID v2)
        (List.replicate entrySteps false ++ schedule)).second = EntryCall.done r2 ∧
      (runConcurrently db (EntryCall.start now1 spot.ID v1) (EntryCall.start now2 spot.ID v2)
        (List.replicate entrySteps false ++ schedule)).first
        = EntryCall.done spotOccupiedResponse) := by
  obtain ⟨⟨r1, r2, e1, e2, g1, g2, hone, hsess, hflag⟩, hfirst, hsecond⟩ :=
    concurrent_CreateEntry_basic db spot now1 now2 v1 v2 schedule hspot hfree hsid hv1 hv2 h1 h2
  refine ⟨⟨r1, r2, e1, e2, g1, g2, hone, hsess, hflag, ?_⟩, hfirst, hsecond⟩
  have hrun := runConcurrently_eq db (EntryCall.start now1 spot.ID v1)
    (EntryCall.start now2 spot.ID v2) schedule
  have hocc : spotOccupiedResponse.status ≠ StatusCreated := by decide
  have caseA : savesBeforeOtherReads true (stepsTaken schedule) →
      r1.status = StatusCreated ∧ r2 = spotOccupiedResponse := by
    intro hA
    have hw := first_saver_wins db spot now1 now2 v1 v2 ((stepsTaken schedule).drop 4) hspot
      hfree hsid hv1 hv2 h1 h2
    unfold savesBeforeOtherReads at hA
    rw [interleave_append, ← hA, ← hrun, e1, e2] at hw
    obtain ⟨hs, hr⟩ := hw
    refine ⟨by simpa [EntryCall.hasSaved] using hs, ?_⟩
    rcases hr with hr | hr
    · cases hr
    · exact EntryCall.done.inj hr
  have caseB : savesBeforeOtherReads false (stepsTaken schedule) →
      r2.status = StatusCreated ∧ r1 = spotOccupiedResponse := by
    intro hB
    have hw := second_saver_wins db spot now1 now2 v1 v2 ((stepsTaken schedule).drop 4) hspot
      hfree hsid hv1 hv2 h1 h2
    unfold savesBeforeOtherReads at hB
    rw [interleave_append, ← hB, ← hrun, e1, e2] at hw
    obtain ⟨hs, hr⟩ := hw
    refine ⟨by simpa [EntryCall.hasSaved] using hs, ?_⟩
    rcases hr with hr | hr
    · cases hr
    · exact EntryCall.done.inj hr
  have caseC : ¬savesBeforeOtherReads true (stepsTaken schedule) →
      ¬savesBeforeOtherReads false (stepsTaken schedule) →
      r1.status = StatusCreated ∧ r2.status = StatusCreated := by
    intro hA hB
    unfold savesBeforeOtherReads at hA hB
    obtain ⟨c1, c2, c3, c4⟩ := mixed_counts _ (stepsTaken_take_length schedule) hA hB
    have hl0 := Linked_start db spot now1 now2 v1 v2 hsid hv1 hv2 h1 h2
    obtain ⟨hl, q1, q2⟩ := early_interleave db spot hspot hfree ((stepsTaken schedule).take 4)
      ⟨⟨db, []⟩, EntryCall.start now1 spot.ID v1, EntryCall.start now2 spot.ID v2⟩ 0 0 hl0
      rfl rfl (by omega) (by omega)
    have hp := passed_interleave db spot hspot hfree ((stepsTaken schedule).drop 4) _ hl
      (passed_of_remaining _ (by rw [q1]; omega) (by rw [q1]; omega))
      (passed_of_remaining _ (by rw [q2]; omega) (by rw [q2]; omega))
    rw [← hrun, e1, e2] at hp
    exact hp
  refine ⟨⟨?_, fun hA => (caseA hA).2⟩, ⟨?_, fun hB => (caseB hB).2⟩, ?_⟩
  · intro hr2
    by_contra hA
    by_cases hB : savesBeforeOtherReads false (stepsTaken schedule)
    · exact status_created_ne_occupied r2 (caseB hB).1 hr2
    · exact status_created_ne_occupied r2 (caseC hA hB).2 hr2
  · intro hr1
    by_contra hB
    by_cases hA : savesBeforeOtherReads true (stepsTaken schedule)
    · exact status_created_ne_occupied r1 (caseA hA).1 hr1
    · exact status_created_ne_occupied r1 (caseC hA hB).1 hr1
  · intro hA hB
    obtain ⟨s1, s2⟩ := caseC hA hB
    refine ⟨s1, s2, ?_⟩
    rw [hsess]
    simp [successCount, s1, s2]

/-- C11, amended, on the sample store with the alternating schedule: neither
call saves the spot before the other reads it, and both succeed. -/
theorem concurrent_CreateEntry_outcomes_witness :
    ∃ r1 r2,
      (runConcurrently freeSpotDB (EntryCall.start 10 1 1) (EntryCall.start 11 1 2)
        alternating).first = EntryCall.done r1 ∧
      (runConcurrently freeSpotDB (EntryCall.start 10 1 1) (EntryCall.start 11 1 2)
        alternating).second = EntryCall.done r2 ∧
      (r1.status = StatusCreated ∨ r1 = spotOccupiedResponse) ∧
      (r2.status = StatusCreated ∨ r2 = spotOccupiedResponse) ∧
      1 ≤ successCount r1 r2 ∧
      (openEntries (runConcurrently freeSpotDB (EntryCall.start 10 1 1)
        (EntryCall.start 11 1 2) alternating).shared.db 1).length
        = (openEntries freeSpotDB 1).length + successCount r1 r2 ∧
      firstSpot (runConcurrently freeSpotDB (EntryCall.start 10 1 1)
        (EntryCall.start 11 1 2) alternating).shared.db 1
        = some ⟨1, 1, "A1", true⟩ ∧
      (r2 = spotOccupiedResponse ↔ savesBeforeOtherReads true (stepsTaken alternating)) ∧
      (r1 = spotOccupiedResponse ↔ savesBeforeOtherReads false (stepsTaken alternating)) ∧
      (¬savesBeforeOtherReads true (stepsTaken alternating) →
        ¬savesBeforeOtherReads false (stepsTaken alternating) →
        r1.status = StatusCreated ∧ r2.status = StatusCreated ∧
        (openEntries (runConcurrently freeSpotDB (EntryCall.start 10 1 1)
          (EntryCall.start 11 1 2) alternating).shared.db 1).length
          = (openEntries freeSpotDB 1).length + 2) :=
  (concurrent_CreateEntry_outcomes freeSpotDB ⟨1, 1, "A1", false⟩ 10 11 1 2 alternating
    (by decide) rfl (by decide) (by decide) (by decide) (by decide) (by decide)).1

end ParkingManager
